import Mathlib

/-!
# nginx-log-zmq: publish-target registry and dispatch pipeline

A shallow embedding of `ngx_http_log_zmq.c` and `ngx_http_log_zmq_module.c`, and of the
merge of the older `ngx_http_brokerlog_module.c`.

Conventions of the embedding.

* A pointer that the source tests against `NULL` is an `Option`; `none` is `NULL`.
* `ngx_array_t *` is an `Option (List _)`: `nelts` is the length, `elts[i]` the i-th entry.
* A pointer into the definition array (`ngx_http_log_zmq_loc_element_conf_t.element`) is the
  index of the definition it points at, so that two bindings of one definition share its
  Transport Connection exactly as the aliasing pointers do.
* A function that dereferences a pointer without a test returns `Option`; `none` stands for
  the undefined behaviour of dereferencing `NULL` (or a pointer outside the array).
* `ngx_str_t` is the list of its `len` bytes; two buffers of one address space have a combined
  length below the range of `size_t`, so `len` sums are not reduced.
* Calls whose outcome the module cannot predict (pool allocation whose result is tested,
  every libzmq call) are appended to a call log; the outcome of the n-th call of a run is
  `reply n` of the environment, so quantifying over environments covers every outcome.
* Pool allocations at configuration time, and the two request-time allocations whose result
  the source never inspects (`ngx_pcalloc` in `zmq_create_socket`, `zmq_msg_init_size`),
  are taken to succeed.
* For the arrays of the log_zmq module `ngx_array_push` extends the array where it is: the
  indices of earlier entries keep denoting them, and the copy that nginx makes of an array
  grown past its capacity is not modelled. The merge of the brokerlog module keeps its
  `elts` pointers across `ngx_array_push`; there the arrays are modelled with their blocks
  and the copy (`ngx_array_t`, `ngx_array_push`).
* `ngx_int_t` is the 64-bit `intptr_t` of an LP64 platform. Values are kept as `Int`, and
  the conversions to the narrower C types of libzmq are explicit (`to_int`, `to_uint64`).
* The words of a directive are byte strings of any content, a NUL byte included; where the
  source reads a word as a C string (`ngx_strcmp`, `ngx_strncmp`) the model stops at the
  first NUL byte as the C function does.
* Error logging has no effect on the modelled state and is left out. The module is taken as
  built without `NGX_DEBUG`, where the debug log calls expand to nothing, their arguments
  included.
-/

namespace NgxLogZmq

/-! ## Base types -/

abbrev u_char := UInt8

/-- Model of `ngx_str_t`: the `len` bytes starting at `data`. -/
abbrev ngx_str_t := List u_char

abbrev ngx_int_t := Int

abbrev ngx_uint_t := Nat

def NGX_OK : ngx_int_t := 0

def NGX_ERROR : ngx_int_t := -1

/-- Byte string of an ASCII literal, as `ngx_string("...")`. -/
def ngx_string (s : String) : ngx_str_t := s.toList.map (fun c => c.toNat.toUInt8)

/-- Conversion of a 64-bit `ngx_int_t` to C `int` (two's complement, 32 bits). -/
def to_int (x : Int) : Int :=
  let m := x % 2 ^ 32
  if m < 2 ^ 31 then m else m - 2 ^ 32

/-- Conversion of a 64-bit `ngx_int_t` to `uint64_t`. -/
def to_uint64 (x : Int) : Int := x % 2 ^ 64

/-! ## The environment: transport library and pool -/

inductive zmq_sockopt
  | ZMQ_SNDHWM
  | ZMQ_LINGER
  deriving DecidableEq, Repr

/-- Socket type constant `ZMQ_PUB` of zmq.h. -/
def ZMQ_PUB : Nat := 1

def ZMQ_NGINX_LINGER : Int := 0

def ZMQ_NGINX_QUEUE_LENGTH : Int := 100

/-- One call out of the module. Handles are `Option Nat`, `none` being `NULL`. -/
inductive ext_call
  | ngx_palloc (size : Nat)
  | zmq_init (io_threads : Int)
  | zmq_socket (context : Option Nat) (type : Nat)
  | zmq_setsockopt (s : Option Nat) (option : zmq_sockopt) (value : Int)
  | zmq_connect (s : Option Nat) (addr : ngx_str_t)
  | zmq_msg_send (s : Option Nat) (msg : ngx_str_t)
  | zmq_close (s : Option Nat)
  | zmq_ctx_destroy (context : Option Nat)
  deriving DecidableEq, Repr

/-- What a call returns: `ptr` for the pointer-valued calls (`ngx_palloc`, `zmq_init`,
`zmq_socket`), `rc` for the int-valued ones. -/
structure ext_ret where
  ptr : Option Nat
  rc : Int
  deriving DecidableEq, Repr

/-- Model of `ngx_http_request_t` as far as the module looks at it: `r->connection->log`,
and an identity that the script engine renders against. -/
structure ngx_http_request_t where
  log : Option Nat
  id : Nat
  deriving DecidableEq, Repr

/-- The external collaborators at request time. `ngx_http_script_run r lengths values` is the
rendered string, `none` when the engine returns `NULL`. `reply n` is the outcome of the n-th
logged call. `fresh i` is the byte found at offset i of memory that `ngx_palloc` returns
uninitialised. `ZMQ_VERSION_MAJOR` is the version the module was compiled against. -/
structure ngx_env where
  ngx_http_script_run : ngx_http_request_t → List u_char → List u_char → Option ngx_str_t
  reply : Nat → ext_ret
  fresh : Nat → u_char
  ZMQ_VERSION_MAJOR : Nat

/-- The frames handed to `zmq_msg_send`, in call order, each with the socket handle it was
sent on. -/
def sends : List ext_call → List (Option Nat × ngx_str_t)
  | [] => []
  | ext_call.zmq_msg_send s msg :: cs => (s, msg) :: sends cs
  | _ :: cs => sends cs

/-- The frames handed to `zmq_msg_send`, in call order. -/
def frames (calls : List ext_call) : List ngx_str_t := (sends calls).map Prod.snd

/-! ## Data model (ngx_http_log_zmq_module.h) -/

inductive ngx_log_zmq_server_kind
  | TCP
  | IPC
  | INPROC
  deriving DecidableEq, Repr

/-- Model of `ngx_addr_t` (nginx core), kept as the bytes of the socket address and its
textual name. -/
structure ngx_addr_t where
  sockaddr : List u_char
  name : ngx_str_t
  deriving DecidableEq, Repr

structure ngx_log_zmq_server_t where
  peer_addr : ngx_addr_t
  kind : ngx_log_zmq_server_kind
  connection : ngx_str_t
  deriving DecidableEq, Repr

/-- The Transport Connection. -/
structure ngx_http_log_zmq_ctx_t where
  log : Option Nat
  iothreads : ngx_int_t
  zmq_context : Option Nat
  zmq_socket : Option Nat
  ccreated : Int
  screated : Int
  deriving DecidableEq, Repr

/-- The Target Definition. The compiled templates are the `ngx_array_t` code arrays the
script engine filled. -/
structure ngx_http_log_zmq_element_conf_t where
  server : Option ngx_log_zmq_server_t
  iothreads : ngx_int_t
  qlen : ngx_int_t
  data_lengths : Option (List u_char)
  data_values : Option (List u_char)
  endpoint_lengths : Option (List u_char)
  endpoint_values : Option (List u_char)
  cycle : Option Nat
  ctx : Option ngx_http_log_zmq_ctx_t
  name : Option ngx_str_t
  log : Option Nat
  sset : ngx_uint_t
  fset : ngx_uint_t
  eset : ngx_uint_t
  off : ngx_uint_t
  deriving DecidableEq, Repr

/-- The Scope Binding; `element` is the index of the definition pointed at. -/
structure ngx_http_log_zmq_loc_element_conf_t where
  off : ngx_uint_t
  element : Option Nat
  deriving DecidableEq, Repr

/-- Values of the `logs_definition` pointer of a scope: `NULL`, `NGX_CONF_UNSET_PTR`, or the
address of the definition array of the main configuration. -/
inductive logs_definition_ptr
  | null
  | unset
  | main_logs
  deriving DecidableEq, Repr

structure ngx_http_log_zmq_loc_conf_t where
  logs : Option (List ngx_http_log_zmq_loc_element_conf_t)
  off : ngx_uint_t
  log : Option Nat
  logs_definition : logs_definition_ptr
  deriving DecidableEq, Repr

structure ngx_http_log_zmq_main_conf_t where
  cycle : Option Nat
  log : Option Nat
  logs : Option (List ngx_http_log_zmq_element_conf_t)
  deriving DecidableEq, Repr

/-! ## ngx_http_log_zmq.c -/

/-- Model of `ngx_memcpy(dst + off, src, n)` on a buffer `dst`. -/
def ngx_memcpy (dst : List u_char) (off : Nat) (src : List u_char) (n : Nat) : List u_char :=
  dst.take off ++ src.take n ++ dst.drop (off + n)

/-- Embedding of `log_zmq_serialize`: returns the status, `*output` and the call log. On a
failed allocation `*output` is `len = 0`, `data = NULL`, the empty string. -/
def log_zmq_serialize (env : ngx_env) (calls : List ext_call) (endpoint data : ngx_str_t) :
    ngx_int_t × ngx_str_t × List ext_call :=
  let len := endpoint.length + data.length
  let p := (env.reply calls.length).ptr
  let calls := calls ++ [ext_call.ngx_palloc len]
  if p = none then
    (NGX_ERROR, [], calls)
  else
    let output := (List.range len).map env.fresh
    let output := ngx_memcpy output 0 endpoint endpoint.length
    let output := ngx_memcpy output endpoint.length data data.length
    (NGX_OK, output, calls)

/-- Embedding of `zmq_init_ctx`. -/
def zmq_init_ctx (env : ngx_env) (calls : List ext_call) (ctx : ngx_http_log_zmq_ctx_t) :
    Int × ngx_http_log_zmq_ctx_t × List ext_call :=
  let p := (env.reply calls.length).ptr
  let calls := calls ++ [ext_call.zmq_init (to_int ctx.iothreads)]
  let ctx := { ctx with zmq_context := p }
  if p = none then
    (-1, ctx, calls)
  else
    (0, { ctx with ccreated := 1 }, calls)

/-- Embedding of `zmq_create_ctx`. -/
def zmq_create_ctx (env : ngx_env) (calls : List ext_call)
    (cf : ngx_http_log_zmq_element_conf_t) :
    Int × ngx_http_log_zmq_element_conf_t × List ext_call :=
  match cf.ctx with
  | none => (1, cf, calls)
  | some ctx =>
    if ctx.ccreated = 1 then
      (0, cf, calls)
    else
      let ctx := { ctx with iothreads := cf.iothreads }
      let (rc, ctx, calls) := zmq_init_ctx env calls ctx
      (rc, { cf with ctx := some ctx }, calls)

/-- Embedding of `zmq_term_ctx`. -/
def zmq_term_ctx (calls : List ext_call) (ctx : ngx_http_log_zmq_ctx_t) :
    ngx_http_log_zmq_ctx_t × List ext_call :=
  let (ctx, calls) :=
    if ctx.zmq_socket ≠ none then
      ({ ctx with zmq_socket := none }, calls ++ [ext_call.zmq_close ctx.zmq_socket])
    else (ctx, calls)
  let (ctx, calls) :=
    if ctx.zmq_context ≠ none then
      ({ ctx with zmq_context := none }, calls ++ [ext_call.zmq_ctx_destroy ctx.zmq_context])
    else (ctx, calls)
  ({ ctx with log := none }, calls)

/-- The value `zmq_create_socket` passes as send high-water mark: `zmq_hwm_t` is `int` from
libzmq 3 on and `uint64_t` before. -/
def zmq_hwm (env : ngx_env) (qlen : ngx_int_t) : Int :=
  let q := if qlen < 0 then ZMQ_NGINX_QUEUE_LENGTH else qlen
  if env.ZMQ_VERSION_MAJOR < 3 then to_uint64 q else to_int q

/-- Second half of `zmq_create_socket` (from the `ZMQ_SNDHWM` option on): the options and
the connect, on the socket handle `ctx.zmq_socket`. `none`: `cf->server` is `NULL`. -/
def zmq_create_socket_connect (env : ngx_env) (calls : List ext_call)
    (cf : ngx_http_log_zmq_element_conf_t) (ctx : ngx_http_log_zmq_ctx_t) :
    Option (Int × ngx_http_log_zmq_element_conf_t × List ext_call) :=
  let qlen := zmq_hwm env cf.qlen
  let rc := (env.reply calls.length).rc
  let calls := calls ++ [ext_call.zmq_setsockopt ctx.zmq_socket zmq_sockopt.ZMQ_SNDHWM qlen]
  if rc ≠ 0 then
    some (-1, cf, calls)
  else
    let rc := (env.reply calls.length).rc
    let calls := calls ++
      [ext_call.zmq_setsockopt ctx.zmq_socket zmq_sockopt.ZMQ_LINGER ZMQ_NGINX_LINGER]
    if rc ≠ 0 then
      some (-1, cf, calls)
    else
      match cf.server with
      | none => none
      | some server =>
        let rc := (env.reply calls.length).rc
        let calls := calls ++ [ext_call.zmq_connect ctx.zmq_socket server.connection]
        if rc ≠ 0 then
          some (-1, cf, calls)
        else
          some (rc, cf, calls)

/-- Embedding of `zmq_create_socket`. `none`: `cf->ctx` or `cf->server` is `NULL` where the
source dereferences it. -/
def zmq_create_socket (env : ngx_env) (calls : List ext_call)
    (cf : ngx_http_log_zmq_element_conf_t) :
    Option (Int × ngx_http_log_zmq_element_conf_t × List ext_call) :=
  match cf.ctx with
  | none => none
  | some ctx =>
    if ctx.zmq_context = none then
      some (-1, cf, calls)
    else if ctx.screated = 0 then
      let s := (env.reply calls.length).ptr
      let calls := calls ++ [ext_call.zmq_socket ctx.zmq_context ZMQ_PUB]
      let ctx := { ctx with zmq_socket := s }
      if s = none then
        some (-1, { cf with ctx := some ctx }, calls)
      else
        let ctx := { ctx with screated := 1 }
        zmq_create_socket_connect env calls { cf with ctx := some ctx } ctx
    else
      zmq_create_socket_connect env calls cf ctx

/-! ## ngx_http_log_zmq_module.c: the request-time handler -/

/-- The two connection stages of the body of the `for` loop of `ngx_http_log_zmq_handler`
("create zmq context if needed", "open zmq socket if needed") for the definition `clecf`.
The result carries the `rc` that makes the source `continue` when it is not 0; in the source
`rc` is only looked at when the call that sets it was made, which the `0` of the other
branch stands for. `none`: a `NULL` dereference inside `zmq_create_socket`. -/
def ngx_http_log_zmq_handler_connect (env : ngx_env)
    (clecf : ngx_http_log_zmq_element_conf_t) (calls : List ext_call) :
    Option (Int × ngx_http_log_zmq_element_conf_t × List ext_call) :=
  match clecf.ctx with
  | none => none
  | some ctx =>
  -- create zmq context if needed
  let created :=
    if ctx.zmq_context = none ∧ ctx.ccreated = 0 then zmq_create_ctx env calls clecf
    else (0, clecf, calls)
  if created.1 ≠ 0 then some created
  else
  match created.2.1.ctx with
  | none => none
  | some ctx =>
  -- open zmq socket if needed
  if ctx.zmq_socket = none ∧ ctx.screated = 0 then
    zmq_create_socket env created.2.2 created.2.1
  else some (0, created.2.1, created.2.2)

/-- Last part of the body of the `for` loop of `ngx_http_log_zmq_handler`, from "create zmq
context if needed" to the send: `e` is the position of the definition `clecf` in the
definition array, `zmq_data` the serialized message. Message initialisation, copy, send and
close are the one logged call `zmq_msg_send` carrying the bytes. -/
def ngx_http_log_zmq_handler_send (env : ngx_env) (e : Nat)
    (clecf : ngx_http_log_zmq_element_conf_t) (zmq_data : ngx_str_t)
    (defs : List ngx_http_log_zmq_element_conf_t) (calls : List ext_call) :
    Option (List ngx_http_log_zmq_element_conf_t × List ext_call) :=
  match ngx_http_log_zmq_handler_connect env clecf calls with
  | none => none
  | some (rc, clecf, calls) =>
  if rc ≠ 0 then some (defs.set e clecf, calls)
  else
  match clecf.ctx with
  | none => none
  | some ctx =>
  some (defs.set e clecf, calls ++ [ext_call.zmq_msg_send ctx.zmq_socket zmq_data])

/-- Body of the `for` loop of `ngx_http_log_zmq_handler` for the binding `clelcf`; every
`continue` of the source is a return of the state reached so far. The state is the
definition array and the call log. `none`: the binding points outside the definition array,
or `data_values` or `endpoint_values` is `NULL` where the source dereferences it. -/
def ngx_http_log_zmq_handler_element (env : ngx_env) (r : ngx_http_request_t)
    (clelcf : ngx_http_log_zmq_loc_element_conf_t)
    (st : List ngx_http_log_zmq_element_conf_t × List ext_call) :
    Option (List ngx_http_log_zmq_element_conf_t × List ext_call) :=
  if clelcf.off = 1 then some st
  else
  match clelcf.element with
  | none => some st
  | some e =>
  match st.1[e]? with
  | none => none
  | some clecf =>
  -- we only proceed if all the variables were setted: endpoint, server, format
  if clecf.eset = 0 ∨ clecf.fset = 0 ∨ clecf.sset = 0 then some st
  else
  match clecf.name with
  | none => some st
  | some name =>
  if name.length = 0 then some st
  else
  match clecf.server with
  | none => some st
  | some _ =>
  match clecf.data_lengths with
  | none => some st
  | some data_lengths =>
  match clecf.endpoint_lengths with
  | none => some st
  | some endpoint_lengths =>
  match clecf.data_values with
  | none => none
  | some data_values =>
  match env.ngx_http_script_run r data_lengths data_values with
  | none => some st
  | some data =>
  match clecf.endpoint_values with
  | none => none
  | some endpoint_values =>
  match env.ngx_http_script_run r endpoint_lengths endpoint_values with
  | none => some st
  | some endpoint =>
  -- no data
  if data.length = 0 then some st
  else
  -- serialize to the final message format
  let serialized := log_zmq_serialize env st.2 endpoint data
  if serialized.1 = NGX_ERROR then some (st.1, serialized.2.2)
  else
  -- no context? we dont create any
  match clecf.ctx with
  | none => some (st.1, serialized.2.2)
  | some ctx =>
  ngx_http_log_zmq_handler_send env e { clecf with ctx := some { ctx with log := r.log } }
    serialized.2.1 st.1 serialized.2.2

/-- The `for` loop of `ngx_http_log_zmq_handler` over the bindings from position `i` on. -/
def ngx_http_log_zmq_handler_loop (env : ngx_env) (r : ngx_http_request_t) :
    List ngx_http_log_zmq_loc_element_conf_t →
    List ngx_http_log_zmq_element_conf_t × List ext_call →
    Option (List ngx_http_log_zmq_element_conf_t × List ext_call)
  | [], st => some st
  | clelcf :: rest, st =>
    match ngx_http_log_zmq_handler_element env r clelcf st with
    | none => none
    | some st => ngx_http_log_zmq_handler_loop env r rest st

/-- Embedding of `ngx_http_log_zmq_handler`: `lccf` is the location configuration of the
request, `defs` the definition array, `calls` the call log so far. `none`: `lccf->logs` is
`NULL`, or the loop dereferenced a `NULL` pointer. -/
def ngx_http_log_zmq_handler (env : ngx_env) (r : ngx_http_request_t)
    (lccf : ngx_http_log_zmq_loc_conf_t)
    (defs : List ngx_http_log_zmq_element_conf_t) (calls : List ext_call) :
    Option (ngx_int_t × List ngx_http_log_zmq_element_conf_t × List ext_call) :=
  if lccf.off = 1 then
    some (NGX_OK, defs, calls)
  else
    match lccf.logs with
    | none => none
    | some lelcf =>
      match ngx_http_log_zmq_handler_loop env r lelcf (defs, calls) with
      | none => none
      | some st => some (NGX_OK, st.1, st.2)

/-! ## ngx_http_log_zmq_module.c: configuration time -/

/-- Return value of a directive handler or of a merge: `NGX_CONF_OK` or `NGX_CONF_ERROR`. -/
inductive ngx_conf_rc
  | NGX_CONF_OK
  | NGX_CONF_ERROR
  deriving DecidableEq, Repr

def NGX_HTTP_MAIN_CONF : Nat := 0x02000000

/-- Model of `ngx_url_t` as far as the module sets or reads it. -/
structure ngx_url_t where
  url : ngx_str_t
  default_port : Nat
  no_resolve : Nat
  listen : Nat
  addrs : List ngx_addr_t
  deriving DecidableEq, Repr

/-- Model of `ngx_conf_t` as far as the module looks at it: the arguments of the directive
(`cf->args->elts`), `cf->cmd_type`, `cf->log`, `cf->cycle`, `cf->cycle->log`, and the main
configuration that `ngx_http_conf_get_module_main_conf` returns. -/
structure ngx_conf_t where
  args : List ngx_str_t
  cmd_type : Nat
  log : Option Nat
  cycle : Option Nat
  cycle_log : Option Nat
  main_conf : Option ngx_http_log_zmq_main_conf_t
  deriving DecidableEq, Repr

/-- The nginx services used at configuration time. `ngx_atoi s` is the parsed number or
`NGX_ERROR`; `ngx_parse_url u` is the status and `u` as the call leaves it;
`ngx_http_script_compile source` is the pair of code arrays (lengths, values) compiled from
`source` into arrays that were `NULL`, `none` when the status is not `NGX_OK`. -/
structure ngx_conf_env where
  ngx_atoi : ngx_str_t → ngx_int_t
  ngx_parse_url : ngx_url_t → ngx_int_t × ngx_url_t
  ngx_http_script_compile : ngx_str_t → Option (List u_char × List u_char)

/-- Model of `ngx_strncmp` (C `strncmp`): at most `n` bytes are compared and the comparison
stops at a NUL byte. A buffer that ends before `n` bytes is read as ending in NUL; the module
only calls it with `n` within both buffers. -/
def ngx_strncmp : List u_char → List u_char → Nat → Int
  | _, _, 0 => 0
  | s1, s2, n + 1 =>
    let c1 := s1.headD 0
    let c2 := s2.headD 0
    if c1 ≠ c2 then (c1.toNat : Int) - (c2.toNat : Int)
    else if c1 = 0 then 0
    else ngx_strncmp s1.tail s2.tail n

/-- Model of `ngx_strcmp` (C `strcmp`) on the NUL-terminated strings whose bytes before the
terminator, or before an earlier NUL byte, are `s1` and `s2`. -/
def ngx_strcmp : List u_char → List u_char → Int
  | [], s2 => - ((s2.headD 0).toNat : Int)
  | c1 :: s1, s2 =>
    let c2 := s2.headD 0
    if c1 ≠ c2 then (c1.toNat : Int) - (c2.toNat : Int)
    else if c1 = 0 then 0
    else ngx_strcmp s1 s2.tail

/-- The name test of the module:
`a->len == b->len && ngx_strncmp(a->data, b->data, a->len) == 0`. -/
def name_matches (a b : ngx_str_t) : Bool :=
  a.length == b.length && ngx_strncmp a b a.length == 0

/-- The value a scope stores in `logs_definition` when it is assigned `bkmc->logs`. -/
def logs_ptr (bkmc : ngx_http_log_zmq_main_conf_t) : logs_definition_ptr :=
  match bkmc.logs with
  | none => logs_definition_ptr.null
  | some _ => logs_definition_ptr.main_logs

/-- The search loop over the definition array, in `ngx_http_log_zmq_create_definition` and
again in `ngx_http_log_zmq_set_off`: the position of the first definition whose name matches
`name`, from position `i` on. `none`: a definition reached by the loop has a `NULL` name. -/
def find_definition (name : ngx_str_t) :
    List ngx_http_log_zmq_element_conf_t → Nat → Option (Option Nat)
  | [], _ => some none
  | lecf :: rest, i =>
    match lecf.name with
    | none => none
    | some n =>
      if name_matches n name then some (some i)
      else find_definition name rest (i + 1)

/-- A zeroed `ngx_http_log_zmq_element_conf_t`, as `ngx_memzero` leaves it. -/
def zero_element_conf : ngx_http_log_zmq_element_conf_t :=
  { server := none, iothreads := 0, qlen := 0, data_lengths := none, data_values := none,
    endpoint_lengths := none, endpoint_values := none, cycle := none, ctx := none,
    name := none, log := none, sset := 0, fset := 0, eset := 0, off := 0 }

/-- A zeroed `ngx_http_log_zmq_ctx_t`, as `ngx_pcalloc` returns it. -/
def zero_ctx : ngx_http_log_zmq_ctx_t :=
  { log := none, iothreads := 0, zmq_context := none, zmq_socket := none,
    ccreated := 0, screated := 0 }

/-- Embedding of `ngx_http_log_zmq_create_definition`: the main configuration as the call
leaves it and the position of the definition returned. `none`: `NULL` name dereferenced. -/
def ngx_http_log_zmq_create_definition (bkmc : ngx_http_log_zmq_main_conf_t)
    (name : ngx_str_t) : Option (ngx_http_log_zmq_main_conf_t × Nat) :=
  match bkmc.logs with
  | some logs =>
    match find_definition name logs 0 with
    | none => none
    | some (some i) => some (bkmc, i)
    | some none => some ({ bkmc with logs := some (logs ++ [zero_element_conf]) }, logs.length)
  | none =>
    some ({ bkmc with logs := some [zero_element_conf] }, 0)

/-- The search loop of `ngx_http_log_zmq_create_location_element` over the bindings of a
scope, from position `i` on. `none`: a binding reached by the loop has a `NULL` element, or
its definition has a `NULL` name. -/
def find_location_element (defs : List ngx_http_log_zmq_element_conf_t) (name : ngx_str_t) :
    List ngx_http_log_zmq_loc_element_conf_t → Nat → Option (Option Nat)
  | [], _ => some none
  | lelcf :: rest, i =>
    match lelcf.element with
    | none => none
    | some e =>
      match defs[e]? with
      | none => none
      | some element =>
        match element.name with
        | none => none
        | some n =>
          if name_matches n name then some (some i)
          else find_location_element defs name rest (i + 1)

/-- A zeroed `ngx_http_log_zmq_loc_element_conf_t`. -/
def zero_loc_element : ngx_http_log_zmq_loc_element_conf_t := { off := 0, element := none }

/-- Embedding of `ngx_http_log_zmq_create_location_element`: the scope as the call leaves it
and the position of the binding returned; `defs` is the definition array the bindings point
into. -/
def ngx_http_log_zmq_create_location_element (defs : List ngx_http_log_zmq_element_conf_t)
    (llcf : ngx_http_log_zmq_loc_conf_t) (name : ngx_str_t) :
    Option (ngx_http_log_zmq_loc_conf_t × Nat) :=
  match llcf.logs with
  | some logs =>
    match find_location_element defs name logs 0 with
    | none => none
    | some (some i) => some (llcf, i)
    | some none => some ({ llcf with logs := some (logs ++ [zero_loc_element]) }, logs.length)
  | none =>
    some ({ llcf with logs := some [zero_loc_element] }, 0)

/-- Embedding of `ngx_http_log_zmq_create_main_conf`. -/
def ngx_http_log_zmq_create_main_conf (cf : ngx_conf_t) : ngx_http_log_zmq_main_conf_t :=
  { cycle := cf.cycle, log := cf.log, logs := some [] }

/-- Embedding of `ngx_http_log_zmq_create_loc_conf`. -/
def ngx_http_log_zmq_create_loc_conf (cf : ngx_conf_t) : ngx_http_log_zmq_loc_conf_t :=
  { logs := some [], off := 0, log := cf.log, logs_definition := logs_definition_ptr.unset }

/-- Embedding of `__get_default_port`. -/
def __get_default_port (kind : ngx_log_zmq_server_kind) : Nat :=
  match kind with
  | ngx_log_zmq_server_kind.TCP => 5555
  | ngx_log_zmq_server_kind.IPC => 0
  | ngx_log_zmq_server_kind.INPROC => 0

def ZMQ_TCP_KEY : ngx_str_t := ngx_string "tcp"

def ZMQ_TCP_HANDLER : ngx_str_t := ngx_string "tcp://"

def ZMQ_TCP_HLEN : Nat := 6

def ZMQ_IPC_KEY : ngx_str_t := ngx_string "ipc"

def ZMQ_IPC_HANDLER : ngx_str_t := ngx_string "ipc://"

def ZMQ_IPC_HLEN : Nat := 6

def ZMQ_INPROC_KEY : ngx_str_t := ngx_string "inproc"

def ZMQ_INPROC_HANDLER : ngx_str_t := ngx_string "inproc://"

def ZMQ_INPROC_HLEN : Nat := 9

/-- The `connection` buffer `ngx_http_log_zmq_set_server` builds in its `switch`: `zmq_hdlen`
bytes of the handler string followed by the bytes of `u.url`, `connlen` bytes in all. -/
def build_connection (kind : ngx_log_zmq_server_kind) (url : ngx_str_t) : ngx_str_t :=
  match kind with
  | ngx_log_zmq_server_kind.TCP =>
    let connlen := url.length + ZMQ_TCP_HLEN
    let connection := List.replicate (connlen + 1) (0 : u_char)
    let connection := ngx_memcpy connection 0 ZMQ_TCP_HANDLER ZMQ_TCP_HLEN
    let connection := ngx_memcpy connection ZMQ_TCP_HLEN url url.length
    connection.take connlen
  | ngx_log_zmq_server_kind.IPC =>
    let connlen := url.length + ZMQ_IPC_HLEN
    let connection := List.replicate (connlen + 1) (0 : u_char)
    let connection := ngx_memcpy connection 0 ZMQ_IPC_HANDLER ZMQ_IPC_HLEN
    let connection := ngx_memcpy connection ZMQ_IPC_HLEN url url.length
    connection.take connlen
  | ngx_log_zmq_server_kind.INPROC =>
    let connlen := url.length + ZMQ_INPROC_HLEN
    let connection := List.replicate (connlen + 1) (0 : u_char)
    let connection := ngx_memcpy connection 0 ZMQ_INPROC_HANDLER ZMQ_INPROC_HLEN
    let connection := ngx_memcpy connection ZMQ_INPROC_HLEN url url.length
    connection.take connlen

/-- The state a directive handler works on: the main configuration (reached through `cf`)
and the scope `conf` it was called for. -/
abbrev conf_state := ngx_http_log_zmq_main_conf_t × ngx_http_log_zmq_loc_conf_t

/-- Writes `f` applied to the definition at position `i` back into the definition array. -/
def update_definition (bkmc : ngx_http_log_zmq_main_conf_t) (i : Nat)
    (f : ngx_http_log_zmq_element_conf_t → ngx_http_log_zmq_element_conf_t) :
    ngx_http_log_zmq_main_conf_t :=
  { bkmc with logs := bkmc.logs.map (fun logs => logs.modify f i) }

/-- Writes `f` applied to the binding at position `j` back into the binding array. -/
def update_location_element (llcf : ngx_http_log_zmq_loc_conf_t) (j : Nat)
    (f : ngx_http_log_zmq_loc_element_conf_t → ngx_http_log_zmq_loc_element_conf_t) :
    ngx_http_log_zmq_loc_conf_t :=
  { llcf with logs := llcf.logs.map (fun logs => logs.modify f j) }

/-- The `if` / `else if` chain of `ngx_http_log_zmq_set_server` on the protocol word:
the kind selected, `none` when the word is none of the three keys. -/
def set_server_kind (kind : ngx_str_t) : Option ngx_log_zmq_server_kind :=
  if ngx_strcmp kind ZMQ_TCP_KEY = 0 then some ngx_log_zmq_server_kind.TCP
  else if ngx_strcmp kind ZMQ_IPC_KEY = 0 then some ngx_log_zmq_server_kind.IPC
  else if ngx_strcmp kind ZMQ_INPROC_KEY = 0 then some ngx_log_zmq_server_kind.INPROC
  else none

/-- The url step of `ngx_http_log_zmq_set_server`: for TCP the url is handed to
`ngx_parse_url` with the default port of the kind, `no_resolve = 0` and `listen = 1`, and the
peer address is `u.addrs[0]`; for the other kinds `u.url` is the argument and the peer
address stays zeroed. The result is `u` and the peer address; `some none` when
`ngx_parse_url` does not return `NGX_OK`; `none` when `u.addrs` is empty after it did. The
fields of `u` that the source leaves uninitialised are not modelled. -/
def set_server_url (env : ngx_conf_env) (kind : ngx_log_zmq_server_kind) (value2 : ngx_str_t) :
    Option (Option (ngx_url_t × ngx_addr_t)) :=
  if kind = ngx_log_zmq_server_kind.TCP then
    let u : ngx_url_t :=
      { url := value2, default_port := __get_default_port kind, no_resolve := 0, listen := 1,
        addrs := [] }
    let res := env.ngx_parse_url u
    if res.1 ≠ NGX_OK then some none
    else
      match res.2.addrs.head? with
      | none => none
      | some addr => some (some (res.2, addr))
  else
    some (some ({ url := value2, default_port := 0, no_resolve := 0, listen := 0, addrs := [] },
      { sockaddr := [], name := [] }))

/-- Embedding of `ngx_http_log_zmq_set_server`: the status, the main configuration and the
scope as the call leaves them (also when it fails). `none`: an argument of the directive is
missing, a `NULL` name is dereferenced by a search loop, or `u.addrs` is empty after a
successful `ngx_parse_url`. -/
def ngx_http_log_zmq_set_server (env : ngx_conf_env) (cf : ngx_conf_t)
    (llcf : ngx_http_log_zmq_loc_conf_t) :
    Option (ngx_conf_rc × Option ngx_http_log_zmq_main_conf_t × ngx_http_log_zmq_loc_conf_t) :=
  if cf.cmd_type ≠ NGX_HTTP_MAIN_CONF then
    some (ngx_conf_rc.NGX_CONF_ERROR, cf.main_conf, llcf)
  else
  match cf.main_conf with
  | none => some (ngx_conf_rc.NGX_CONF_ERROR, none, llcf)
  | some bkmc =>
  match cf.args[1]? with
  | none => none
  | some value1 =>
  match cf.args[2]? with
  | none => none
  | some value2 =>
  match cf.args[3]? with
  | none => none
  | some value3 =>
  match cf.args[4]? with
  | none => none
  | some value4 =>
  match cf.args[5]? with
  | none => none
  | some value5 =>
  match ngx_http_log_zmq_create_definition bkmc value1 with
  | none => none
  | some (bkmc, lecf) =>
  -- set the location logs to main configuration logs
  let llcf := { llcf with logs_definition := logs_ptr bkmc }
  match bkmc.logs.bind (fun logs => logs[lecf]?) with
  | none => none
  | some definition =>
  if definition.sset = 1 then
    some (ngx_conf_rc.NGX_CONF_ERROR, some bkmc, llcf)
  else
  match ngx_http_log_zmq_create_location_element (bkmc.logs.getD []) llcf value1 with
  | none => none
  | some (llcf, lelcf) =>
  -- create ZMQ context structure, update definition name and cycle log
  let bkmc := update_definition bkmc lecf (fun d =>
    { d with ctx := some { zero_ctx with log := cf.cycle_log }, name := some value1,
             log := cf.cycle_log, off := 0 })
  -- set the type of protocol TCP|IPC|INPROC
  match set_server_kind value3 with
  | none => some (ngx_conf_rc.NGX_CONF_ERROR, some bkmc, llcf)
  | some kind =>
  -- set the number of threads associated with this context
  let iothreads := env.ngx_atoi value4
  if iothreads = NGX_ERROR ∨ iothreads ≤ 0 then
    some (ngx_conf_rc.NGX_CONF_ERROR, some bkmc, llcf)
  else
  let bkmc := update_definition bkmc lecf (fun d => { d with iothreads := iothreads })
  -- set the queue size associated with this context
  let qlen := env.ngx_atoi value5
  let bkmc := update_definition bkmc lecf (fun d => { d with qlen := qlen })
  -- if the protocol used is TCP, parse it and use nginx parse_url to validate the input
  match set_server_url env kind value2 with
  | none => none
  | some none => some (ngx_conf_rc.NGX_CONF_ERROR, some bkmc, llcf)
  | some (some (u, peer_addr)) =>
  -- create a connection based on the protocol type
  let connection := build_connection kind u.url
  let endpoint : ngx_log_zmq_server_t :=
    { peer_addr := peer_addr, kind := kind, connection := connection }
  -- set the server as done
  let bkmc := update_definition bkmc lecf (fun d => { d with server := some endpoint, sset := 1 })
  -- by default, the configuration for this location is unmuted
  let llcf := update_location_element llcf lelcf (fun _ => { off := 0, element := some lecf })
  -- by default, the configuration is unmuted
  let llcf := { llcf with off := 0 }
  some (ngx_conf_rc.NGX_CONF_OK, some bkmc, llcf)

/-- Embedding of `ngx_http_log_zmq_set_format`; result and `none` as for
`ngx_http_log_zmq_set_server`. The arguments from `value[2]` on are the template parts. -/
def ngx_http_log_zmq_set_format (env : ngx_conf_env) (cf : ngx_conf_t)
    (llcf : ngx_http_log_zmq_loc_conf_t) :
    Option (ngx_conf_rc × Option ngx_http_log_zmq_main_conf_t × ngx_http_log_zmq_loc_conf_t) :=
  if cf.cmd_type ≠ NGX_HTTP_MAIN_CONF then
    some (ngx_conf_rc.NGX_CONF_ERROR, cf.main_conf, llcf)
  else
  match cf.main_conf with
  | none => some (ngx_conf_rc.NGX_CONF_ERROR, none, llcf)
  | some bkmc =>
  match cf.args[1]? with
  | none => none
  | some value1 =>
  match ngx_http_log_zmq_create_definition bkmc value1 with
  | none => none
  | some (bkmc, lecf) =>
  let llcf := { llcf with logs_definition := logs_ptr bkmc }
  match bkmc.logs.bind (fun logs => logs[lecf]?) with
  | none => none
  | some definition =>
  if definition.fset = 1 then
    some (ngx_conf_rc.NGX_CONF_ERROR, some bkmc, llcf)
  else
  match ngx_http_log_zmq_create_location_element (bkmc.logs.getD []) llcf value1 with
  | none => none
  | some (llcf, lelcf) =>
  let bkmc := update_definition bkmc lecf (fun d =>
    { d with data_lengths := none, data_values := none })
  -- we support multiline logs format
  let parts := cf.args.drop 2
  let log_len := (parts.map List.length).sum
  let log_format := parts.foldl
    (fun (acc : List u_char × Nat) value =>
      (ngx_memcpy acc.1 acc.2 value value.length, acc.2 + value.length))
    (List.replicate (log_len + 1) (0 : u_char), 0)
  let log_format := log_format.1.take log_len
  -- recompile all together
  match env.ngx_http_script_compile log_format with
  | none => some (ngx_conf_rc.NGX_CONF_ERROR, some bkmc, llcf)
  | some (lengths, values) =>
  let bkmc := update_definition bkmc lecf (fun d =>
    { d with data_lengths := some lengths, data_values := some values, fset := 1 })
  let llcf := update_location_element llcf lelcf (fun _ => { off := 0, element := some lecf })
  let llcf := { llcf with off := 0 }
  some (ngx_conf_rc.NGX_CONF_OK, some bkmc, llcf)

/-- Embedding of `ngx_http_log_zmq_set_endpoint`; result and `none` as for
`ngx_http_log_zmq_set_server`. -/
def ngx_http_log_zmq_set_endpoint (env : ngx_conf_env) (cf : ngx_conf_t)
    (llcf : ngx_http_log_zmq_loc_conf_t) :
    Option (ngx_conf_rc × Option ngx_http_log_zmq_main_conf_t × ngx_http_log_zmq_loc_conf_t) :=
  if cf.cmd_type ≠ NGX_HTTP_MAIN_CONF then
    some (ngx_conf_rc.NGX_CONF_ERROR, cf.main_conf, llcf)
  else
  match cf.main_conf with
  | none => some (ngx_conf_rc.NGX_CONF_ERROR, none, llcf)
  | some bkmc =>
  match cf.args[1]? with
  | none => none
  | some value1 =>
  match cf.args[2]? with
  | none => none
  | some value2 =>
  match ngx_http_log_zmq_create_definition bkmc value1 with
  | none => none
  | some (bkmc, lecf) =>
  let llcf := { llcf with logs_definition := logs_ptr bkmc }
  match bkmc.logs.bind (fun logs => logs[lecf]?) with
  | none => none
  | some definition =>
  if definition.eset = 1 then
    some (ngx_conf_rc.NGX_CONF_ERROR, some bkmc, llcf)
  else
  match ngx_http_log_zmq_create_location_element (bkmc.logs.getD []) llcf value1 with
  | none => none
  | some (llcf, lelcf) =>
  let bkmc := update_definition bkmc lecf (fun d =>
    { d with endpoint_lengths := none, endpoint_values := none })
  match env.ngx_http_script_compile value2 with
  | none => some (ngx_conf_rc.NGX_CONF_ERROR, some bkmc, llcf)
  | some (lengths, values) =>
  let bkmc := update_definition bkmc lecf (fun d =>
    { d with endpoint_lengths := some lengths, endpoint_values := some values, eset := 1 })
  let llcf := update_location_element llcf lelcf (fun _ => { off := 0, element := some lecf })
  let llcf := { llcf with off := 0 }
  some (ngx_conf_rc.NGX_CONF_OK, some bkmc, llcf)

/-- Embedding of `ngx_http_log_zmq_set_off`; result and `none` as for
`ngx_http_log_zmq_set_server`. -/
def ngx_http_log_zmq_set_off (cf : ngx_conf_t) (llcf : ngx_http_log_zmq_loc_conf_t) :
    Option (ngx_conf_rc × Option ngx_http_log_zmq_main_conf_t × ngx_http_log_zmq_loc_conf_t) :=
  match cf.main_conf with
  | none => some (ngx_conf_rc.NGX_CONF_ERROR, none, llcf)
  | some bkmc =>
  match bkmc.logs with
  | none => some (ngx_conf_rc.NGX_CONF_ERROR, some bkmc, llcf)
  | some logs =>
  let llcf := { llcf with logs_definition := logs_ptr bkmc }
  match cf.args[1]? with
  | none => none
  | some value1 =>
  if value1.length = 3 ∧ ngx_strncmp value1 (ngx_string "all") value1.length = 0 then
    some (ngx_conf_rc.NGX_CONF_OK, some bkmc, { llcf with off := 1 })
  else
  -- let's verify if we are muting an existent definition
  match find_definition value1 logs 0 with
  | none => none
  | some none => some (ngx_conf_rc.NGX_CONF_ERROR, some bkmc, llcf)
  | some (some lecf) =>
  let llcf := { llcf with off := 0 }
  match ngx_http_log_zmq_create_location_element logs llcf value1 with
  | none => none
  | some (llcf, lelcf) =>
  let llcf := update_location_element llcf lelcf (fun _ => { off := 1, element := some lecf })
  some (ngx_conf_rc.NGX_CONF_OK, some bkmc, llcf)

/-- The inner loop of `ngx_http_log_zmq_merge_loc_conf` for the definition name `ename`
(`element[i].name`): whether a binding of the scope carries a matching name. The loop has no
`break`. `none`: `element[i].name`, a binding's element or its name is `NULL`. -/
def merge_found (defs : List ngx_http_log_zmq_element_conf_t) (ename : Option ngx_str_t) :
    List ngx_http_log_zmq_loc_element_conf_t → Nat → Option Nat
  | [], found => some found
  | locelement :: rest, found =>
    match ename with
    | none => none
    | some en =>
      match locelement.element with
      | none => none
      | some c =>
        match defs[c]? with
        | none => none
        | some curelement =>
          match curelement.name with
          | none => none
          | some cn =>
            if name_matches en cn then merge_found defs ename rest 1
            else merge_found defs ename rest found

/-- The outer loop of `ngx_http_log_zmq_merge_loc_conf` over the definitions `element[i]`,
`i` from the position of the head of `todo` on; `logs` is `conf->logs`. -/
def merge_loop (defs : List ngx_http_log_zmq_element_conf_t) :
    List ngx_http_log_zmq_element_conf_t → Nat → List ngx_http_log_zmq_loc_element_conf_t →
    Option (List ngx_http_log_zmq_loc_element_conf_t)
  | [], _, logs => some logs
  | element :: todo, i, logs =>
    match merge_found defs element.name logs 0 with
    | none => none
    | some found =>
      if found = 0 then
        merge_loop defs todo (i + 1) (logs ++ [{ off := 0, element := some i }])
      else
        merge_loop defs todo (i + 1) logs

/-- Embedding of `ngx_http_log_zmq_merge_loc_conf`: the status and the child scope `conf` as
the merge leaves it. `none`: a `NULL` dereference in the loops, or `prev->logs_definition`
points at a definition array that does not exist. -/
def ngx_http_log_zmq_merge_loc_conf (cf : ngx_conf_t)
    (prev conf : ngx_http_log_zmq_loc_conf_t) :
    Option (ngx_conf_rc × ngx_http_log_zmq_loc_conf_t) :=
  match cf.main_conf with
  | none => some (ngx_conf_rc.NGX_CONF_ERROR, conf)
  | some bkmc =>
  let conf := if conf.log = none then { conf with log := prev.log } else conf
  let conf :=
    if conf.logs_definition = logs_definition_ptr.null ∨
        conf.logs_definition = logs_definition_ptr.unset then
      { conf with logs_definition := prev.logs_definition }
    else conf
  if prev.logs_definition = logs_definition_ptr.main_logs then
    match bkmc.logs with
    | none => none
    | some element =>
      let logs := conf.logs.getD []
      match merge_loop element element 0 logs with
      | none => none
      | some logs => some (ngx_conf_rc.NGX_CONF_OK, { conf with logs := some logs })
  else
    some (ngx_conf_rc.NGX_CONF_OK, conf)

/-! ## Predicates used to state the properties -/

/-- Every field of a definition other than its Transport Connection is the same. -/
def same_config (d d' : ngx_http_log_zmq_element_conf_t) : Prop :=
  d'.server = d.server ∧ d'.iothreads = d.iothreads ∧ d'.qlen = d.qlen ∧
  d'.data_lengths = d.data_lengths ∧ d'.data_values = d.data_values ∧
  d'.endpoint_lengths = d.endpoint_lengths ∧ d'.endpoint_values = d.endpoint_values ∧
  d'.cycle = d.cycle ∧ d'.name = d.name ∧ d'.log = d.log ∧
  d'.sset = d.sset ∧ d'.fset = d.fset ∧ d'.eset = d.eset ∧ d'.off = d.off

/-- A compiled template has both of its code arrays or neither, as
`ngx_http_script_compile` leaves them. -/
def templates_paired (d : ngx_http_log_zmq_element_conf_t) : Prop :=
  (d.data_lengths ≠ none → d.data_values ≠ none) ∧
  (d.endpoint_lengths ≠ none → d.endpoint_values ≠ none)

/-- The binding points at nothing or at an entry of the definition array. -/
def points_into (defs : List ngx_http_log_zmq_element_conf_t)
    (b : ngx_http_log_zmq_loc_element_conf_t) : Prop :=
  ∀ e, b.element = some e → e < defs.length

/-- A scope as configuration loading leaves it for the handler: the binding array exists,
every binding points into the definition array, every template is paired. -/
def scope_wf (lccf : ngx_http_log_zmq_loc_conf_t)
    (defs : List ngx_http_log_zmq_element_conf_t) : Prop :=
  (∃ bs, lccf.logs = some bs ∧ ∀ b ∈ bs, points_into defs b) ∧
  ∀ d ∈ defs, templates_paired d

/-- The binding `b` is not skipped when the loop reaches it in state `(defs, calls)`: it is
not muted, it points at the definition `d` at position `e`, whose server, format and
endpoint are set, both templates render (to `body` and `topic`), the body is not empty, the
output buffer is allocated, and the connection stages end with `rc = 0`, leaving the
definition as `clecf` and the call log as `calls1`. -/
def dispatched (env : ngx_env) (r : ngx_http_request_t)
    (b : ngx_http_log_zmq_loc_element_conf_t)
    (defs : List ngx_http_log_zmq_element_conf_t) (calls : List ext_call)
    (e : Nat) (d : ngx_http_log_zmq_element_conf_t) (topic body : ngx_str_t)
    (clecf : ngx_http_log_zmq_element_conf_t) (calls1 : List ext_call) : Prop :=
  b.off ≠ 1 ∧ b.element = some e ∧ defs[e]? = some d ∧
  d.sset ≠ 0 ∧ d.fset ≠ 0 ∧ d.eset ≠ 0 ∧
  (∃ name, d.name = some name ∧ name ≠ []) ∧ d.server ≠ none ∧
  (∃ dl dv, d.data_lengths = some dl ∧ d.data_values = some dv ∧
    env.ngx_http_script_run r dl dv = some body) ∧
  (∃ el ev, d.endpoint_lengths = some el ∧ d.endpoint_values = some ev ∧
    env.ngx_http_script_run r el ev = some topic) ∧
  body ≠ [] ∧
  (env.reply calls.length).ptr ≠ none ∧
  ∃ ctx, d.ctx = some ctx ∧
    ngx_http_log_zmq_handler_connect env { d with ctx := some { ctx with log := r.log } }
      (calls ++ [ext_call.ngx_palloc (topic.length + body.length)]) = some (0, clecf, calls1)

/-- The binding `b` is skipped before anything is rendered: it is muted, or its target lacks
the server, the format or the endpoint. -/
def skipped_by_flags (defs : List ngx_http_log_zmq_element_conf_t)
    (b : ngx_http_log_zmq_loc_element_conf_t) : Prop :=
  b.off = 1 ∨
  ∃ e d, b.element = some e ∧ defs[e]? = some d ∧ (d.sset = 0 ∨ d.fset = 0 ∨ d.eset = 0)

/-- For the binding `b` the message template renders to an empty body, or rendering of the
message or of the topic template fails. -/
def render_skipped (env : ngx_env) (r : ngx_http_request_t)
    (defs : List ngx_http_log_zmq_element_conf_t)
    (b : ngx_http_log_zmq_loc_element_conf_t) : Prop :=
  ∃ e d dl dv el ev, b.element = some e ∧ defs[e]? = some d ∧
    d.data_lengths = some dl ∧ d.data_values = some dv ∧
    d.endpoint_lengths = some el ∧ d.endpoint_values = some ev ∧
    (env.ngx_http_script_run r dl dv = none ∨ env.ngx_http_script_run r dl dv = some [] ∨
      env.ngx_http_script_run r el ev = none)

/-- The name a binding carries, `lelcf->element->name`; `none` when a pointer on the way is
`NULL`. -/
def binding_name (defs : List ngx_http_log_zmq_element_conf_t)
    (b : ngx_http_log_zmq_loc_element_conf_t) : Option ngx_str_t :=
  b.element.bind fun e => defs[e]?.bind fun d => d.name

/-- Every definition of the array carries a name. -/
def registry_named (defs : List ngx_http_log_zmq_element_conf_t) : Prop :=
  ∀ d ∈ defs, d.name ≠ none

/-- No two definitions of the array carry matching names. -/
def registry_unique (defs : List ngx_http_log_zmq_element_conf_t) : Prop :=
  ∀ (i j : Nat) (a b : ngx_str_t),
    (defs[i]?.bind fun d => d.name) = some a → (defs[j]?.bind fun d => d.name) = some b →
    name_matches a b = true → i = j

/-- Every binding of the scope points at a definition of the array. -/
def bindings_valid (defs : List ngx_http_log_zmq_element_conf_t)
    (logs : List ngx_http_log_zmq_loc_element_conf_t) : Prop :=
  ∀ b ∈ logs, ∃ e, b.element = some e ∧ e < defs.length

/-- At most one binding of the scope points at any one definition. -/
def bindings_unique (logs : List ngx_http_log_zmq_loc_element_conf_t) : Prop :=
  (logs.map fun b => b.element).Nodup

/-- Some binding of the scope carries a name that the definition name `en` matches, the
test of the inner loop of the merge. -/
def carried (defs : List ngx_http_log_zmq_element_conf_t) (en : ngx_str_t)
    (logs : List ngx_http_log_zmq_loc_element_conf_t) : Bool :=
  logs.any fun b =>
    match binding_name defs b with
    | some cn => name_matches en cn
    | none => false

/-- What a successful `ngx_http_log_zmq_set_server` has written into the definition, all
assignments of the call taken together. -/
def set_server_fields (cycle_log : Option Nat) (value1 : ngx_str_t) (iothreads qlen : ngx_int_t)
    (endpoint : ngx_log_zmq_server_t) (d : ngx_http_log_zmq_element_conf_t) :
    ngx_http_log_zmq_element_conf_t :=
  { d with ctx := some { zero_ctx with log := cycle_log }, name := some value1,
           log := cycle_log, off := 0, iothreads := iothreads, qlen := qlen,
           server := some endpoint, sset := 1 }

/-- A declare-server directive has succeeded for `name`: the definition that the lookup of
`name` in the definition array returns has its server flag set. -/
def server_declared (bkmc : ngx_http_log_zmq_main_conf_t) (name : ngx_str_t) : Prop :=
  ∃ defs i d, bkmc.logs = some defs ∧ find_definition name defs 0 = some (some i) ∧
    defs[i]? = some d ∧ d.sset = 1

/-- One successful directive of the module between two main configurations: some
`log_zmq_server`, `log_zmq_format`, `log_zmq_endpoint` or `log_zmq_off` directive, in some
scope, with some arguments and in some environment, is run on `bkmc`, returns `NGX_CONF_OK`
and leaves `bk1`. -/
def directive_step (bkmc bk1 : ngx_http_log_zmq_main_conf_t) : Prop :=
  ∃ (env : ngx_conf_env) (cf : ngx_conf_t) (llcf llcf1 : ngx_http_log_zmq_loc_conf_t),
    cf.main_conf = some bkmc ∧
    (ngx_http_log_zmq_set_server env cf llcf =
        some (ngx_conf_rc.NGX_CONF_OK, some bk1, llcf1) ∨
      ngx_http_log_zmq_set_format env cf llcf =
        some (ngx_conf_rc.NGX_CONF_OK, some bk1, llcf1) ∨
      ngx_http_log_zmq_set_endpoint env cf llcf =
        some (ngx_conf_rc.NGX_CONF_OK, some bk1, llcf1) ∨
      ngx_http_log_zmq_set_off cf llcf = some (ngx_conf_rc.NGX_CONF_OK, some bk1, llcf1))

/-- No two bindings of the scope carry the same target name. -/
def bindings_distinct (defs : List ngx_http_log_zmq_element_conf_t)
    (logs : List ngx_http_log_zmq_loc_element_conf_t) : Prop :=
  ∀ (k l : Nat) (n : ngx_str_t), (logs[k]?.bind (binding_name defs)) = some n →
    (logs[l]?.bind (binding_name defs)) = some n → k = l

/-- The C string found at `s->data`: the bytes before the first NUL byte, which is the
terminator nginx writes after the `len` bytes of a word unless the word holds an earlier
one. A word without NUL byte is its own C string. -/
def c_str (s : ngx_str_t) : List u_char := s.takeWhile (fun c => c ≠ 0)

/-- A main configuration and a scope as earlier directives leave them for the search loops:
both arrays exist, every definition carries a name, every binding points at a definition. -/
def conf_wf (bkmc : ngx_http_log_zmq_main_conf_t) (llcf : ngx_http_log_zmq_loc_conf_t) : Prop :=
  ∃ defs logs, bkmc.logs = some defs ∧ llcf.logs = some logs ∧ registry_named defs ∧
    bindings_valid defs logs

/-- The scheme token of a kind, `ZMQ_TCP_HANDLER`, `ZMQ_IPC_HANDLER` or
`ZMQ_INPROC_HANDLER`. -/
def zmq_handler (kind : ngx_log_zmq_server_kind) : ngx_str_t :=
  match kind with
  | ngx_log_zmq_server_kind.TCP => ZMQ_TCP_HANDLER
  | ngx_log_zmq_server_kind.IPC => ZMQ_IPC_HANDLER
  | ngx_log_zmq_server_kind.INPROC => ZMQ_INPROC_HANDLER

/-- The length of the scheme token of a kind, `ZMQ_TCP_HLEN`, `ZMQ_IPC_HLEN` or
`ZMQ_INPROC_HLEN`. -/
def zmq_hdlen (kind : ngx_log_zmq_server_kind) : Nat :=
  match kind with
  | ngx_log_zmq_server_kind.TCP => ZMQ_TCP_HLEN
  | ngx_log_zmq_server_kind.IPC => ZMQ_IPC_HLEN
  | ngx_log_zmq_server_kind.INPROC => ZMQ_INPROC_HLEN

/-- A main configuration that configuration loading can reach: the one
`ngx_http_log_zmq_create_main_conf` returns, followed by successful directives. -/
def conf_reachable (bkmc : ngx_http_log_zmq_main_conf_t) : Prop :=
  ∃ cf0, Relation.ReflTransGen directive_step (ngx_http_log_zmq_create_main_conf cf0) bkmc

/-- What a successful `ngx_http_log_zmq_set_format` has written into the definition. -/
def set_format_fields (lengths values : List u_char) (d : ngx_http_log_zmq_element_conf_t) :
    ngx_http_log_zmq_element_conf_t :=
  { d with data_lengths := some lengths, data_values := some values, fset := 1 }

/-- What a successful `ngx_http_log_zmq_set_endpoint` has written into the definition. -/
def set_endpoint_fields (lengths values : List u_char) (d : ngx_http_log_zmq_element_conf_t) :
    ngx_http_log_zmq_element_conf_t :=
  { d with endpoint_lengths := some lengths, endpoint_values := some values, eset := 1 }

/-- The values the `ZMQ_SNDHWM` calls of a call log apply, in call order. -/
def hwm_applied : List ext_call → List Int
  | [] => []
  | ext_call.zmq_setsockopt _ zmq_sockopt.ZMQ_SNDHWM value :: cs => value :: hwm_applied cs
  | _ :: cs => hwm_applied cs

/-- A declare-format directive has succeeded for `name`: the definition that the lookup of
`name` in the definition array returns has its format flag set. -/
def format_declared (bkmc : ngx_http_log_zmq_main_conf_t) (name : ngx_str_t) : Prop :=
  ∃ defs i d, bkmc.logs = some defs ∧ find_definition name defs 0 = some (some i) ∧
    defs[i]? = some d ∧ d.fset = 1

/-- The Transport Connection of the definition is Connected, on the context handle
`context` and the socket handle `socket`: both handles are there and both created flags
are 1, as a successful construction leaves them. -/
def connected (d : ngx_http_log_zmq_element_conf_t) (context socket : Nat) : Prop :=
  ∃ ctx, d.ctx = some ctx ∧ ctx.zmq_context = some context ∧ ctx.zmq_socket = some socket ∧
    ctx.ccreated = 1 ∧ ctx.screated = 1

/-- The call creates a context or a socket, sets a socket option or connects. -/
def is_connection_call : ext_call → Bool
  | ext_call.zmq_init _ => true
  | ext_call.zmq_socket _ _ => true
  | ext_call.zmq_setsockopt _ _ _ => true
  | ext_call.zmq_connect _ _ => true
  | _ => false

/-- The context-creation, socket-creation, socket-option and connect calls of a call log. -/
def connection_calls (calls : List ext_call) : List ext_call :=
  calls.filter is_connection_call

/-- One request between two states of the definition array: some run of
`ngx_http_log_zmq_handler`, for some request in some scope and with some outcomes of the
external calls, takes the definitions from `defs` to `defs1`. -/
def request_step (defs defs1 : List ngx_http_log_zmq_element_conf_t) : Prop :=
  ∃ (env : ngx_env) (r : ngx_http_request_t) (lccf : ngx_http_log_zmq_loc_conf_t)
    (calls calls1 : List ext_call),
    ngx_http_log_zmq_handler env r lccf defs calls = some (NGX_OK, defs1, calls1)

/-- The functions of `ngx_http_log_zmq.c` that act on a Transport Connection. -/
inductive connection_op
  | zmq_init_ctx
  | zmq_create_ctx
  | zmq_create_socket
  | zmq_term_ctx
  deriving DecidableEq, Repr

/-- One call of a connection function for the definition `cf`, whose Transport Connection is
`cf->ctx`: the definition as the call leaves it. `zmq_init_ctx` and `zmq_term_ctx` are handed
`cf->ctx`. `none`: the call dereferences a `NULL` pointer. -/
def connection_op_run (env : ngx_env) (calls : List ext_call)
    (cf : ngx_http_log_zmq_element_conf_t) :
    connection_op → Option ngx_http_log_zmq_element_conf_t
  | connection_op.zmq_init_ctx =>
    cf.ctx.map fun ctx => { cf with ctx := some (zmq_init_ctx env calls ctx).2.1 }
  | connection_op.zmq_create_ctx => some (zmq_create_ctx env calls cf).2.1
  | connection_op.zmq_create_socket => (zmq_create_socket env calls cf).map fun res => res.2.1
  | connection_op.zmq_term_ctx =>
    cf.ctx.map fun ctx => { cf with ctx := some (zmq_term_ctx calls ctx).1 }

/-- One call of one of the connection functions `ops` between two states of a definition,
with some outcomes of the transport calls. -/
def connection_step (ops : List connection_op)
    (cf cf1 : ngx_http_log_zmq_element_conf_t) : Prop :=
  ∃ (env : ngx_env) (calls : List ext_call) (op : connection_op),
    op ∈ ops ∧ connection_op_run env calls cf op = some cf1

/-- The Transport Connection of the definition is fresh: it exists, both handles are `NULL`
and both created flags are 0, as `ngx_pcalloc` in `ngx_http_log_zmq_set_server` leaves it. -/
def fresh_connection (cf : ngx_http_log_zmq_element_conf_t) : Prop :=
  ∃ ctx, cf.ctx = some ctx ∧ ctx.zmq_context = none ∧ ctx.zmq_socket = none ∧
    ctx.ccreated = 0 ∧ ctx.screated = 0

/-- Each created flag is 1 exactly when its handle is there, and is 0 otherwise. -/
def flags_exact (ctx : ngx_http_log_zmq_ctx_t) : Prop :=
  (ctx.ccreated = 1 ↔ ctx.zmq_context ≠ none) ∧ (ctx.screated = 1 ↔ ctx.zmq_socket ≠ none) ∧
  (ctx.ccreated = 0 ∨ ctx.ccreated = 1) ∧ (ctx.screated = 0 ∨ ctx.screated = 1)

/-- A handle that is there has its created flag at 1. -/
def flags_cover (ctx : ngx_http_log_zmq_ctx_t) : Prop :=
  (ctx.zmq_context ≠ none → ctx.ccreated = 1) ∧ (ctx.zmq_socket ≠ none → ctx.screated = 1)

/-- The bindings the merge adds to a scope holding `logs`, for the definitions `todo` found
from position `i` of the array on: one un-muted binding for each definition whose name no
binding of `logs` carries, in the order of the array. -/
def inherited (defs : List ngx_http_log_zmq_element_conf_t)
    (logs : List ngx_http_log_zmq_loc_element_conf_t)
    (todo : List ngx_http_log_zmq_element_conf_t) (i : Nat) :
    List ngx_http_log_zmq_loc_element_conf_t :=
  (todo.enumFrom i).filterMap fun kd =>
    match kd.2.name with
    | some n =>
      if carried defs n logs = true then none else some { off := 0, element := some kd.1 }
    | none => none

/-! ## ngx_http_brokerlog_module.c: the merge of the older module -/

/-- A pointer-valued field of a brokerlog configuration: `NULL`, `NGX_CONF_UNSET_PTR`, or the
address of the object it points at. -/
inductive ngx_conf_ptr
  | null
  | unset
  | addr (a : Nat)
  deriving DecidableEq, Repr

/-- The value `NGX_CONF_UNSET` of nginx. -/
def NGX_CONF_UNSET : Int := -1

/-- Modelled from the spec: the declaration of `ngx_http_brokerlog_element_conf_t`
(`ngx_http_brokerlog_module.h`) is not among the sources. The fields are the ones that
`ngx_http_brokerlog_module.c` reads and writes, which are those of
`ngx_http_log_zmq_element_conf_t`. A pointer is kept as the address it holds, since the merge
copies pointers; a flag is kept as the integer it holds, -1 being the value that compares
equal to `NGX_CONF_UNSET` and to `NGX_CONF_UNSET_PTR`. -/
structure ngx_http_brokerlog_element_conf_t where
  server : ngx_conf_ptr
  iothreads : ngx_int_t
  qlen : ngx_int_t
  data_lengths : ngx_conf_ptr
  data_values : ngx_conf_ptr
  endpoint_lengths : ngx_conf_ptr
  endpoint_values : ngx_conf_ptr
  ctx : ngx_conf_ptr
  name : Option ngx_str_t
  log : Option Nat
  sset : Int
  fset : Int
  eset : Int
  off : Int
  deriving DecidableEq, Repr

/-- Modelled from the spec: the declaration of `ngx_http_brokerlog_loc_conf_t`
(`ngx_http_brokerlog_module.h`) is not among the sources. The fields are the ones that
`ngx_http_brokerlog_module.c` reads and writes; `logs` points at the array of the
definitions of the scope. -/
structure ngx_http_brokerlog_loc_conf_t where
  off : Int
  logs : ngx_conf_ptr
  log : Option Nat
  deriving DecidableEq, Repr

/-- Model of `ngx_array_t` of nginx for an array of brokerlog definitions: `elts` is the
address of the block of slots the array uses at present, `nelts` the number of slots in use
and `nalloc` the number of slots of the block. -/
structure ngx_array_t where
  elts : Nat
  nelts : Nat
  nalloc : Nat
  deriving DecidableEq, Repr

/-- The memory the brokerlog merge works on: the arrays by address (a child scope without
definitions of its own is given the pointer of its parent and then shares the array) and
the blocks of definition slots by address. A block holds the `nalloc` slots of its array,
the ones past `nelts` not in use. A block that an array has left stays where it was, with
what it holds, and a pointer taken into it before keeps pointing into it. -/
structure brokerlog_memory where
  arrays : List ngx_array_t
  blocks : List (List ngx_http_brokerlog_element_conf_t)
  deriving DecidableEq, Repr

/-- What the pool decides in `ngx_array_push`: `uninit k` is what the slot at position `k`
of a block holds before anything is written to it (pool memory is not zeroed), and
`grows n` tells, for a push onto a full array of `n` slots, whether its block is the last
allocation of the pool and the pool has room for one more slot behind it. -/
structure brokerlog_pool where
  uninit : Nat → ngx_http_brokerlog_element_conf_t
  grows : Nat → Bool

/-- Model of `ngx_array_push` of nginx (`ngx_array.c`) on the array at address `a`. When
the array is full and its block is the last allocation of the pool with room behind it, the
block grows by one slot where it is. When the array is full otherwise, a block of twice the
slots is allocated, the `nalloc` slots are copied into it by `ngx_memcpy` and `elts` is set
to it; the old block stays as it is. Then `nelts` grows by one; the slot handed out is not
written. The allocation is taken to succeed. `none`: an address without array or block. -/
def ngx_array_push (pool : brokerlog_pool) (mem : brokerlog_memory) (a : Nat) :
    Option brokerlog_memory :=
  match mem.arrays[a]? with
  | none => none
  | some array =>
    match mem.blocks[array.elts]? with
    | none => none
    | some block =>
      if array.nelts = array.nalloc then
        if pool.grows array.nalloc then
          some { arrays := mem.arrays.set a
                   { array with nelts := array.nelts + 1, nalloc := array.nalloc + 1 },
                 blocks := mem.blocks.set array.elts (block ++ [pool.uninit array.nalloc]) }
        else
          some { arrays := mem.arrays.set a
                   { elts := mem.blocks.length, nelts := array.nelts + 1,
                     nalloc := 2 * array.nalloc },
                 blocks := mem.blocks ++
                   [block.take array.nalloc ++
                     (List.range array.nalloc).map fun k => pool.uninit (array.nalloc + k)] }
      else
        some { mem with arrays := mem.arrays.set a { array with nelts := array.nelts + 1 } }

/-- The definitions of the array at address `a`: the `nelts` slots in use of the block that
`elts` points at. -/
def brokerlog_logs (mem : brokerlog_memory) (a : Nat) :
    Option (List ngx_http_brokerlog_element_conf_t) :=
  (mem.arrays[a]?).bind fun array =>
    (mem.blocks[array.elts]?).map fun block => block.take array.nelts

/-- The inner loop of `ngx_http_brokerlog_merge_loc_conf` for the parent name `pname`
(`eleprev[j].name`), from position `i` on with `n` rounds left (`conf->logs->nelts - i`):
the position of the first slot of the block `eleconf` points at with a name that `pname`
matches, both names being there; `some none` when the rounds end without one. When `pname`
is `NULL` the test fails before `eleconf[i]` is read. `none`: `eleconf[i]` is read past the
end of the block. -/
def brokerlog_merge_find (pname : Option ngx_str_t)
    (eleconf : List ngx_http_brokerlog_element_conf_t) : Nat → Nat → Option (Option Nat)
  | 0, _ => some none
  | n + 1, i =>
    match pname with
    | none => brokerlog_merge_find pname eleconf n (i + 1)
    | some pn =>
      match eleconf[i]? with
      | none => none
      | some eleconf_i =>
        match eleconf_i.name with
        | some cn =>
          if name_matches pn cn then some (some i)
          else brokerlog_merge_find pname eleconf n (i + 1)
        | none => brokerlog_merge_find pname eleconf n (i + 1)

/-- The body of the `if` of the inner loop of `ngx_http_brokerlog_merge_loc_conf`, for the
child definition `eleconf[i]` found at position `i` and the parent definition `eleprev[j]`:
`eleconf_i`, `eleprev_j` and `eleprev_i` are `eleconf[i]`, `eleprev[j]` and `eleprev[i]`,
the parent definition at the position of the child. The result is `eleconf[i]` as the
assignments leave it. -/
def brokerlog_merge_found (eleconf_i eleprev_j eleprev_i : ngx_http_brokerlog_element_conf_t) :
    ngx_http_brokerlog_element_conf_t :=
  let eleconf_i :=
    if eleconf_i.server = ngx_conf_ptr.unset then { eleconf_i with server := eleprev_j.server }
    else eleconf_i
  let eleconf_i :=
    if eleconf_i.fset = NGX_CONF_UNSET ∧ eleprev_i.fset = 1 then
      { eleconf_i with data_lengths := eleprev_j.data_lengths,
                       data_values := eleprev_j.data_values }
    else eleconf_i
  let eleconf_i :=
    if eleconf_i.eset = NGX_CONF_UNSET ∧ eleprev_i.eset = 1 then
      { eleconf_i with endpoint_lengths := eleprev_j.endpoint_lengths,
                       endpoint_values := eleprev_j.endpoint_values }
    else eleconf_i
  let eleconf_i :=
    if eleconf_i.ctx = ngx_conf_ptr.unset then { eleconf_i with ctx := eleprev_j.ctx }
    else eleconf_i
  let eleconf_i :=
    { eleconf_i with sset := eleprev_j.sset, fset := eleprev_j.fset, eset := eleprev_j.eset }
  if eleprev_i.off ≠ -1 then { eleconf_i with off := eleprev_j.off } else eleconf_i

/-- The outer loop of `ngx_http_brokerlog_merge_loc_conf` from position `j` of the parent
array on. `pa` and `ca` are the addresses of the arrays `prev->logs` and `conf->logs`, whose
`nelts` the loops read in every round. `eleprev` and `eleconf` are the addresses of the
blocks that `prev->logs->elts` and `conf->logs->elts` pointed at before the loops: the
source takes the two pointers once, so every `eleprev[...]` and `eleconf[...]` of the loops
reads and writes those blocks, also after `ngx_array_push` has moved the child array to
another block. A parent definition that is not found makes `ngx_array_push` add a slot to
the child array; the assignment `element->off = eleprev[j].off` that follows, `element`
being `eleprev + j`, writes a field onto itself. Since the child array may be the parent
array, the number of rounds is not bounded by the source; `fuel` bounds it here. `none`:
an address without array or block, a read of `eleprev[j]`, `eleprev[i]` or `eleconf[i]`
past the end of its block, or no fuel left. -/
def brokerlog_merge_loop (pool : brokerlog_pool) (pa ca eleprev eleconf : Nat) :
    Nat → Nat → brokerlog_memory → Option brokerlog_memory
  | 0, _, _ => none
  | fuel + 1, j, mem =>
    match mem.arrays[pa]?, mem.arrays[ca]? with
    | some prev_logs, some conf_logs =>
      if j < prev_logs.nelts then
        match mem.blocks[eleprev]?, mem.blocks[eleconf]? with
        | some prev_block, some conf_block =>
          match prev_block[j]? with
          | none => none
          | some eleprev_j =>
            match brokerlog_merge_find eleprev_j.name conf_block conf_logs.nelts 0 with
            | none => none
            | some (some i) =>
              match conf_block[i]?, prev_block[i]? with
              | some eleconf_i, some eleprev_i =>
                brokerlog_merge_loop pool pa ca eleprev eleconf fuel (j + 1)
                  { mem with
                    blocks := mem.blocks.set eleconf
                      (conf_block.set i (brokerlog_merge_found eleconf_i eleprev_j eleprev_i)) }
              | _, _ => none
            | some none =>
              match ngx_array_push pool mem ca with
              | none => none
              | some mem1 => brokerlog_merge_loop pool pa ca eleprev eleconf fuel (j + 1) mem1
        | _, _ => none
      else some mem
    | _, _ => none

/-- Embedding of `ngx_http_brokerlog_merge_loc_conf`: the status, the memory and the child
scope `conf` as the merge leaves them. `ngx_array_destroy` returns pool space and changes no
array. `none`: `conf->logs` or `prev->logs` is `NULL` or `NGX_CONF_UNSET_PTR` where the
source dereferences it, or points at no array, or the loop returns `none`. -/
def ngx_http_brokerlog_merge_loc_conf (pool : brokerlog_pool)
    (fuel : Nat) (mem : brokerlog_memory) (prev conf : ngx_http_brokerlog_loc_conf_t) :
    Option (ngx_conf_rc × brokerlog_memory × ngx_http_brokerlog_loc_conf_t) :=
  let conf := if conf.off = NGX_CONF_UNSET then { conf with off := prev.off } else conf
  let conf := if conf.log = none then { conf with log := prev.log } else conf
  let conf :=
    if conf.logs = ngx_conf_ptr.unset ∨ conf.logs = ngx_conf_ptr.null then
      { conf with logs := prev.logs }
    else conf
  match conf.logs with
  | ngx_conf_ptr.addr ca =>
    match mem.arrays[ca]? with
    | none => none
    | some conf_logs =>
      if conf_logs.nelts = 0 then
        some (ngx_conf_rc.NGX_CONF_OK, mem, { conf with logs := prev.logs })
      else
        match prev.logs with
        | ngx_conf_ptr.addr pa =>
          match mem.arrays[pa]? with
          | none => none
          | some prev_logs =>
            match brokerlog_merge_loop pool pa ca prev_logs.elts conf_logs.elts fuel 0 mem with
            | none => none
            | some mem1 => some (ngx_conf_rc.NGX_CONF_OK, mem1, conf)
        | _ => none
  | _ => none

/-! ## Example configuration -/

/-- A fresh Transport Connection. -/
def example_ctx : ngx_http_log_zmq_ctx_t :=
  { log := none, iothreads := 0, zmq_context := none, zmq_socket := none,
    ccreated := 0, screated := 0 }

/-- The target `T` with server, format and endpoint declared and a fresh connection. -/
def example_definition : ngx_http_log_zmq_element_conf_t :=
  { server := some { peer_addr := { sockaddr := [], name := [] },
                     kind := ngx_log_zmq_server_kind.TCP,
                     connection := ngx_string "tcp://127.0.0.1:5555" },
    iothreads := 1, qlen := 1000,
    data_lengths := some [1], data_values := some [2],
    endpoint_lengths := some [3], endpoint_values := some [4],
    cycle := none, ctx := some example_ctx, name := some (ngx_string "T"), log := none,
    sset := 1, fset := 1, eset := 1, off := 0 }

/-- An environment in which every call succeeds (the n-th call returns the handle `n + 1`
and `rc = 0`), the message template of `T` renders to `200` and its topic template to
`/svc/a.example/`. -/
def example_env : ngx_env :=
  { ngx_http_script_run := fun _ lengths _ =>
      if lengths = [1] then some (ngx_string "200")
      else if lengths = [3] then some (ngx_string "/svc/a.example/")
      else none,
    reply := fun n => { ptr := some (n + 1), rc := 0 },
    fresh := fun _ => 0,
    ZMQ_VERSION_MAJOR := 4 }

def example_request : ngx_http_request_t := { log := some 7, id := 0 }

/-- A scope with the one binding of `T`, not muted. -/
def example_scope : ngx_http_log_zmq_loc_conf_t :=
  { logs := some [{ off := 0, element := some 0 }], off := 0, log := none,
    logs_definition := logs_definition_ptr.main_logs }

/-- The main configuration holding the definition of `T`. -/
def example_main_conf : ngx_http_log_zmq_main_conf_t :=
  { cycle := none, log := none, logs := some [example_definition] }

/-- The `ngx_conf_t` of a directive with the given words, met in a `location` block. -/
def example_cf (words : List String) : ngx_conf_t :=
  { args := words.map ngx_string, cmd_type := 0x08000000, log := none, cycle := none,
    cycle_log := none, main_conf := some example_main_conf }

/-- A `location` scope in which `T` is muted, as `log_zmq_off T` leaves it. -/
def example_muted_parent : ngx_http_log_zmq_loc_conf_t :=
  { logs := some [{ off := 1, element := some 0 }], off := 0, log := none,
    logs_definition := logs_definition_ptr.main_logs }

/-- A scope as `ngx_http_log_zmq_create_loc_conf` returns it. -/
def example_location : ngx_http_log_zmq_loc_conf_t :=
  ngx_http_log_zmq_create_loc_conf (example_cf [])

/-- A second target `U` whose message template does not render for the example request. -/
def example_unrendered : ngx_http_log_zmq_element_conf_t :=
  { example_definition with data_lengths := some [9], name := some (ngx_string "U") }

/-- The definition array holding `T` and `U`. -/
def example_definitions : List ngx_http_log_zmq_element_conf_t :=
  [example_definition, example_unrendered]

/-- A scope binding `U`, then `T`, neither muted. -/
def example_scope_two : ngx_http_log_zmq_loc_conf_t :=
  { logs := some [{ off := 0, element := some 1 }, { off := 0, element := some 0 }], off := 0,
    log := none, logs_definition := logs_definition_ptr.main_logs }

/-- A scope binding `T` twice over a muted binding of it: muted first, then not muted. -/
def example_scope_muted : ngx_http_log_zmq_loc_conf_t :=
  { logs := some [{ off := 1, element := some 0 }, { off := 0, element := some 0 }], off := 0,
    log := none, logs_definition := logs_definition_ptr.main_logs }

/-- The definition of `T` once the example request has connected it. -/
def example_connected : ngx_http_log_zmq_element_conf_t :=
  { example_definition with
    ctx := some { log := some 7, iothreads := 1, zmq_context := some 2, zmq_socket := some 3,
                  ccreated := 1, screated := 1 } }

/-- The calls the example request makes before it sends. -/
def example_connect_calls : List ext_call :=
  [ext_call.ngx_palloc 18, ext_call.zmq_init 1, ext_call.zmq_socket (some 2) ZMQ_PUB,
   ext_call.zmq_setsockopt (some 3) zmq_sockopt.ZMQ_SNDHWM 1000,
   ext_call.zmq_setsockopt (some 3) zmq_sockopt.ZMQ_LINGER 0,
   ext_call.zmq_connect (some 3) (ngx_string "tcp://127.0.0.1:5555")]

/-- A decimal reader standing for `ngx_atoi` in the example. -/
def example_atoi (s : ngx_str_t) : ngx_int_t :=
  if s.isEmpty || s.any (fun c => c < 48 || c > 57) then NGX_ERROR
  else s.foldl (fun acc c => acc * 10 + ((c.toNat : Int) - 48)) 0

/-- nginx services for the example: every url parses, every template compiles. -/
def example_conf_env : ngx_conf_env :=
  { ngx_atoi := example_atoi,
    ngx_parse_url := fun u => (NGX_OK, { u with addrs := [{ sockaddr := [], name := u.url }] }),
    ngx_http_script_compile := fun source => some (source, source) }

/-- The `ngx_conf_t` of a directive with the given words, met at the `http` level, the main
configuration being `bkmc`. -/
def example_http_cf (words : List String) (bkmc : ngx_http_log_zmq_main_conf_t) : ngx_conf_t :=
  { args := words.map ngx_string, cmd_type := NGX_HTTP_MAIN_CONF, log := none, cycle := none,
    cycle_log := none, main_conf := some bkmc }

/-- The directive `log_zmq_server T 127.0.0.1:5555 tcp 1 1000` met first in a
configuration. -/
def example_server_cf : ngx_conf_t :=
  example_http_cf ["log_zmq_server", "T", "127.0.0.1:5555", "tcp", "1", "1000"]
    (ngx_http_log_zmq_create_main_conf (example_cf []))

/-- The main configuration that directive leaves. -/
def example_server_main_conf : ngx_http_log_zmq_main_conf_t :=
  { cycle := none, log := none,
    logs := some [
      { server := some { peer_addr := { sockaddr := [], name := ngx_string "127.0.0.1:5555" },
                         kind := ngx_log_zmq_server_kind.TCP,
                         connection := ngx_string "tcp://127.0.0.1:5555" },
        iothreads := 1, qlen := 1000, data_lengths := none, data_values := none,
        endpoint_lengths := none, endpoint_values := none, cycle := none,
        ctx := some zero_ctx, name := some (ngx_string "T"), log := none,
        sset := 1, fset := 0, eset := 0, off := 0 }] }

/-- The target `T` with a queue length of 2^32 and its context created, the socket not yet. -/
def example_wide_queue : ngx_http_log_zmq_element_conf_t :=
  { example_definition with
    qlen := 4294967296,
    ctx := some { example_ctx with zmq_context := some 2, ccreated := 1 } }

/-- The directive `log_zmq_server T 127.0.0.1:5555 tcp 1 4294967296` met first in a
configuration. -/
def example_wide_queue_cf : ngx_conf_t :=
  example_http_cf ["log_zmq_server", "T", "127.0.0.1:5555", "tcp", "1", "4294967296"]
    (ngx_http_log_zmq_create_main_conf (example_cf []))

/-- nginx services in which `ngx_parse_url` resolves as nginx does: the url is left as
given, and the address returned carries the port of the url or, when the url names none,
the default port handed in (5555 is the only one the module hands in). -/
def example_resolving_env : ngx_conf_env :=
  { ngx_atoi := example_atoi,
    ngx_parse_url := fun u =>
      (NGX_OK,
        { u with addrs := [{ sockaddr := [],
                             name := if u.url.contains 58 then u.url
                                     else if u.default_port = 5555 then u.url ++ ngx_string ":5555"
                                     else u.url }] }),
    ngx_http_script_compile := fun source => some (source, source) }

/-- The directive `log_zmq_server T 127.0.0.1 tcp 1 1000`, the address given without a
port, met first in a configuration. -/
def example_portless_cf : ngx_conf_t :=
  example_http_cf ["log_zmq_server", "T", "127.0.0.1", "tcp", "1", "1000"]
    (ngx_http_log_zmq_create_main_conf (example_cf []))

/-- The directive `log_zmq_format A x` met first in a configuration, before any
`log_zmq_server A ...`. -/
def example_format_first_cf : ngx_conf_t :=
  example_http_cf ["log_zmq_format", "A", "x"]
    (ngx_http_log_zmq_create_main_conf (example_cf []))

/-- The directive `log_zmq_server T 127.0.0.1:5555 udp 1 1000` met first in a
configuration. -/
def example_unknown_kind_cf : ngx_conf_t :=
  example_http_cf ["log_zmq_server", "T", "127.0.0.1:5555", "udp", "1", "1000"]
    (ngx_http_log_zmq_create_main_conf (example_cf []))

/-- The five bytes `t`, `c`, `p`, NUL, `x`: a word that is not `tcp` and whose C string is
`tcp`. -/
def example_nul_kind : ngx_str_t := ngx_string "tcp" ++ [0, 120]

/-- The directive `log_zmq_server T 127.0.0.1:5555 W 1 1000`, `W` being the word
`example_nul_kind`, met first in a configuration. -/
def example_nul_kind_cf : ngx_conf_t :=
  { example_server_cf with
    args := [ngx_string "log_zmq_server", ngx_string "T", ngx_string "127.0.0.1:5555",
             example_nul_kind, ngx_string "1", ngx_string "1000"] }

/-- The directive `log_zmq_server T 127.0.0.1:5555 tcp 0 1000` met first in a
configuration. -/
def example_no_threads_cf : ngx_conf_t :=
  example_http_cf ["log_zmq_server", "T", "127.0.0.1:5555", "tcp", "0", "1000"]
    (ngx_http_log_zmq_create_main_conf (example_cf []))

/-- The directive `log_zmq_server T 127.0.0.1:5555 tcp 1 -5` met first in a
configuration. -/
def example_negative_queue_cf : ngx_conf_t :=
  example_http_cf ["log_zmq_server", "T", "127.0.0.1:5555", "tcp", "1", "-5"]
    (ngx_http_log_zmq_create_main_conf (example_cf []))

/-- The directive `log_zmq_format T a bc`, a format in two parts. -/
def example_two_part_cf : ngx_conf_t :=
  example_http_cf ["log_zmq_format", "T", "a", "bc"] example_server_main_conf

/-- An environment as `example_env` in which the call of a run at position `k` fails. -/
def example_fails_at (k : Nat) : ngx_env :=
  { example_env with
    reply := fun n =>
      if n = k then { ptr := none, rc := -1 } else { ptr := some (n + 1), rc := 0 } }

/-- The calls the example request makes when the `ZMQ_SNDHWM` option fails. -/
def example_hwm_failed_calls : List ext_call :=
  [ext_call.ngx_palloc 18, ext_call.zmq_init 1, ext_call.zmq_socket (some 2) ZMQ_PUB,
   ext_call.zmq_setsockopt (some 3) zmq_sockopt.ZMQ_SNDHWM 1000]

/-- The target `T` after `zmq_init_ctx`, `zmq_create_socket` and `zmq_term_ctx`: both
handles are `NULL` again and both created flags are 1. -/
def example_torn_down : ngx_http_log_zmq_element_conf_t :=
  { example_definition with
    ctx := some { log := none, iothreads := 1, zmq_context := none, zmq_socket := none,
                  ccreated := 1, screated := 1 } }

/-- The Transport Connection of `T` with its context created and no socket yet. -/
def example_ready_ctx : ngx_http_log_zmq_ctx_t :=
  { example_ctx with iothreads := 1, zmq_context := some 2, ccreated := 1 }

/-- The target `T` with its context created and no socket yet. -/
def example_context_ready : ngx_http_log_zmq_element_conf_t :=
  { example_definition with ctx := some example_ready_ctx }

/-- An environment as `example_env` in which every transport call fails. -/
def example_failing_env : ngx_env :=
  { example_env with reply := fun _ => { ptr := none, rc := -1 } }

/-- The target `T` after a `zmq_init_ctx` that succeeded and one that failed: the context
handle is `NULL` and the context flag is 1. -/
def example_lost_context : ngx_http_log_zmq_element_conf_t :=
  { example_definition with
    ctx := some { log := none, iothreads := 1, zmq_context := none, zmq_socket := none,
                  ccreated := 1, screated := 0 } }

/-- The `ngx_conf_t` of the merge of a `location` when the main configuration holds the
definitions of `T` and `U`. -/
def example_two_cf : ngx_conf_t :=
  { example_cf [] with
    main_conf := some { example_main_conf with logs := some example_definitions } }

/-- A brokerlog target declared in full at the `http` level: server, format and endpoint
set, not muted. -/
def example_brokerlog_target (name : String) (a : Nat) : ngx_http_brokerlog_element_conf_t :=
  { server := ngx_conf_ptr.addr a, iothreads := 1, qlen := 1000,
    data_lengths := ngx_conf_ptr.addr (a + 1), data_values := ngx_conf_ptr.addr (a + 2),
    endpoint_lengths := ngx_conf_ptr.addr (a + 3), endpoint_values := ngx_conf_ptr.addr (a + 4),
    ctx := ngx_conf_ptr.addr (a + 5), name := some (ngx_string name), log := none,
    sset := 1, fset := 1, eset := 1, off := 0 }

/-- The brokerlog definition that `brokerlog_off name` leaves in a scope that had none of
that name, in a slot whose memory was zeroed: the pointers are `NGX_CONF_UNSET_PTR`, the
mute flag is 1, and `sset`, `fset` and `eset`, which the directive does not write, are 0. -/
def example_brokerlog_muted (name : String) : ngx_http_brokerlog_element_conf_t :=
  { server := ngx_conf_ptr.unset, iothreads := 0, qlen := 0,
    data_lengths := ngx_conf_ptr.unset, data_values := ngx_conf_ptr.unset,
    endpoint_lengths := ngx_conf_ptr.unset, endpoint_values := ngx_conf_ptr.unset,
    ctx := ngx_conf_ptr.unset, name := some (ngx_string name), log := none,
    sset := 0, fset := 0, eset := 0, off := 1 }

/-- A brokerlog definition of a child scope with an endpoint of its own and everything
else unset: the server, the connection and the message template are at
`NGX_CONF_UNSET_PTR` and the format flag is at `NGX_CONF_UNSET`. -/
def example_brokerlog_override (name : String) : ngx_http_brokerlog_element_conf_t :=
  { server := ngx_conf_ptr.unset, iothreads := 0, qlen := 0,
    data_lengths := ngx_conf_ptr.unset, data_values := ngx_conf_ptr.unset,
    endpoint_lengths := ngx_conf_ptr.addr 91, endpoint_values := ngx_conf_ptr.addr 92,
    ctx := ngx_conf_ptr.unset, name := some (ngx_string name), log := none,
    sset := 0, fset := NGX_CONF_UNSET, eset := 1, off := 0 }

/-- What an uninitialised slot of a brokerlog array holds in the examples: zeroes. -/
def example_brokerlog_uninit (_ : Nat) : ngx_http_brokerlog_element_conf_t :=
  { server := ngx_conf_ptr.null, iothreads := 0, qlen := 0,
    data_lengths := ngx_conf_ptr.null, data_values := ngx_conf_ptr.null,
    endpoint_lengths := ngx_conf_ptr.null, endpoint_values := ngx_conf_ptr.null,
    ctx := ngx_conf_ptr.null, name := none, log := none,
    sset := 0, fset := 0, eset := 0, off := 0 }

/-- The brokerlog scope of the `http` level, its definitions in the array at address 0. -/
def example_brokerlog_http : ngx_http_brokerlog_loc_conf_t :=
  { off := NGX_CONF_UNSET, logs := ngx_conf_ptr.addr 0, log := none }

/-- A brokerlog `location` scope, its definitions in the array at address 1. -/
def example_brokerlog_location : ngx_http_brokerlog_loc_conf_t :=
  { off := NGX_CONF_UNSET, logs := ngx_conf_ptr.addr 1, log := none }

/-- The pool of the examples: a slot not yet written holds zeroes, and the block of an array
is never the last allocation of the pool, the brokerlog directives allocating the name and
the templates of a definition after its array. -/
def example_brokerlog_pool : brokerlog_pool :=
  { uninit := example_brokerlog_uninit, grows := fun _ => false }

/-- The memory in which the `http` level holds the definitions `parent` in the array and the
block at address 0 and the `location` holds the definitions `child` in the array and the
block at address 1, both arrays full. -/
def example_brokerlog_memory (parent child : List ngx_http_brokerlog_element_conf_t) :
    brokerlog_memory :=
  { arrays := [{ elts := 0, nelts := parent.length, nalloc := parent.length },
               { elts := 1, nelts := child.length, nalloc := child.length }],
    blocks := [parent, child] }

/-- The brokerlog target `A` declared at the `http` level with server and endpoint and
without format. -/
def example_brokerlog_unformatted : ngx_http_brokerlog_element_conf_t :=
  { example_brokerlog_target "A" 10 with
    data_lengths := ngx_conf_ptr.null, data_values := ngx_conf_ptr.null, fset := 0 }

/-! ## Theorems -/

theorem log_zmq_serialize_output (env : ngx_env) (calls : List ext_call) (t b : ngx_str_t)
    (halloc : (env.reply calls.length).ptr ≠ none) :
    log_zmq_serialize env calls t b =
      (NGX_OK, t ++ b, calls ++ [ext_call.ngx_palloc (t.length + b.length)]) := by
  simp only [log_zmq_serialize, halloc, if_false, ngx_memcpy]
  simp

theorem log_zmq_serialize_failed (env : ngx_env) (calls : List ext_call) (t b : ngx_str_t)
    (halloc : (env.reply calls.length).ptr = none) :
    log_zmq_serialize env calls t b =
      (NGX_ERROR, [], calls ++ [ext_call.ngx_palloc (t.length + b.length)]) := by
  simp [log_zmq_serialize, halloc]

/-- C1: when the output buffer can be allocated, `log_zmq_serialize` returns `NGX_OK` and the
output is the topic bytes followed by the body bytes: its length is the sum of the two
lengths, its first `len(t)` bytes are `t` and the remaining bytes are `b`. -/
theorem log_zmq_serialize_concat (env : ngx_env) (calls : List ext_call) (t b : ngx_str_t)
    (halloc : (env.reply calls.length).ptr ≠ none) :
    (log_zmq_serialize env calls t b).1 = NGX_OK ∧
    (log_zmq_serialize env calls t b).2.1 = t ++ b ∧
    (log_zmq_serialize env calls t b).2.1.length = t.length + b.length ∧
    (log_zmq_serialize env calls t b).2.1.take t.length = t ∧
    (log_zmq_serialize env calls t b).2.1.drop t.length = b := by
  rw [log_zmq_serialize_output env calls t b halloc]
  simp


/-! ### Call log -/

theorem sends_append (xs ys : List ext_call) : sends (xs ++ ys) = sends xs ++ sends ys := by
  induction xs with
  | nil => rfl
  | cons x xs ih => cases x <;> simp [sends, ih]

theorem same_config_refl (d : ngx_http_log_zmq_element_conf_t) : same_config d d := by
  simp [same_config]

theorem same_config_trans {a b c : ngx_http_log_zmq_element_conf_t}
    (h1 : same_config a b) (h2 : same_config b c) : same_config a c := by
  simp only [same_config] at *
  simp_all

theorem templates_paired_of_same_config {d d' : ngx_http_log_zmq_element_conf_t}
    (h : same_config d d') (hp : templates_paired d) : templates_paired d' := by
  simp only [same_config, templates_paired] at *
  simp_all

theorem forall2_same_config_refl (defs : List ngx_http_log_zmq_element_conf_t) :
    List.Forall₂ same_config defs defs := by
  induction defs with
  | nil => exact List.Forall₂.nil
  | cons d ds ih => exact List.Forall₂.cons (same_config_refl d) ih

theorem forall2_same_config_set (defs : List ngx_http_log_zmq_element_conf_t) (e : Nat)
    (d d' : ngx_http_log_zmq_element_conf_t) (hd : defs[e]? = some d) (h : same_config d d') :
    List.Forall₂ same_config defs (defs.set e d') := by
  induction defs generalizing e with
  | nil => simp at hd
  | cons x xs ih =>
    cases e with
    | zero =>
      simp only [List.getElem?_cons_zero, Option.some.injEq] at hd
      subst hd
      exact List.Forall₂.cons h (forall2_same_config_refl xs)
    | succ n =>
      simp only [List.getElem?_cons_succ] at hd
      exact List.Forall₂.cons (same_config_refl x) (ih n hd)

theorem forall2_same_config_trans {a b c : List ngx_http_log_zmq_element_conf_t}
    (h1 : List.Forall₂ same_config a b) (h2 : List.Forall₂ same_config b c) :
    List.Forall₂ same_config a c := by
  induction h1 generalizing c with
  | nil => cases h2; exact List.Forall₂.nil
  | cons h _ ih =>
    cases h2 with
    | cons h' t' => exact List.Forall₂.cons (same_config_trans h h') (ih t')

theorem forall2_same_config_get {a b : List ngx_http_log_zmq_element_conf_t}
    (h : List.Forall₂ same_config a b) (e : Nat) (d : ngx_http_log_zmq_element_conf_t)
    (hd : a[e]? = some d) : ∃ d', b[e]? = some d' ∧ same_config d d' := by
  induction h generalizing e with
  | nil => simp at hd
  | cons hx _ ih =>
    cases e with
    | zero =>
      simp only [List.getElem?_cons_zero, Option.some.injEq] at hd
      subst hd
      exact ⟨_, by simp, hx⟩
    | succ n =>
      simp only [List.getElem?_cons_succ] at hd ⊢
      exact ih n hd

theorem forall2_templates_paired {a b : List ngx_http_log_zmq_element_conf_t}
    (h : List.Forall₂ same_config a b) (hp : ∀ d ∈ a, templates_paired d) :
    ∀ d ∈ b, templates_paired d := by
  induction h with
  | nil => simp
  | cons hx _ ih =>
    intro d hd
    simp only [List.mem_cons] at hd
    rcases hd with rfl | hd
    · exact templates_paired_of_same_config hx (hp _ (List.mem_cons_self _ _))
    · exact ih (fun d hd => hp d (List.mem_cons_of_mem _ hd)) d hd

/-! ### The connection stages -/

theorem zmq_create_ctx_spec (env : ngx_env) (calls : List ext_call)
    (cf : ngx_http_log_zmq_element_conf_t) :
    same_config cf (zmq_create_ctx env calls cf).2.1 ∧
    ((zmq_create_ctx env calls cf).2.1.ctx = none ↔ cf.ctx = none) ∧
    ∃ ext, (zmq_create_ctx env calls cf).2.2 = calls ++ ext ∧ sends ext = [] := by
  unfold zmq_create_ctx
  cases h : cf.ctx with
  | none => simp [same_config, h, sends]
  | some ctx =>
    simp only [zmq_init_ctx]
    split_ifs <;> simp [same_config, h, sends]

theorem zmq_create_socket_connect_spec (env : ngx_env) (calls : List ext_call)
    (cf : ngx_http_log_zmq_element_conf_t) (ctx : ngx_http_log_zmq_ctx_t)
    (hs : cf.server ≠ none) :
    ∃ res, zmq_create_socket_connect env calls cf ctx = some res ∧ res.2.1 = cf ∧
      ∃ ext, res.2.2 = calls ++ ext ∧ sends ext = [] := by
  unfold zmq_create_socket_connect
  cases h : cf.server with
  | none => exact absurd h hs
  | some server =>
    simp only []
    split_ifs
    all_goals
      refine ⟨_, rfl, rfl, ?_⟩
      simp only [List.append_assoc]
      exact ⟨_, rfl, rfl⟩

theorem zmq_create_socket_spec (env : ngx_env) (calls : List ext_call)
    (cf : ngx_http_log_zmq_element_conf_t) (hc : cf.ctx ≠ none) (hs : cf.server ≠ none) :
    ∃ res, zmq_create_socket env calls cf = some res ∧
      same_config cf res.2.1 ∧ res.2.1.ctx ≠ none ∧
      ∃ ext, res.2.2 = calls ++ ext ∧ sends ext = [] := by
  unfold zmq_create_socket
  cases h : cf.ctx with
  | none => exact absurd h hc
  | some ctx =>
    simp only []
    split_ifs with h1 h2 h3
    · exact ⟨_, rfl, same_config_refl cf, hc, [], by simp, rfl⟩
    · exact ⟨_, rfl, by simp [same_config], by simp, _, rfl, rfl⟩
    · obtain ⟨res, he, hcf, ext, hx, hsd⟩ := zmq_create_socket_connect_spec env
        (calls ++ [ext_call.zmq_socket ctx.zmq_context ZMQ_PUB])
        { cf with ctx := some { ctx with zmq_socket := (env.reply calls.length).ptr, screated := 1 } }
        { ctx with zmq_socket := (env.reply calls.length).ptr, screated := 1 } hs
      refine ⟨res, he, ?_, ?_, ext_call.zmq_socket ctx.zmq_context ZMQ_PUB :: ext, ?_, ?_⟩
      · rw [hcf]; simp [same_config]
      · rw [hcf]; simp
      · rw [hx]; simp
      · simpa [sends] using hsd
    · obtain ⟨res, he, hcf, ext, hx, hsd⟩ := zmq_create_socket_connect_spec env calls cf ctx hs
      exact ⟨res, he, by rw [hcf]; exact same_config_refl cf, by rw [hcf]; exact hc, ext, hx, hsd⟩

theorem handler_connect_spec (env : ngx_env) (clecf : ngx_http_log_zmq_element_conf_t)
    (calls : List ext_call) (hc : clecf.ctx ≠ none) (hs : clecf.server ≠ none) :
    ∃ res, ngx_http_log_zmq_handler_connect env clecf calls = some res ∧
      same_config clecf res.2.1 ∧ res.2.1.ctx ≠ none ∧
      ∃ ext, res.2.2 = calls ++ ext ∧ sends ext = [] := by
  unfold ngx_http_log_zmq_handler_connect
  cases h : clecf.ctx with
  | none => exact absurd h hc
  | some ctx =>
    simp only []
    generalize hcr : (if ctx.zmq_context = none ∧ ctx.ccreated = 0 then
      zmq_create_ctx env calls clecf else (0, clecf, calls)) = created
    have hcreated : same_config clecf created.2.1 ∧ created.2.1.ctx ≠ none ∧
        created.2.1.server ≠ none ∧ ∃ ext, created.2.2 = calls ++ ext ∧ sends ext = [] := by
      rw [← hcr]
      split_ifs
      · obtain ⟨h1, h2, h3⟩ := zmq_create_ctx_spec env calls clecf
        refine ⟨h1, ?_, ?_, h3⟩
        · rw [Ne, h2]; exact hc
        · rw [h1.1]; exact hs
      · exact ⟨same_config_refl _, hc, hs, [], by simp, rfl⟩
    obtain ⟨hsc, hcc, hcs, ext1, hx1, hs1⟩ := hcreated
    split_ifs with hrc
    · exact ⟨_, rfl, hsc, hcc, ext1, hx1, hs1⟩
    · cases h2 : created.2.1.ctx with
      | none => exact absurd h2 hcc
      | some ctx2 =>
        simp only []
        split_ifs
        · obtain ⟨res, he, hsc3, hc3, ext3, hx3, hs3⟩ :=
            zmq_create_socket_spec env created.2.2 created.2.1 hcc hcs
          exact ⟨res, he, same_config_trans hsc hsc3, hc3, ext1 ++ ext3,
            by rw [hx3, hx1]; simp, by rw [sends_append, hs1, hs3]; rfl⟩
        · exact ⟨_, rfl, hsc, hcc, ext1, hx1, hs1⟩

theorem handler_send_spec (env : ngx_env) (e : Nat)
    (clecf d : ngx_http_log_zmq_element_conf_t) (zmq_data : ngx_str_t)
    (defs : List ngx_http_log_zmq_element_conf_t) (calls : List ext_call)
    (hd : defs[e]? = some d) (hsame : same_config d clecf)
    (hc : clecf.ctx ≠ none) (hs : clecf.server ≠ none) :
    ∃ st, ngx_http_log_zmq_handler_send env e clecf zmq_data defs calls = some st ∧
      List.Forall₂ same_config defs st.1 ∧ ∃ ext, st.2 = calls ++ ext := by
  unfold ngx_http_log_zmq_handler_send
  obtain ⟨⟨rc, cf3, calls3⟩, he, hsc3, hc3, ext3, hx3, _⟩ :=
    handler_connect_spec env clecf calls hc hs
  rw [he]
  simp only at hsc3 hc3 hx3 ⊢
  have hall := forall2_same_config_set defs e d cf3 hd (same_config_trans hsame hsc3)
  split_ifs
  · exact ⟨_, rfl, hall, ext3, hx3⟩
  · cases h4 : cf3.ctx with
    | none => exact absurd h4 hc3
    | some ctx4 =>
      exact ⟨_, rfl, hall, ext3 ++ [ext_call.zmq_msg_send ctx4.zmq_socket zmq_data],
        by simp [hx3]⟩


theorem log_zmq_serialize_calls (env : ngx_env) (calls : List ext_call) (t b : ngx_str_t) :
    (log_zmq_serialize env calls t b).2.2 = calls ++ [ext_call.ngx_palloc (t.length + b.length)] := by
  unfold log_zmq_serialize
  simp only []
  split_ifs <;> rfl

theorem handler_send_frame {env : ngx_env} {e : Nat}
    {clecf : ngx_http_log_zmq_element_conf_t} {zmq_data : ngx_str_t}
    {defs : List ngx_http_log_zmq_element_conf_t} {calls : List ext_call}
    {st : List ngx_http_log_zmq_element_conf_t × List ext_call}
    (h : ngx_http_log_zmq_handler_send env e clecf zmq_data defs calls = some st)
    (d : ngx_http_log_zmq_element_conf_t)
    (hd : defs[e]? = some d) (hsame : same_config d clecf)
    (hc : clecf.ctx ≠ none) (hs : clecf.server ≠ none) :
    List.Forall₂ same_config defs st.1 ∧ ∃ ext, st.2 = calls ++ ext := by
  obtain ⟨s, hs, hall, hx⟩ := handler_send_spec env e clecf d zmq_data defs calls hd hsame hc hs
  rw [hs] at h
  cases h
  exact ⟨hall, hx⟩

theorem handler_element_frame (env : ngx_env) (r : ngx_http_request_t)
    (b : ngx_http_log_zmq_loc_element_conf_t)
    (st st' : List ngx_http_log_zmq_element_conf_t × List ext_call)
    (h : ngx_http_log_zmq_handler_element env r b st = some st') :
    List.Forall₂ same_config st.1 st'.1 ∧ ∃ ext, st'.2 = st.2 ++ ext := by
  have hsame : ∀ s : List ngx_http_log_zmq_element_conf_t × List ext_call, some st = some s →
      List.Forall₂ same_config st.1 s.1 ∧ ∃ ext, s.2 = st.2 ++ ext := by
    intro s hs
    cases hs
    exact ⟨forall2_same_config_refl _, [], by simp⟩
  have hser : ∀ (t d : ngx_str_t) (s : List ngx_http_log_zmq_element_conf_t × List ext_call),
      some (st.1, (log_zmq_serialize env st.2 t d).2.2) = some s →
      List.Forall₂ same_config st.1 s.1 ∧ ∃ ext, s.2 = st.2 ++ ext := by
    intro t d s hs
    cases hs
    exact ⟨forall2_same_config_refl _, _, log_zmq_serialize_calls env st.2 t d⟩
  unfold ngx_http_log_zmq_handler_element at h
  repeat' split at h
  all_goals first
    | exact hsame _ h
    | cases h
    | skip
  · simp only [ite_self] at h
    exact hser _ _ _ h
  · simp only [] at h
    split_ifs at h
    · exact hser _ _ _ h
    · obtain ⟨hall, ext, hx⟩ := handler_send_frame h _ (by assumption) (by simp [same_config])
        (by simp) (by simp [*])
      refine ⟨hall, ?_⟩
      rw [hx, log_zmq_serialize_calls]
      exact ⟨_, List.append_assoc _ _ _⟩

theorem points_into_get {defs : List ngx_http_log_zmq_element_conf_t}
    {b : ngx_http_log_zmq_loc_element_conf_t} {e : Nat}
    (hb : points_into defs b) (he : b.element = some e) (hn : defs[e]? = none) : False := by
  have := hb e he
  rw [List.getElem?_eq_none_iff] at hn
  omega

theorem paired_data {defs : List ngx_http_log_zmq_element_conf_t}
    {d : ngx_http_log_zmq_element_conf_t} {e : Nat} {x : List u_char}
    (hp : ∀ d ∈ defs, templates_paired d) (hd : defs[e]? = some d)
    (hl : d.data_lengths = some x) (hv : d.data_values = none) : False :=
  (hp d (List.getElem?_mem hd)).1 (by simp [hl]) hv

theorem paired_endpoint {defs : List ngx_http_log_zmq_element_conf_t}
    {d : ngx_http_log_zmq_element_conf_t} {e : Nat} {x : List u_char}
    (hp : ∀ d ∈ defs, templates_paired d) (hd : defs[e]? = some d)
    (hl : d.endpoint_lengths = some x) (hv : d.endpoint_values = none) : False :=
  (hp d (List.getElem?_mem hd)).2 (by simp [hl]) hv

theorem handler_send_total (env : ngx_env) (e : Nat)
    (clecf : ngx_http_log_zmq_element_conf_t) (zmq_data : ngx_str_t)
    (defs : List ngx_http_log_zmq_element_conf_t) (calls : List ext_call)
    (hc : clecf.ctx ≠ none) (hs : clecf.server ≠ none) :
    ∃ st, ngx_http_log_zmq_handler_send env e clecf zmq_data defs calls = some st := by
  unfold ngx_http_log_zmq_handler_send
  obtain ⟨⟨rc, cf3, calls3⟩, he, _, hc3, _⟩ := handler_connect_spec env clecf calls hc hs
  rw [he]
  simp only at hc3 ⊢
  split_ifs
  · exact ⟨_, rfl⟩
  · cases h4 : cf3.ctx with
    | none => exact absurd h4 hc3
    | some ctx4 => exact ⟨_, rfl⟩

theorem handler_element_total (env : ngx_env) (r : ngx_http_request_t)
    (b : ngx_http_log_zmq_loc_element_conf_t)
    (st : List ngx_http_log_zmq_element_conf_t × List ext_call)
    (hb : points_into st.1 b) (hp : ∀ d ∈ st.1, templates_paired d) :
    ∃ st', ngx_http_log_zmq_handler_element env r b st = some st' := by
  unfold ngx_http_log_zmq_handler_element
  repeat' split
  all_goals first
    | exact ⟨_, rfl⟩
    | exact (points_into_get hb (by assumption) (by assumption)).elim
    | exact (paired_data hp (by assumption) (by assumption) (by assumption)).elim
    | exact (paired_endpoint hp (by assumption) (by assumption) (by assumption)).elim
    | skip
  · simp only [ite_self]
    exact ⟨_, rfl⟩
  · simp only []
    split_ifs
    · exact ⟨_, rfl⟩
    · exact handler_send_total _ _ _ _ _ _ (by simp) (by simp [*])


/-! ### The loop -/

theorem handler_loop_append (env : ngx_env) (r : ngx_http_request_t)
    (xs ys : List ngx_http_log_zmq_loc_element_conf_t)
    (st : List ngx_http_log_zmq_element_conf_t × List ext_call) :
    ngx_http_log_zmq_handler_loop env r (xs ++ ys) st =
      (ngx_http_log_zmq_handler_loop env r xs st).bind (ngx_http_log_zmq_handler_loop env r ys) := by
  induction xs generalizing st with
  | nil => simp [ngx_http_log_zmq_handler_loop]
  | cons x xs ih =>
    simp only [List.cons_append, ngx_http_log_zmq_handler_loop]
    cases ngx_http_log_zmq_handler_element env r x st with
    | none => rfl
    | some st1 => exact ih st1

theorem handler_loop_frame (env : ngx_env) (r : ngx_http_request_t)
    (bs : List ngx_http_log_zmq_loc_element_conf_t)
    (st st' : List ngx_http_log_zmq_element_conf_t × List ext_call)
    (h : ngx_http_log_zmq_handler_loop env r bs st = some st') :
    List.Forall₂ same_config st.1 st'.1 ∧ ∃ ext, st'.2 = st.2 ++ ext := by
  induction bs generalizing st with
  | nil =>
    simp only [ngx_http_log_zmq_handler_loop, Option.some.injEq] at h
    subst h
    exact ⟨forall2_same_config_refl _, [], by simp⟩
  | cons b bs ih =>
    simp only [ngx_http_log_zmq_handler_loop] at h
    cases h1 : ngx_http_log_zmq_handler_element env r b st with
    | none => rw [h1] at h; cases h
    | some st1 =>
      rw [h1] at h
      obtain ⟨ha, ext1, hx1⟩ := handler_element_frame env r b st st1 h1
      obtain ⟨hb, ext2, hx2⟩ := ih st1 h
      exact ⟨forall2_same_config_trans ha hb, ext1 ++ ext2, by rw [hx2, hx1]; simp⟩

theorem handler_loop_total (env : ngx_env) (r : ngx_http_request_t)
    (bs : List ngx_http_log_zmq_loc_element_conf_t)
    (st : List ngx_http_log_zmq_element_conf_t × List ext_call)
    (hb : ∀ b ∈ bs, points_into st.1 b) (hp : ∀ d ∈ st.1, templates_paired d) :
    ∃ st', ngx_http_log_zmq_handler_loop env r bs st = some st' := by
  induction bs generalizing st with
  | nil => exact ⟨st, rfl⟩
  | cons b bs ih =>
    obtain ⟨st1, h1⟩ := handler_element_total env r b st (hb b (List.mem_cons_self _ _)) hp
    obtain ⟨ha, _⟩ := handler_element_frame env r b st st1 h1
    simp only [ngx_http_log_zmq_handler_loop, h1]
    apply ih st1
    · intro b' hb' e he
      rw [← ha.length_eq]
      exact hb b' (List.mem_cons_of_mem _ hb') e he
    · exact forall2_templates_paired ha hp

theorem handler_eq_loop (env : ngx_env) (r : ngx_http_request_t)
    (lccf : ngx_http_log_zmq_loc_conf_t) (bs : List ngx_http_log_zmq_loc_element_conf_t)
    (defs : List ngx_http_log_zmq_element_conf_t) (calls : List ext_call)
    (hoff : lccf.off ≠ 1) (hl : lccf.logs = some bs) :
    ngx_http_log_zmq_handler env r lccf defs calls =
      (ngx_http_log_zmq_handler_loop env r bs (defs, calls)).map (fun st => (NGX_OK, st.1, st.2)) := by
  unfold ngx_http_log_zmq_handler
  rw [if_neg hoff, hl]
  simp only []
  cases ngx_http_log_zmq_handler_loop env r bs (defs, calls) with
  | none => rfl
  | some st => rfl

theorem handler_singleton (env : ngx_env) (r : ngx_http_request_t)
    (lccf : ngx_http_log_zmq_loc_conf_t) (b : ngx_http_log_zmq_loc_element_conf_t)
    (defs : List ngx_http_log_zmq_element_conf_t) (calls : List ext_call)
    (hoff : lccf.off ≠ 1) :
    ngx_http_log_zmq_handler env r { lccf with logs := some [b] } defs calls =
      (ngx_http_log_zmq_handler_element env r b (defs, calls)).map
        (fun st => (NGX_OK, st.1, st.2)) := by
  rw [handler_eq_loop env r { lccf with logs := some [b] } [b] defs calls hoff rfl]
  simp only [ngx_http_log_zmq_handler_loop]
  cases ngx_http_log_zmq_handler_element env r b (defs, calls) with
  | none => rfl
  | some st => rfl

theorem handler_element_skipped_by_flags (env : ngx_env) (r : ngx_http_request_t)
    (b : ngx_http_log_zmq_loc_element_conf_t)
    (st : List ngx_http_log_zmq_element_conf_t × List ext_call)
    (h : skipped_by_flags st.1 b) :
    ngx_http_log_zmq_handler_element env r b st = some st := by
  unfold ngx_http_log_zmq_handler_element
  rcases h with h | ⟨e, d, he, hd, hf⟩
  · rw [if_pos h]
  · split_ifs
    · rfl
    · have hf' : d.eset = 0 ∨ d.fset = 0 ∨ d.sset = 0 := by tauto
      simp only [he, hd, if_pos hf']

theorem skipped_by_flags_of_same_config {defs defs1 : List ngx_http_log_zmq_element_conf_t}
    {b : ngx_http_log_zmq_loc_element_conf_t}
    (ha : List.Forall₂ same_config defs defs1) (h : skipped_by_flags defs b) :
    skipped_by_flags defs1 b := by
  rcases h with h | ⟨e, d, he, hd, hf⟩
  · exact Or.inl h
  · obtain ⟨d1, hd1, hs⟩ := forall2_same_config_get ha e d hd
    refine Or.inr ⟨e, d1, he, hd1, ?_⟩
    simp only [same_config] at hs
    simp_all

theorem handler_element_render_skipped (env : ngx_env) (r : ngx_http_request_t)
    (b : ngx_http_log_zmq_loc_element_conf_t)
    (st : List ngx_http_log_zmq_element_conf_t × List ext_call)
    (h : render_skipped env r st.1 b) :
    ngx_http_log_zmq_handler_element env r b st = some st := by
  obtain ⟨e, d, dl, dv, el, ev, he, hd, hdl, hdv, hel, hev, hr⟩ := h
  unfold ngx_http_log_zmq_handler_element
  simp only [he, hd, hdl, hdv, hel, hev]
  rcases hr with hr | hr | hr
  · simp only [hr]
    repeat' split
    all_goals rfl
  · simp only [hr]
    repeat' split
    all_goals first
      | rfl
      | simp_all
  · simp only [hr]
    repeat' split
    all_goals rfl

theorem render_skipped_of_same_config {env : ngx_env} {r : ngx_http_request_t}
    {defs defs1 : List ngx_http_log_zmq_element_conf_t}
    {b : ngx_http_log_zmq_loc_element_conf_t}
    (ha : List.Forall₂ same_config defs defs1) (h : render_skipped env r defs b) :
    render_skipped env r defs1 b := by
  obtain ⟨e, d, dl, dv, el, ev, he, hd, hdl, hdv, hel, hev, hr⟩ := h
  obtain ⟨d1, hd1, hs⟩ := forall2_same_config_get ha e d hd
  simp only [same_config] at hs
  exact ⟨e, d1, dl, dv, el, ev, he, hd1, by simp_all, by simp_all, by simp_all, by simp_all, hr⟩

/-- A binding at which the loop body returns the state unchanged, in every state that keeps
the configuration fields, can be removed from the scope without changing the run. -/
theorem handler_skip_binding (env : ngx_env) (r : ngx_http_request_t)
    (lccf : ngx_http_log_zmq_loc_conf_t)
    (pre post : List ngx_http_log_zmq_loc_element_conf_t)
    (b : ngx_http_log_zmq_loc_element_conf_t)
    (defs : List ngx_http_log_zmq_element_conf_t) (calls : List ext_call)
    (hl : lccf.logs = some (pre ++ b :: post))
    (hskip : ∀ st : List ngx_http_log_zmq_element_conf_t × List ext_call,
      List.Forall₂ same_config defs st.1 →
      ngx_http_log_zmq_handler_element env r b st = some st) :
    ngx_http_log_zmq_handler env r lccf defs calls =
      ngx_http_log_zmq_handler env r { lccf with logs := some (pre ++ post) } defs calls := by
  by_cases hoff : lccf.off = 1
  · simp [ngx_http_log_zmq_handler, hoff]
  · rw [handler_eq_loop env r lccf _ defs calls hoff hl,
      handler_eq_loop env r { lccf with logs := some (pre ++ post) } _ defs calls hoff rfl,
      handler_loop_append, handler_loop_append]
    cases h1 : ngx_http_log_zmq_handler_loop env r pre (defs, calls) with
    | none => rfl
    | some st1 =>
      obtain ⟨ha, _⟩ := handler_loop_frame env r pre (defs, calls) st1 h1
      simp only [Option.some_bind, ngx_http_log_zmq_handler_loop, hskip st1 ha]

/-- C5: a binding is passed over, and nothing at all is done for it, when the scope is
globally muted, or the binding is muted, or its target lacks the server, the format or the
endpoint: the run is the run of the scope without that binding, and in a globally muted
scope the handler returns `NGX_OK` with the definitions and the call log untouched, so no
frame is enqueued and no context or socket is created. -/
theorem ngx_http_log_zmq_handler_skips (env : ngx_env) (r : ngx_http_request_t)
    (lccf : ngx_http_log_zmq_loc_conf_t)
    (pre post : List ngx_http_log_zmq_loc_element_conf_t)
    (b : ngx_http_log_zmq_loc_element_conf_t)
    (defs : List ngx_http_log_zmq_element_conf_t) (calls : List ext_call)
    (hl : lccf.logs = some (pre ++ b :: post))
    (hskip : lccf.off = 1 ∨ skipped_by_flags defs b) :
    ngx_http_log_zmq_handler env r lccf defs calls =
      ngx_http_log_zmq_handler env r { lccf with logs := some (pre ++ post) } defs calls ∧
    (lccf.off = 1 →
      ngx_http_log_zmq_handler env r lccf defs calls = some (NGX_OK, defs, calls)) ∧
    (skipped_by_flags defs b →
      ngx_http_log_zmq_handler_element env r b (defs, calls) = some (defs, calls)) := by
  refine ⟨?_, ?_, ?_⟩
  · rcases hskip with hoff | hs
    · simp [ngx_http_log_zmq_handler, hoff]
    · exact handler_skip_binding env r lccf pre post b defs calls hl
        (fun st ha => handler_element_skipped_by_flags env r b st
          (skipped_by_flags_of_same_config ha hs))
  · intro hoff
    simp [ngx_http_log_zmq_handler, hoff]
  · intro hs
    exact handler_element_skipped_by_flags env r b (defs, calls) hs

/-- C6: a binding whose message template renders to an empty body, or whose message or
topic template fails to render, is passed over with nothing done for it: the loop body
returns the definitions (hence the target's Transport Connection) and the call log as they
were, the run is the run of the scope without that binding, and on the scope holding only
that binding the handler returns `NGX_OK` with the state untouched. -/
theorem ngx_http_log_zmq_handler_render_skip (env : ngx_env) (r : ngx_http_request_t)
    (lccf : ngx_http_log_zmq_loc_conf_t)
    (pre post : List ngx_http_log_zmq_loc_element_conf_t)
    (b : ngx_http_log_zmq_loc_element_conf_t)
    (defs : List ngx_http_log_zmq_element_conf_t) (calls : List ext_call)
    (hl : lccf.logs = some (pre ++ b :: post))
    (hskip : render_skipped env r defs b) :
    ngx_http_log_zmq_handler_element env r b (defs, calls) = some (defs, calls) ∧
    ngx_http_log_zmq_handler env r { lccf with logs := some [b], off := 0 } defs calls =
      some (NGX_OK, defs, calls) ∧
    ngx_http_log_zmq_handler env r lccf defs calls =
      ngx_http_log_zmq_handler env r { lccf with logs := some (pre ++ post) } defs calls := by
  have h1 := handler_element_render_skipped env r b (defs, calls) hskip
  refine ⟨h1, ?_, ?_⟩
  · rw [handler_singleton env r { lccf with off := 0 } b defs calls (by simp), h1]
    rfl
  · exact handler_skip_binding env r lccf pre post b defs calls hl
      (fun st ha => handler_element_render_skipped env r b st
        (render_skipped_of_same_config ha hskip))


/-! ### Dispatched bindings -/

theorem handler_element_dispatched (env : ngx_env) (r : ngx_http_request_t)
    (b : ngx_http_log_zmq_loc_element_conf_t)
    (defs : List ngx_http_log_zmq_element_conf_t) (calls : List ext_call)
    (e : Nat) (d : ngx_http_log_zmq_element_conf_t) (topic body : ngx_str_t)
    (clecf : ngx_http_log_zmq_element_conf_t) (calls1 : List ext_call)
    (h : dispatched env r b defs calls e d topic body clecf calls1) :
    ∃ ctx, clecf.ctx = some ctx ∧
      ngx_http_log_zmq_handler_element env r b (defs, calls) =
        some (defs.set e clecf, calls1 ++ [ext_call.zmq_msg_send ctx.zmq_socket (topic ++ body)]) ∧
      sends calls1 = sends calls := by
  obtain ⟨hoff, he, hd, hs, hf, hes, ⟨name, hname, hne⟩, hsrv, ⟨dl, dv, hdl, hdv, hbody⟩,
    ⟨el, ev, hel, hev, htopic⟩, hbne, halloc, ctx, hctx, hconn⟩ := h
  obtain ⟨res, hres, _, hcne, ext, hx, hsd⟩ := handler_connect_spec env
    { d with ctx := some { ctx with log := r.log } }
    (calls ++ [ext_call.ngx_palloc (topic.length + body.length)]) (by simp) (by simpa using hsrv)
  rw [hconn] at hres
  cases hres
  simp only at hcne hx
  cases hc : clecf.ctx with
  | none => exact absurd hc hcne
  | some ctx1 =>
    refine ⟨ctx1, rfl, ?_, ?_⟩
    · obtain ⟨srv, hsrv'⟩ := Option.ne_none_iff_exists'.mp hsrv
      have hflags : ¬(d.eset = 0 ∨ d.fset = 0 ∨ d.sset = 0) := by tauto
      have hlen : ¬(name.length = 0) := by simpa using hne
      have hblen : ¬(body.length = 0) := by simpa using hbne
      have hser := log_zmq_serialize_output env calls topic body halloc
      have hok : ¬((NGX_OK : ngx_int_t) = NGX_ERROR) := by decide
      have hconn1 := hconn
      simp only [hname, hsrv', hdl, hdv, hel, hev] at hconn1
      simp only [ngx_http_log_zmq_handler_element, if_neg hoff, he, hd, if_neg hflags, hname,
        if_neg hlen, hsrv', hdl, hdv, hel, hev, hbody, htopic, if_neg hblen, hser, if_neg hok,
        hctx, ngx_http_log_zmq_handler_send, hconn1, hc]
      simp
    · rw [hx, sends_append, sends_append, hsd]
      simp [sends]

/-- C2: a binding that is not skipped gets exactly one frame, the rendered topic followed by
the rendered body: when the loop reaches the binding `b` of the scope `pre ++ b :: post` in
the state the bindings `pre` have left, the loop body sends one frame `topic ++ body` on the
target's socket, the frames enqueued so far grow by exactly that frame, and the run goes on
with the bindings `post`. -/
theorem ngx_http_log_zmq_handler_frame (env : ngx_env) (r : ngx_http_request_t)
    (lccf : ngx_http_log_zmq_loc_conf_t)
    (pre post : List ngx_http_log_zmq_loc_element_conf_t)
    (b : ngx_http_log_zmq_loc_element_conf_t)
    (defs defs1 : List ngx_http_log_zmq_element_conf_t) (calls calls1 : List ext_call)
    (e : Nat) (d : ngx_http_log_zmq_element_conf_t) (topic body : ngx_str_t)
    (clecf : ngx_http_log_zmq_element_conf_t) (calls2 : List ext_call)
    (hoff : lccf.off ≠ 1) (hl : lccf.logs = some (pre ++ b :: post))
    (hpre : ngx_http_log_zmq_handler env r { lccf with logs := some pre } defs calls =
      some (NGX_OK, defs1, calls1))
    (hd : dispatched env r b defs1 calls1 e d topic body clecf calls2) :
    ∃ sock,
      ngx_http_log_zmq_handler_element env r b (defs1, calls1) =
        some (defs1.set e clecf, calls2 ++ [ext_call.zmq_msg_send sock (topic ++ body)]) ∧
      frames (calls2 ++ [ext_call.zmq_msg_send sock (topic ++ body)]) =
        frames calls1 ++ [topic ++ body] ∧
      ngx_http_log_zmq_handler env r lccf defs calls =
        ngx_http_log_zmq_handler env r { lccf with logs := some post }
          (defs1.set e clecf) (calls2 ++ [ext_call.zmq_msg_send sock (topic ++ body)]) := by
  obtain ⟨ctx, _, hel, hsd⟩ := handler_element_dispatched env r b defs1 calls1 e d topic body
    clecf calls2 hd
  refine ⟨ctx.zmq_socket, hel, ?_, ?_⟩
  · simp [frames, sends_append, hsd, sends]
  · rw [handler_eq_loop env r { lccf with logs := some pre } pre defs calls hoff rfl] at hpre
    cases hp : ngx_http_log_zmq_handler_loop env r pre (defs, calls) with
    | none => rw [hp] at hpre; cases hpre
    | some st1 =>
      rw [hp] at hpre
      simp only [Option.map_some', Option.some.injEq, Prod.mk.injEq, true_and] at hpre
      obtain ⟨h1, h2⟩ := hpre
      have hst : st1 = (defs1, calls1) := by cases st1; simp_all
      subst hst
      rw [handler_eq_loop env r lccf _ defs calls hoff hl,
        handler_eq_loop env r { lccf with logs := some post } post _ _ hoff rfl,
        handler_loop_append, hp]
      simp only [Option.some_bind, ngx_http_log_zmq_handler_loop, hel]


/-! ### Names -/

theorem ngx_strncmp_self (a : List u_char) (n : Nat) : ngx_strncmp a a n = 0 := by
  induction n generalizing a with
  | zero => simp [ngx_strncmp]
  | succ n ih => simp [ngx_strncmp, ih]

theorem name_matches_refl (a : ngx_str_t) : name_matches a a = true := by
  simp [name_matches, ngx_strncmp_self]

theorem u_char_sub_ne_zero (c1 c2 : u_char) (h : c1 ≠ c2) :
    (c1.toNat : Int) - (c2.toNat : Int) ≠ 0 := by
  intro h0
  apply h
  have : c1.toNat = c2.toNat := by omega
  exact UInt8.toNat.inj this

/-- On buffers of `n` bytes of which the second holds no NUL byte, `ngx_strncmp` over `n`
bytes returns 0 only for equal buffers. -/
theorem ngx_strncmp_eq_zero (n : Nat) (a b : List u_char) (ha : a.length = n)
    (hb : b.length = n) (hnul : ∀ c ∈ b, c ≠ 0) (h : ngx_strncmp a b n = 0) : a = b := by
  induction n generalizing a b with
  | zero =>
    rw [List.length_eq_zero] at ha hb
    rw [ha, hb]
  | succ n ih =>
    match a, b, ha, hb with
    | c1 :: a1, c2 :: b1, ha, hb =>
      simp only [ngx_strncmp, List.headD_cons, List.tail_cons] at h
      by_cases hc : c1 = c2
      · subst hc
        have h0 : c1 ≠ 0 := hnul c1 (List.mem_cons_self _ _)
        simp only [ne_eq, not_true_eq_false, if_false, h0] at h
        rw [ih a1 b1 (by simpa using ha) (by simpa using hb)
          (fun c hc => hnul c (List.mem_cons_of_mem _ hc)) h]
      · simp only [ne_eq, hc, not_false_eq_true, if_true] at h
        exact absurd h (u_char_sub_ne_zero c1 c2 hc)

theorem is_all_iff (v : ngx_str_t) :
    (v.length = 3 ∧ ngx_strncmp v (ngx_string "all") v.length = 0) ↔ v = ngx_string "all" := by
  constructor
  · rintro ⟨hlen, h⟩
    rw [hlen] at h
    exact ngx_strncmp_eq_zero 3 v _ hlen (by decide) (by decide) h
  · intro h
    rw [h]
    exact ⟨by decide, ngx_strncmp_self _ _⟩

/-! ### Scope directives -/

theorem create_location_element_off (defs : List ngx_http_log_zmq_element_conf_t)
    (llcf llcf1 : ngx_http_log_zmq_loc_conf_t) (name : ngx_str_t) (j : Nat)
    (h : ngx_http_log_zmq_create_location_element defs llcf name = some (llcf1, j)) :
    llcf1.off = llcf.off ∧ llcf1.logs_definition = llcf.logs_definition ∧
    llcf1.log = llcf.log := by
  unfold ngx_http_log_zmq_create_location_element at h
  repeat' split at h
  all_goals first
    | (cases h; done)
    | skip
  all_goals
    simp only [Option.some.injEq, Prod.mk.injEq] at h
    obtain ⟨h1, _⟩ := h
    subst h1
    exact ⟨rfl, rfl, rfl⟩

/-- C8 (what the code does): `ngx_http_log_zmq_set_off` with the argument `all` sets the
scope's disable-everything flag and leaves the binding array, hence every binding's mute
flag, as it was; with any other argument a successful call clears the scope's
disable-everything flag. -/
theorem ngx_http_log_zmq_set_off_flags (cf : ngx_conf_t)
    (llcf llcf1 : ngx_http_log_zmq_loc_conf_t) (value : ngx_str_t)
    (bk : Option ngx_http_log_zmq_main_conf_t)
    (harg : cf.args[1]? = some value)
    (h : ngx_http_log_zmq_set_off cf llcf = some (ngx_conf_rc.NGX_CONF_OK, bk, llcf1)) :
    (value = ngx_string "all" → llcf1.off = 1 ∧ llcf1.logs = llcf.logs) ∧
    (value ≠ ngx_string "all" → llcf1.off = 0) := by
  unfold ngx_http_log_zmq_set_off at h
  rw [harg] at h
  simp only [is_all_iff] at h
  repeat' split at h
  all_goals first
    | (cases h; done)
    | skip
  · have hall : value = ngx_string "all" := by assumption
    simp only [Option.some.injEq, Prod.mk.injEq, true_and] at h
    obtain ⟨_, h1⟩ := h
    subst h1
    exact ⟨fun _ => ⟨rfl, rfl⟩, fun hne => absurd hall hne⟩
  · have hall : ¬value = ngx_string "all" := by assumption
    simp only [Option.some.injEq, Prod.mk.injEq, true_and] at h
    obtain ⟨_, h1⟩ := h
    subst h1
    obtain ⟨hoff, _⟩ := create_location_element_off _ _ _ _ _ (by assumption)
    exact ⟨fun he => absurd he hall, fun _ => by simpa [update_location_element] using hoff⟩

/-- C8 (the claim fails): in the example scope `log_zmq_off all` sets the scope's
disable-everything flag, and `log_zmq_off T` after it succeeds and leaves the flag at 0, so
the scope is no longer globally muted. -/
theorem ngx_http_log_zmq_set_off_name_clears_all :
    (ngx_http_log_zmq_set_off (example_cf ["log_zmq_off", "all"]) example_location).map
        (fun res => (res.1, res.2.2.off)) = some (ngx_conf_rc.NGX_CONF_OK, 1) ∧
    ((ngx_http_log_zmq_set_off (example_cf ["log_zmq_off", "all"]) example_location).bind
        (fun res => ngx_http_log_zmq_set_off (example_cf ["log_zmq_off", "T"]) res.2.2)).map
        (fun res => (res.1, res.2.2.off)) = some (ngx_conf_rc.NGX_CONF_OK, 0) := by
  decide


/-! ### The definition array -/

theorem find_definition_ge (name : ngx_str_t) (l : List ngx_http_log_zmq_element_conf_t)
    (k i : Nat) (h : find_definition name l k = some (some i)) : k ≤ i ∧ i < k + l.length := by
  induction l generalizing k with
  | nil => simp [find_definition] at h
  | cons d rest ih =>
    simp only [find_definition] at h
    split at h
    · cases h
    · split at h
      · simp only [Option.some.injEq] at h
        subst h
        simp
      · have := ih (k + 1) h
        simp only [List.length_cons]
        omega

theorem find_definition_modify_found (name : ngx_str_t)
    (f : ngx_http_log_zmq_element_conf_t → ngx_http_log_zmq_element_conf_t)
    (hf : ∀ d, (f d).name = some name)
    (l : List ngx_http_log_zmq_element_conf_t) (k i : Nat)
    (h : find_definition name l k = some (some i)) :
    find_definition name (l.modify f (i - k)) k = some (some i) := by
  induction l generalizing k with
  | nil => simp [find_definition] at h
  | cons d rest ih =>
    simp only [find_definition] at h
    split at h
    · cases h
    · rename_i n hn
      split at h
      · simp only [Option.some.injEq] at h
        subst h
        simp [find_definition, hf, name_matches_refl]
      · rename_i hm
        obtain ⟨hge, _⟩ := find_definition_ge name rest (k + 1) i h
        have hik : i - k = (i - (k + 1)) + 1 := by omega
        rw [hik, List.modify_succ_cons]
        simp only [find_definition, hn, hm]
        exact ih (k + 1) h

theorem find_definition_modify_append (name : ngx_str_t)
    (f : ngx_http_log_zmq_element_conf_t → ngx_http_log_zmq_element_conf_t)
    (z : ngx_http_log_zmq_element_conf_t) (hf : (f z).name = some name)
    (l : List ngx_http_log_zmq_element_conf_t) (k : Nat)
    (h : find_definition name l k = some none) :
    find_definition name ((l ++ [z]).modify f l.length) k = some (some (k + l.length)) := by
  induction l generalizing k with
  | nil => simp [find_definition, hf, name_matches_refl]
  | cons d rest ih =>
    simp only [find_definition] at h
    split at h
    · cases h
    · rename_i n hn
      split at h
      · cases h
      · rename_i hm
        simp only [List.cons_append, List.length_cons, List.modify_succ_cons]
        simp only [find_definition, hn, hm]
        rw [if_neg (by simp), ih (k + 1) h]
        congr 2
        omega

theorem update_definition_twice (bkmc : ngx_http_log_zmq_main_conf_t) (i : Nat)
    (f g : ngx_http_log_zmq_element_conf_t → ngx_http_log_zmq_element_conf_t) :
    update_definition (update_definition bkmc i f) i g = update_definition bkmc i (g ∘ f) := by
  cases bkmc with
  | mk cycle log logs =>
    cases logs with
    | none => rfl
    | some l => simp [update_definition, List.modify_modify_eq]

/-- What a successful `ngx_http_log_zmq_create_definition` leaves: looking `name` up again
in the array, after the definition returned has been given the name `name`, finds that
definition. -/
theorem create_definition_lookup (bkmc bk1 : ngx_http_log_zmq_main_conf_t) (name : ngx_str_t)
    (lecf : Nat) (f : ngx_http_log_zmq_element_conf_t → ngx_http_log_zmq_element_conf_t)
    (hf : ∀ d, (f d).name = some name)
    (h : ngx_http_log_zmq_create_definition bkmc name = some (bk1, lecf)) :
    ∃ defs, bk1.logs = some defs ∧ lecf < defs.length ∧
      (update_definition bk1 lecf f).logs = some (defs.modify f lecf) ∧
      find_definition name (defs.modify f lecf) 0 = some (some lecf) := by
  unfold ngx_http_log_zmq_create_definition at h
  split at h
  · rename_i logs hlogs
    split at h
    · cases h
    · rename_i i hfind
      simp only [Option.some.injEq, Prod.mk.injEq] at h
      obtain ⟨h1, h2⟩ := h
      subst h1 h2
      obtain ⟨_, hlt⟩ := find_definition_ge name logs 0 _ hfind
      refine ⟨logs, hlogs, by omega, by simp [update_definition, hlogs], ?_⟩
      simpa using find_definition_modify_found name f hf logs 0 _ hfind
    · rename_i hfind
      simp only [Option.some.injEq, Prod.mk.injEq] at h
      obtain ⟨h1, h2⟩ := h
      subst h1 h2
      refine ⟨logs ++ [zero_element_conf], rfl, by simp, by simp [update_definition], ?_⟩
      simpa using find_definition_modify_append name f zero_element_conf (hf _) logs 0 hfind
  · simp only [Option.some.injEq, Prod.mk.injEq] at h
    obtain ⟨h1, h2⟩ := h
    subst h1 h2
    refine ⟨[zero_element_conf], rfl, by simp, by simp [update_definition], ?_⟩
    simp [find_definition, hf, name_matches_refl]


/-- A successful `ngx_http_log_zmq_set_server`, step by step. -/
theorem set_server_ok_inv (env : ngx_conf_env) (cf : ngx_conf_t)
    (llcf llcf1 : ngx_http_log_zmq_loc_conf_t) (bk1 : Option ngx_http_log_zmq_main_conf_t)
    (h : ngx_http_log_zmq_set_server env cf llcf = some (ngx_conf_rc.NGX_CONF_OK, bk1, llcf1)) :
    ∃ bkmc value1 value2 value3 value4 value5 bk lecf d0 kind u peer_addr llcf2 lelcf,
      cf.cmd_type = NGX_HTTP_MAIN_CONF ∧ cf.main_conf = some bkmc ∧
      cf.args[1]? = some value1 ∧ cf.args[2]? = some value2 ∧ cf.args[3]? = some value3 ∧
      cf.args[4]? = some value4 ∧ cf.args[5]? = some value5 ∧
      ngx_http_log_zmq_create_definition bkmc value1 = some (bk, lecf) ∧
      (bk.logs.bind fun logs => logs[lecf]?) = some d0 ∧ d0.sset ≠ 1 ∧
      set_server_kind value3 = some kind ∧
      ¬(env.ngx_atoi value4 = NGX_ERROR ∨ env.ngx_atoi value4 ≤ 0) ∧
      set_server_url env kind value2 = some (some (u, peer_addr)) ∧
      ngx_http_log_zmq_create_location_element (bk.logs.getD [])
        { llcf with logs_definition := logs_ptr bk } value1 = some (llcf2, lelcf) ∧
      bk1 = some (update_definition bk lecf
        (set_server_fields cf.cycle_log value1 (env.ngx_atoi value4) (env.ngx_atoi value5)
          { peer_addr := peer_addr, kind := kind, connection := build_connection kind u.url })) ∧
      llcf1 = { update_location_element llcf2 lelcf
        (fun _ => { off := 0, element := some lecf }) with off := 0 } := by
  unfold ngx_http_log_zmq_set_server at h
  repeat' (first | split at h | simp only [] at h)
  all_goals first
    | (cases h; done)
    | skip
  simp only [update_definition_twice, Option.some.injEq, Prod.mk.injEq, true_and] at h
  obtain ⟨h1, h2⟩ := h
  refine ⟨_, _, _, _, _, _, _, _, _, _, _, _, _, _, by simpa using ‹¬cf.cmd_type ≠ _›,
    ‹cf.main_conf = some _›, ‹cf.args[1]? = some _›, ‹cf.args[2]? = some _›,
    ‹cf.args[3]? = some _›, ‹cf.args[4]? = some _›, ‹cf.args[5]? = some _›,
    ‹ngx_http_log_zmq_create_definition _ _ = some _›, ‹_ = some _›, ‹¬_ = 1›,
    ‹set_server_kind _ = some _›, ‹¬(_ ∨ _)›, ‹set_server_url _ _ _ = some _›,
    ‹ngx_http_log_zmq_create_location_element _ _ _ = some _›, ?_, ?_⟩
  · subst h1
    rfl
  · subst h2
    rfl

theorem set_server_declares (env : ngx_conf_env) (cf : ngx_conf_t)
    (llcf llcf1 : ngx_http_log_zmq_loc_conf_t) (bk1 : Option ngx_http_log_zmq_main_conf_t)
    (name : ngx_str_t) (harg : cf.args[1]? = some name)
    (h : ngx_http_log_zmq_set_server env cf llcf = some (ngx_conf_rc.NGX_CONF_OK, bk1, llcf1)) :
    ∃ b, bk1 = some b ∧ server_declared b name := by
  obtain ⟨bkmc, value1, value2, value3, value4, value5, bk, lecf, d0, kind, u, peer_addr, llcf2,
    lelcf, _, _, h1, _, _, _, _, hcreate, hd0, _, _, _, _, _, hbk, _⟩ :=
    set_server_ok_inv env cf llcf llcf1 bk1 h
  rw [harg] at h1
  cases h1
  generalize hF : set_server_fields cf.cycle_log name (env.ngx_atoi value4) (env.ngx_atoi value5)
      { peer_addr := peer_addr, kind := kind, connection := build_connection kind u.url } = F
      at hbk
  have hFname : ∀ d, (F d).name = some name := by intro d; rw [← hF]; rfl
  have hFsset : ∀ d, (F d).sset = 1 := by intro d; rw [← hF]; rfl
  obtain ⟨defs, hdefs, hlt, hupd, hfind⟩ :=
    create_definition_lookup bkmc bk name lecf F hFname hcreate
  have hd : defs[lecf]? = some d0 := by simpa [hdefs] using hd0
  have hget : (defs.modify F lecf)[lecf]? = some (F d0) := by
    rw [List.getElem?_modify_eq, hd]
    rfl
  exact ⟨_, hbk, defs.modify F lecf, lecf, F d0, hupd, hfind, hget, hFsset d0⟩

/-! ### The lookup of a declared server survives every later directive -/

theorem ngx_strncmp_succ (a b : List u_char) (n : Nat) :
    ngx_strncmp a b (n + 1) = 0 ↔
      a.headD 0 = b.headD 0 ∧ (a.headD 0 = 0 ∨ ngx_strncmp a.tail b.tail n = 0) := by
  simp only [ngx_strncmp]
  generalize a.headD 0 = x
  generalize b.headD 0 = y
  by_cases hc : x = y
  · subst hc
    by_cases h0 : x = 0 <;> simp [h0]
  · simp only [ne_eq, hc, not_false_eq_true, if_true, false_and, iff_false]
    exact u_char_sub_ne_zero _ _ hc

theorem ngx_strncmp_trans (n : Nat) (a b c : List u_char)
    (h1 : ngx_strncmp a b n = 0) (h2 : ngx_strncmp b c n = 0) : ngx_strncmp a c n = 0 := by
  induction n generalizing a b c with
  | zero => simp [ngx_strncmp]
  | succ n ih =>
    rw [ngx_strncmp_succ] at h1 h2 ⊢
    obtain ⟨hab, h1⟩ := h1
    obtain ⟨hbc, h2⟩ := h2
    refine ⟨hab.trans hbc, ?_⟩
    rcases h1 with h1 | h1
    · exact Or.inl h1
    · rcases h2 with h2 | h2
      · exact Or.inl (hab.trans h2)
      · exact Or.inr (ih _ _ _ h1 h2)

theorem name_matches_trans (a b c : ngx_str_t) (h1 : name_matches a b = true)
    (h2 : name_matches b c = true) : name_matches a c = true := by
  simp only [name_matches, Bool.and_eq_true, beq_iff_eq] at *
  obtain ⟨hl1, h1⟩ := h1
  obtain ⟨hl2, h2⟩ := h2
  rw [← hl1] at h2
  exact ⟨hl1.trans hl2, ngx_strncmp_trans _ a b c h1 h2⟩

theorem find_definition_at (name : ngx_str_t) (l : List ngx_http_log_zmq_element_conf_t)
    (k i : Nat) (h : find_definition name l k = some (some i)) :
    ∃ o, (l[i - k]?.bind fun d => d.name) = some o ∧ name_matches o name = true := by
  induction l generalizing k with
  | nil => simp [find_definition] at h
  | cons d rest ih =>
    simp only [find_definition] at h
    split at h
    · cases h
    · rename_i o ho
      split at h
      · rename_i hm
        simp only [Option.some.injEq] at h
        subst h
        exact ⟨o, by simp [ho], hm⟩
      · obtain ⟨hge, _⟩ := find_definition_ge name rest (k + 1) i h
        obtain ⟨o1, h1, h2⟩ := ih (k + 1) h
        have hik : i - k = (i - (k + 1)) + 1 := by omega
        exact ⟨o1, by rw [hik, List.getElem?_cons_succ]; exact h1, h2⟩

theorem find_definition_passed (name : ngx_str_t) (l : List ngx_http_log_zmq_element_conf_t)
    (k i j : Nat) (h : find_definition name l k = some (some i)) (hkj : k ≤ j) (hji : j < i) :
    ∃ o, (l[j - k]?.bind fun d => d.name) = some o ∧ name_matches o name = false := by
  induction l generalizing k with
  | nil => simp [find_definition] at h
  | cons d rest ih =>
    simp only [find_definition] at h
    split at h
    · cases h
    · rename_i o ho
      split at h
      · simp only [Option.some.injEq] at h
        omega
      · rename_i hm
        by_cases hjk : j = k
        · subst hjk
          exact ⟨o, by simp [ho], by simpa using hm⟩
        · obtain ⟨o1, h1, h2⟩ := ih (k + 1) h (by omega)
          have hik : j - k = (j - (k + 1)) + 1 := by omega
          exact ⟨o1, by rw [hik, List.getElem?_cons_succ]; exact h1, h2⟩

/-- Giving the name `m` to the definition at position `j` keeps the lookup of `name` at
position `i`, when `j` is not `i` and, if `j` comes before `i`, `m` does not match `name`. -/
theorem find_definition_modify_other (name m : ngx_str_t)
    (f : ngx_http_log_zmq_element_conf_t → ngx_http_log_zmq_element_conf_t)
    (hf : ∀ d, (f d).name = some m)
    (l : List ngx_http_log_zmq_element_conf_t) (k i j : Nat)
    (h : find_definition name l k = some (some i)) (hne : j + k ≠ i)
    (hlt : j + k < i → name_matches m name = false) :
    find_definition name (l.modify f j) k = some (some i) := by
  induction l generalizing k j with
  | nil => simp [find_definition] at h
  | cons d rest ih =>
    simp only [find_definition] at h
    split at h
    · cases h
    · rename_i o ho
      split at h
      · rename_i hm
        simp only [Option.some.injEq] at h
        subst h
        cases j with
        | zero => simp at hne
        | succ j =>
          rw [List.modify_succ_cons]
          simp [find_definition, ho, hm]
      · rename_i hm
        obtain ⟨hge, _⟩ := find_definition_ge name rest (k + 1) i h
        cases j with
        | zero =>
          rw [List.modify_zero_cons]
          have := hlt (by omega)
          simp only [find_definition, hf, this]
          simpa using h
        | succ j =>
          rw [List.modify_succ_cons]
          simp only [find_definition, ho, hm]
          rw [if_neg (by simp)]
          exact ih (k + 1) j h (by omega) (fun hlt1 => hlt (by omega))

/-- A change of a definition that keeps every name keeps every lookup. -/
theorem find_definition_modify_same (name : ngx_str_t)
    (f : ngx_http_log_zmq_element_conf_t → ngx_http_log_zmq_element_conf_t)
    (hf : ∀ d, (f d).name = d.name)
    (l : List ngx_http_log_zmq_element_conf_t) (k j : Nat) :
    find_definition name (l.modify f j) k = find_definition name l k := by
  induction l generalizing k j with
  | nil => simp
  | cons d rest ih =>
    cases j with
    | zero =>
      rw [List.modify_zero_cons]
      simp only [find_definition, hf]
    | succ j =>
      rw [List.modify_succ_cons]
      simp only [find_definition, ih]

theorem find_definition_append (name : ngx_str_t)
    (l x : List ngx_http_log_zmq_element_conf_t) (k i : Nat)
    (h : find_definition name l k = some (some i)) :
    find_definition name (l ++ x) k = some (some i) := by
  induction l generalizing k with
  | nil => simp [find_definition] at h
  | cons d rest ih =>
    simp only [find_definition, List.cons_append] at h ⊢
    cases hn : d.name with
    | none => simp [hn] at h
    | some o =>
      simp only [hn] at h ⊢
      by_cases hm : name_matches o name = true
      · simpa [hm] using h
      · simp only [hm] at h ⊢
        exact ih (k + 1) (by simpa using h)

/-- What `ngx_http_log_zmq_create_definition` leaves of an earlier declaration: the lookup
of `name` and the definition it finds are as before, and the definition returned is another
one unless the lookup of `m` is the lookup of `name`. -/
theorem create_definition_keeps (bkmc bk1 : ngx_http_log_zmq_main_conf_t) (m name : ngx_str_t)
    (lecf : Nat) (defs : List ngx_http_log_zmq_element_conf_t) (i : Nat)
    (d : ngx_http_log_zmq_element_conf_t)
    (hdefs : bkmc.logs = some defs) (hfind : find_definition name defs 0 = some (some i))
    (hd : defs[i]? = some d)
    (h : ngx_http_log_zmq_create_definition bkmc m = some (bk1, lecf)) :
    ∃ defs1, bk1.logs = some defs1 ∧ find_definition name defs1 0 = some (some i) ∧
      defs1[i]? = some d ∧
      (lecf = i ∨ (lecf < i → name_matches m name = false)) := by
  unfold ngx_http_log_zmq_create_definition at h
  rw [hdefs] at h
  simp only [] at h
  split at h
  · cases h
  · rename_i j hj
    simp only [Option.some.injEq, Prod.mk.injEq] at h
    obtain ⟨h1, h2⟩ := h
    subst h1 h2
    refine ⟨defs, hdefs, hfind, hd, ?_⟩
    by_cases hji : j = i
    · exact Or.inl hji
    · refine Or.inr fun hlt => ?_
      obtain ⟨o, ho, hom⟩ := find_definition_at m defs 0 j hj
      obtain ⟨o1, ho1, hon⟩ := find_definition_passed name defs 0 i j hfind (Nat.zero_le _) hlt
      rw [ho] at ho1
      cases ho1
      rw [Bool.eq_false_iff]
      intro hmn
      rw [name_matches_trans o m name hom hmn] at hon
      cases hon
  · simp only [Option.some.injEq, Prod.mk.injEq] at h
    obtain ⟨h1, h2⟩ := h
    subst h1 h2
    obtain ⟨_, hlt⟩ := find_definition_ge name defs 0 i hfind
    refine ⟨defs ++ [zero_element_conf], rfl, find_definition_append name defs _ 0 i hfind, ?_,
      Or.inr fun hlt1 => ?_⟩
    · rw [List.getElem?_append_left (by omega)]
      exact hd
    · omega

/-- A successful `ngx_http_log_zmq_set_format` or `ngx_http_log_zmq_set_endpoint`: the main
configuration it leaves is the one `ngx_http_log_zmq_create_definition` left, with the
definition returned changed in fields other than the name and the server flag. -/
theorem set_format_ok_inv (env : ngx_conf_env) (cf : ngx_conf_t)
    (llcf llcf1 : ngx_http_log_zmq_loc_conf_t) (bk1 : Option ngx_http_log_zmq_main_conf_t)
    (h : ngx_http_log_zmq_set_format env cf llcf = some (ngx_conf_rc.NGX_CONF_OK, bk1, llcf1)) :
    ∃ bkmc value1 bk lecf f,
      cf.main_conf = some bkmc ∧
      ngx_http_log_zmq_create_definition bkmc value1 = some (bk, lecf) ∧
      (∀ d, (f d).name = d.name ∧ (f d).sset = d.sset) ∧
      bk1 = some (update_definition bk lecf f) := by
  unfold ngx_http_log_zmq_set_format at h
  repeat' (first | split at h | simp only [] at h)
  all_goals first
    | (cases h; done)
    | skip
  simp only [update_definition_twice, Option.some.injEq, Prod.mk.injEq, true_and] at h
  obtain ⟨h1, _⟩ := h
  refine ⟨_, _, _, _, _, ‹cf.main_conf = some _›,
    ‹ngx_http_log_zmq_create_definition _ _ = some _›, ?_, h1.symm⟩
  intro d
  exact ⟨rfl, rfl⟩

theorem set_endpoint_ok_inv (env : ngx_conf_env) (cf : ngx_conf_t)
    (llcf llcf1 : ngx_http_log_zmq_loc_conf_t) (bk1 : Option ngx_http_log_zmq_main_conf_t)
    (h : ngx_http_log_zmq_set_endpoint env cf llcf =
      some (ngx_conf_rc.NGX_CONF_OK, bk1, llcf1)) :
    ∃ bkmc value1 bk lecf f,
      cf.main_conf = some bkmc ∧
      ngx_http_log_zmq_create_definition bkmc value1 = some (bk, lecf) ∧
      (∀ d, (f d).name = d.name ∧ (f d).sset = d.sset) ∧
      bk1 = some (update_definition bk lecf f) := by
  unfold ngx_http_log_zmq_set_endpoint at h
  repeat' (first | split at h | simp only [] at h)
  all_goals first
    | (cases h; done)
    | skip
  simp only [update_definition_twice, Option.some.injEq, Prod.mk.injEq, true_and] at h
  obtain ⟨h1, _⟩ := h
  refine ⟨_, _, _, _, _, ‹cf.main_conf = some _›,
    ‹ngx_http_log_zmq_create_definition _ _ = some _›, ?_, h1.symm⟩
  intro d
  exact ⟨rfl, rfl⟩

theorem set_off_main_conf (cf : ngx_conf_t) (llcf llcf1 : ngx_http_log_zmq_loc_conf_t)
    (rc : ngx_conf_rc) (bk1 : Option ngx_http_log_zmq_main_conf_t)
    (h : ngx_http_log_zmq_set_off cf llcf = some (rc, bk1, llcf1)) : bk1 = cf.main_conf := by
  unfold ngx_http_log_zmq_set_off at h
  repeat' (first | split at h | simp only [] at h)
  all_goals first
    | (cases h; done)
    | skip
  all_goals
    simp only [Option.some.injEq, Prod.mk.injEq] at h
    obtain ⟨_, h1, _⟩ := h
    rw [← h1]
    first
      | assumption
      | exact (‹cf.main_conf = _›).symm

/-- A declared server stays declared when a definition obtained from
`ngx_http_log_zmq_create_definition` is changed, either in fields other than the name and the
server flag, or, its server flag not being set, by giving it the name looked up. -/
theorem server_declared_update (bkmc bk : ngx_http_log_zmq_main_conf_t) (m name : ngx_str_t)
    (lecf : Nat) (f : ngx_http_log_zmq_element_conf_t → ngx_http_log_zmq_element_conf_t)
    (hdecl : server_declared bkmc name)
    (hcreate : ngx_http_log_zmq_create_definition bkmc m = some (bk, lecf))
    (hf : (∀ d, (f d).name = d.name ∧ (f d).sset = d.sset) ∨
      ((∀ d, (f d).name = some m) ∧
        ∃ d0, (bk.logs.bind fun logs => logs[lecf]?) = some d0 ∧ d0.sset ≠ 1)) :
    server_declared (update_definition bk lecf f) name := by
  obtain ⟨defs, i, d, hdefs, hfind, hd, hsset⟩ := hdecl
  obtain ⟨defs1, hdefs1, hfind1, hd1, hpos⟩ :=
    create_definition_keeps bkmc bk m name lecf defs i d hdefs hfind hd hcreate
  have hupd : (update_definition bk lecf f).logs = some (defs1.modify f lecf) := by
    simp [update_definition, hdefs1]
  rcases hf with hf | ⟨hf, d0, hd0, hs0⟩
  · refine ⟨_, i, if lecf = i then f d else d, hupd, ?_, ?_, ?_⟩
    · rw [find_definition_modify_same name f (fun d => (hf d).1)]
      exact hfind1
    · rw [List.getElem?_modify, hd1]
      rfl
    · split_ifs
      · rw [(hf d).2]
        exact hsset
      · exact hsset
  · have hne : lecf ≠ i := by
      intro hEq
      subst hEq
      rw [hdefs1] at hd0
      have hd2 : defs1[lecf]? = some d0 := hd0
      rw [hd1] at hd2
      cases hd2
      exact hs0 hsset
    refine ⟨_, i, d, hupd, ?_, ?_, hsset⟩
    · exact find_definition_modify_other name m f hf defs1 0 i lecf hfind1 (by simpa using hne)
        (fun hlt => (hpos.resolve_left hne) (by simpa using hlt))
    · rw [List.getElem?_modify_ne _ _ hne]
      exact hd1

/-- A declared server stays declared over one successful directive of the module. -/
theorem server_declared_step (bkmc bk1 : ngx_http_log_zmq_main_conf_t) (name : ngx_str_t)
    (hstep : directive_step bkmc bk1) (hdecl : server_declared bkmc name) :
    server_declared bk1 name := by
  obtain ⟨env, cf, llcf, llcf1, hmain, h | h | h | h⟩ := hstep
  · obtain ⟨bkmc0, value1, value2, value3, value4, value5, bk, lecf, d0, kind, u, peer_addr,
      llcf2, lelcf, _, hmain0, _, _, _, _, _, hcreate, hd0, hs0, _, _, _, _, hbk, _⟩ :=
      set_server_ok_inv env cf llcf llcf1 (some bk1) h
    rw [hmain] at hmain0
    cases hmain0
    simp only [Option.some.injEq] at hbk
    rw [hbk]
    exact server_declared_update bkmc bk value1 name lecf _ hdecl hcreate
      (Or.inr ⟨fun _ => rfl, d0, hd0, hs0⟩)
  · obtain ⟨bkmc0, value1, bk, lecf, f, hmain0, hcreate, hf, hbk⟩ :=
      set_format_ok_inv env cf llcf llcf1 (some bk1) h
    rw [hmain] at hmain0
    cases hmain0
    simp only [Option.some.injEq] at hbk
    rw [hbk]
    exact server_declared_update bkmc bk value1 name lecf f hdecl hcreate (Or.inl hf)
  · obtain ⟨bkmc0, value1, bk, lecf, f, hmain0, hcreate, hf, hbk⟩ :=
      set_endpoint_ok_inv env cf llcf llcf1 (some bk1) h
    rw [hmain] at hmain0
    cases hmain0
    simp only [Option.some.injEq] at hbk
    rw [hbk]
    exact server_declared_update bkmc bk value1 name lecf f hdecl hcreate (Or.inl hf)
  · have hsame := set_off_main_conf cf llcf llcf1 _ _ h
    rw [hmain] at hsame
    cases hsame
    exact hdecl

/-- A declared server stays declared over every sequence of successful directives. -/
theorem server_declared_steps (b bkmc : ngx_http_log_zmq_main_conf_t) (name : ngx_str_t)
    (hsteps : Relation.ReflTransGen directive_step b bkmc) (hdecl : server_declared b name) :
    server_declared bkmc name := by
  induction hsteps with
  | refl => exact hdecl
  | tail _ hstep ih => exact server_declared_step _ _ name hstep ih

/-- On a declared server `ngx_http_log_zmq_set_server` returns `NGX_CONF_ERROR` and leaves
the main configuration as it was. -/
theorem set_server_declared_fails (bkmc : ngx_http_log_zmq_main_conf_t) (name : ngx_str_t)
    (env2 : ngx_conf_env) (cf2 : ngx_conf_t) (llcf2 : ngx_http_log_zmq_loc_conf_t)
    (hdecl : server_declared bkmc name) (hmain : cf2.main_conf = some bkmc)
    (harg2 : cf2.args[1]? = some name) (hlen : 6 ≤ cf2.args.length) :
    ∃ llcf3, ngx_http_log_zmq_set_server env2 cf2 llcf2 =
      some (ngx_conf_rc.NGX_CONF_ERROR, some bkmc, llcf3) := by
  obtain ⟨defs, i, d, hdefs, hfind, hd, hsset⟩ := hdecl
  unfold ngx_http_log_zmq_set_server
  split_ifs with hcmd
  · exact ⟨llcf2, by rw [hmain]⟩
  · have h2 : cf2.args[2]? = some (cf2.args.get ⟨2, by omega⟩) := List.getElem?_eq_getElem _
    have h3 : cf2.args[3]? = some (cf2.args.get ⟨3, by omega⟩) := List.getElem?_eq_getElem _
    have h4 : cf2.args[4]? = some (cf2.args.get ⟨4, by omega⟩) := List.getElem?_eq_getElem _
    have h5 : cf2.args[5]? = some (cf2.args.get ⟨5, by omega⟩) := List.getElem?_eq_getElem _
    have hcreate : ngx_http_log_zmq_create_definition bkmc name = some (bkmc, i) := by
      simp [ngx_http_log_zmq_create_definition, hdefs, hfind]
    have hlook : (bkmc.logs.bind fun logs => logs[i]?) = some d := by simp [hdefs, hd]
    simp only [hmain, harg2, h2, h3, h4, h5, hcreate, hlook, hsset, if_true]
    exact ⟨_, rfl⟩

/-- C9: once `ngx_http_log_zmq_set_server` has succeeded for a name, then after every
sequence of further successful directives of the module (declare-server, set-format,
set-endpoint and disable directives, in any scope and with any arguments) a further
`ngx_http_log_zmq_set_server` with that name returns `NGX_CONF_ERROR`, whatever the other five
words of the directive, the scope and the environment are, and leaves the main
configuration, hence the server settings of the first declaration, as it was. -/
theorem ngx_http_log_zmq_set_server_twice (env : ngx_conf_env) (cf : ngx_conf_t)
    (llcf llcf1 : ngx_http_log_zmq_loc_conf_t) (bk1 : Option ngx_http_log_zmq_main_conf_t)
    (name : ngx_str_t) (harg : cf.args[1]? = some name)
    (h : ngx_http_log_zmq_set_server env cf llcf = some (ngx_conf_rc.NGX_CONF_OK, bk1, llcf1)) :
    ∃ b, bk1 = some b ∧
      ∀ (bkmc : ngx_http_log_zmq_main_conf_t), Relation.ReflTransGen directive_step b bkmc →
      ∀ (env2 : ngx_conf_env) (cf2 : ngx_conf_t) (llcf2 : ngx_http_log_zmq_loc_conf_t),
        cf2.main_conf = some bkmc → cf2.args[1]? = some name → 6 ≤ cf2.args.length →
        ∃ llcf3, ngx_http_log_zmq_set_server env2 cf2 llcf2 =
          some (ngx_conf_rc.NGX_CONF_ERROR, some bkmc, llcf3) := by
  obtain ⟨b, hb, hdecl⟩ := set_server_declares env cf llcf llcf1 bk1 name harg h
  refine ⟨b, hb, ?_⟩
  intro bkmc hsteps env2 cf2 llcf2 hmain harg2 hlen
  exact set_server_declared_fails bkmc name env2 cf2 llcf2
    (server_declared_steps b bkmc name hsteps hdecl) hmain harg2 hlen


/-! ### Lookups in a well-formed configuration -/

theorem find_definition_first (name : ngx_str_t) (l : List ngx_http_log_zmq_element_conf_t)
    (k i : Nat) (n : ngx_str_t) (hnamed : registry_named l)
    (hi : (l[i]?.bind fun d => d.name) = some n) (hm : name_matches n name = true) :
    ∃ i1 n1, find_definition name l k = some (some (k + i1)) ∧ i1 ≤ i ∧
      (l[i1]?.bind fun d => d.name) = some n1 ∧ name_matches n1 name = true := by
  induction l generalizing k i with
  | nil => simp at hi
  | cons d rest ih =>
    have hrest : registry_named rest := fun d hd => hnamed d (List.mem_cons_of_mem _ hd)
    cases hdn : d.name with
    | none => exact absurd hdn (hnamed d (List.mem_cons_self _ _))
    | some dn =>
      by_cases hdm : name_matches dn name = true
      · exact ⟨0, dn, by simp [find_definition, hdn, hdm], Nat.zero_le _, by simp [hdn], hdm⟩
      · cases i with
        | zero =>
          simp only [List.getElem?_cons_zero, Option.some_bind, hdn, Option.some.injEq] at hi
          subst hi
          exact absurd hm hdm
        | succ i =>
          simp only [List.getElem?_cons_succ] at hi
          obtain ⟨i1, n1, h1, h2, h3, h4⟩ := ih (k + 1) i hrest hi
          refine ⟨i1 + 1, n1, ?_, by omega, by simpa using h3, h4⟩
          simp only [find_definition, hdn, hdm]
          rw [if_neg (by simp), h1]
          congr 2
          omega

theorem find_definition_of_named (name : ngx_str_t) (defs : List ngx_http_log_zmq_element_conf_t)
    (i : Nat) (hnamed : registry_named defs) (huniq : registry_unique defs)
    (hi : (defs[i]?.bind fun d => d.name) = some name) :
    find_definition name defs 0 = some (some i) := by
  obtain ⟨i1, n1, h1, _, h3, h4⟩ :=
    find_definition_first name defs 0 i name hnamed hi (name_matches_refl name)
  have : i1 = i := huniq i1 i n1 name h3 hi h4
  subst this
  simpa using h1

theorem find_location_element_spec (defs : List ngx_http_log_zmq_element_conf_t)
    (name : ngx_str_t) (logs : List ngx_http_log_zmq_loc_element_conf_t) (k : Nat)
    (hnamed : registry_named defs) (hvalid : bindings_valid defs logs) :
    (∃ j b n, find_location_element defs name logs k = some (some (k + j)) ∧
      logs[j]? = some b ∧ binding_name defs b = some n ∧ name_matches n name = true) ∨
    (find_location_element defs name logs k = some none ∧
      ∀ b ∈ logs, ∀ n, binding_name defs b = some n → name_matches n name = false) := by
  induction logs generalizing k with
  | nil => exact Or.inr ⟨rfl, by simp⟩
  | cons b rest ih =>
    obtain ⟨e, he, hlt⟩ := hvalid b (List.mem_cons_self _ _)
    have hrest : bindings_valid defs rest := fun b hb => hvalid b (List.mem_cons_of_mem _ hb)
    obtain ⟨d, hde⟩ : ∃ d, defs[e]? = some d := ⟨_, List.getElem?_eq_getElem hlt⟩
    cases hdn : d.name with
    | none => exact absurd hdn (hnamed _ (List.getElem?_mem hde))
    | some dn =>
      have hbn : binding_name defs b = some dn := by simp [binding_name, he, hde, hdn]
      by_cases hdm : name_matches dn name = true
      · exact Or.inl ⟨0, b, dn, by simp [find_location_element, he, hde, hdn, hdm], by simp,
          hbn, hdm⟩
      · have hstep : find_location_element defs name (b :: rest) k =
            find_location_element defs name rest (k + 1) := by
          simp [find_location_element, he, hde, hdn, hdm]
        rcases ih (k + 1) hrest with ⟨j, b1, n1, h1, h2, h3, h4⟩ | ⟨h1, h2⟩
        · refine Or.inl ⟨j + 1, b1, n1, ?_, by simpa using h2, h3, h4⟩
          rw [hstep, h1]
          congr 2
          omega
        · refine Or.inr ⟨by rw [hstep, h1], ?_⟩
          intro b1 hb1 n1 hn1
          simp only [List.mem_cons] at hb1
          rcases hb1 with rfl | hb1
          · rw [hbn] at hn1
            cases hn1
            simpa using hdm
          · exact h2 b1 hb1 n1 hn1


theorem binding_name_eq_iff (defs : List ngx_http_log_zmq_element_conf_t)
    (huniq : registry_unique defs) (b : ngx_http_log_zmq_loc_element_conf_t)
    (i : Nat) (name n : ngx_str_t)
    (hi : (defs[i]?.bind fun d => d.name) = some name)
    (hb : binding_name defs b = some n) (hm : name_matches n name = true) :
    b.element = some i ∧ n = name := by
  unfold binding_name at hb
  cases he : b.element with
  | none => simp [he] at hb
  | some e =>
    rw [he, Option.some_bind] at hb
    have : e = i := huniq e i n name hb hi hm
    subst this
    rw [hi] at hb
    exact ⟨rfl, (Option.some.inj hb).symm⟩

/-- C7: in a well-formed configuration, `ngx_http_log_zmq_set_off` with a name other than
`all` that names the declared target at position `i` succeeds, leaves the main
configuration as it was, and leaves the scope with a muted binding of that target at one
position `j`: every other position holds what it held before (nothing where it held
nothing), and no binding at another position carries the name. -/
theorem ngx_http_log_zmq_set_off_mutes (cf : ngx_conf_t) (llcf : ngx_http_log_zmq_loc_conf_t)
    (bkmc : ngx_http_log_zmq_main_conf_t) (defs : List ngx_http_log_zmq_element_conf_t)
    (logs : List ngx_http_log_zmq_loc_element_conf_t) (name : ngx_str_t) (i : Nat)
    (hmain : cf.main_conf = some bkmc) (hdefs : bkmc.logs = some defs)
    (hlogs : llcf.logs = some logs) (harg : cf.args[1]? = some name)
    (hall : name ≠ ngx_string "all")
    (hnamed : registry_named defs) (huniq : registry_unique defs)
    (hvalid : bindings_valid defs logs) (hone : bindings_unique logs)
    (hi : (defs[i]?.bind fun d => d.name) = some name) :
    ∃ (logs1 : List ngx_http_log_zmq_loc_element_conf_t) (j : Nat),
      ngx_http_log_zmq_set_off cf llcf =
        some (ngx_conf_rc.NGX_CONF_OK, some bkmc,
          { logs := some logs1, off := 0, log := llcf.log,
            logs_definition := logs_definition_ptr.main_logs }) ∧
      logs1[j]? = some ({ off := 1, element := some i } : ngx_http_log_zmq_loc_element_conf_t) ∧
      (∀ k, k ≠ j → logs1[k]? = logs[k]?) ∧
      (∀ k b, logs1[k]? = some b → binding_name defs b = some name → k = j) := by
  have hnotall : ¬(name.length = 3 ∧ ngx_strncmp name (ngx_string "all") name.length = 0) := by
    rw [is_all_iff]
    exact hall
  have hfind := find_definition_of_named name defs i hnamed huniq hi
  have hptr : logs_ptr bkmc = logs_definition_ptr.main_logs := by simp [logs_ptr, hdefs]
  unfold ngx_http_log_zmq_set_off
  simp only [hmain, hdefs, harg, if_neg hnotall, hfind, hptr,
    ngx_http_log_zmq_create_location_element, hlogs]
  rcases find_location_element_spec defs name logs 0 hnamed hvalid with
    ⟨j, b, n, h1, h2, h3, h4⟩ | ⟨h1, h2⟩
  · -- the scope has a binding of the name, at position j
    obtain ⟨hbi, _⟩ := binding_name_eq_iff defs huniq b i name n hi h3 h4
    rw [h1]
    simp only [Nat.zero_add, update_location_element, hlogs, Option.map_some']
    refine ⟨_, j, rfl, ?_, ?_, ?_⟩
    · rw [List.getElem?_modify_eq, h2]
      rfl
    · intro k hk
      exact List.getElem?_modify_ne _ _ (Ne.symm hk)
    · intro k b1 hb1 hn1
      by_contra hk
      rw [List.getElem?_modify_ne _ _ (Ne.symm hk)] at hb1
      obtain ⟨hb1i, _⟩ := binding_name_eq_iff defs huniq b1 i name name hi hn1
        (name_matches_refl name)
      have hk1 : (logs.map fun b => b.element)[k]? = some (some i) := by
        rw [List.getElem?_map, hb1]
        simp [hb1i]
      have hj1 : (logs.map fun b => b.element)[j]? = some (some i) := by
        rw [List.getElem?_map, h2]
        simp [hbi]
      have hklt : k < (logs.map fun b => b.element).length := by
        by_contra hge
        rw [List.getElem?_eq_none (by omega)] at hk1
        cases hk1
      have hjlt : j < (logs.map fun b => b.element).length := by
        by_contra hge
        rw [List.getElem?_eq_none (by omega)] at hj1
        cases hj1
      rw [List.getElem?_eq_getElem hklt] at hk1
      rw [List.getElem?_eq_getElem hjlt] at hj1
      have := (List.Nodup.getElem_inj_iff hone).mp ((Option.some.inj hk1).trans
        (Option.some.inj hj1).symm)
      exact hk this
  · -- the scope has no binding of the name: one is appended
    rw [h1]
    simp only [update_location_element, Option.map_some']
    refine ⟨_, logs.length, rfl, ?_, ?_, ?_⟩
    · rw [List.getElem?_modify_eq]
      simp
    · intro k hk
      rw [List.getElem?_modify_ne _ _ (Ne.symm hk)]
      by_cases hlt : k < logs.length
      · rw [List.getElem?_append_left hlt]
      · rw [List.getElem?_eq_none (by simp; omega), List.getElem?_eq_none (by omega)]
    · intro k b1 hb1 hn1
      by_contra hk
      rw [List.getElem?_modify_ne _ _ (Ne.symm hk)] at hb1
      have hlt : k < logs.length := by
        by_contra hge
        rw [List.getElem?_eq_none (by simp; omega)] at hb1
        cases hb1
      rw [List.getElem?_append_left hlt] at hb1
      have := h2 b1 (List.getElem?_mem hb1) name hn1
      rw [name_matches_refl] at this
      cases this


/-! ### The merge -/

theorem carried_append (defs : List ngx_http_log_zmq_element_conf_t) (en : ngx_str_t)
    (xs ys : List ngx_http_log_zmq_loc_element_conf_t) :
    carried defs en (xs ++ ys) = (carried defs en xs || carried defs en ys) := by
  simp [carried, List.any_append]

theorem merge_found_spec (defs : List ngx_http_log_zmq_element_conf_t) (en : ngx_str_t)
    (logs : List ngx_http_log_zmq_loc_element_conf_t) (found : Nat)
    (hnamed : registry_named defs) (hvalid : bindings_valid defs logs) :
    merge_found defs (some en) logs found =
      some (if carried defs en logs = true then 1 else found) := by
  induction logs generalizing found with
  | nil => simp [merge_found, carried]
  | cons b rest ih =>
    obtain ⟨e, he, hlt⟩ := hvalid b (List.mem_cons_self _ _)
    have hrest : bindings_valid defs rest := fun b hb => hvalid b (List.mem_cons_of_mem _ hb)
    obtain ⟨d, hde⟩ : ∃ d, defs[e]? = some d := ⟨_, List.getElem?_eq_getElem hlt⟩
    cases hdn : d.name with
    | none => exact absurd hdn (hnamed _ (List.getElem?_mem hde))
    | some cn =>
      have hbn : binding_name defs b = some cn := by simp [binding_name, he, hde, hdn]
      have hc : carried defs en (b :: rest) = (name_matches en cn || carried defs en rest) := by
        simp [carried, hbn]
      simp only [merge_found, he, hde, hdn, hc]
      by_cases hm : name_matches en cn = true
      · rw [if_pos hm, ih 1 hrest]
        simp [hm]
      · rw [if_neg hm, ih found hrest]
        simp [hm]

theorem merge_loop_spec (defs : List ngx_http_log_zmq_element_conf_t)
    (hnamed : registry_named defs) (huniq : registry_unique defs)
    (todo : List ngx_http_log_zmq_element_conf_t) (i : Nat)
    (logs : List ngx_http_log_zmq_loc_element_conf_t)
    (htodo : ∀ t, todo[t]? = defs[i + t]?)
    (hvalid : bindings_valid defs logs) :
    ∃ added, merge_loop defs todo i logs = some (logs ++ added) ∧
      (∀ b ∈ added, b.off = 0 ∧ ∃ k, b.element = some k ∧ i ≤ k ∧ k < i + todo.length) ∧
      ∀ k n, i ≤ k → (defs[k]?.bind fun d => d.name) = some n → carried defs n logs = false →
        ({ off := 0, element := some k } : ngx_http_log_zmq_loc_element_conf_t) ∈ added := by
  induction todo generalizing i logs with
  | nil =>
    refine ⟨[], by simp [merge_loop], by simp, ?_⟩
    intro k n hik hk _
    have h0 := htodo (k - i)
    have : i + (k - i) = k := by omega
    rw [this] at h0
    rw [← h0] at hk
    simp at hk
  | cons element todo ih =>
    have hel : defs[i]? = some element := by
      have := htodo 0
      simpa using this.symm
    have hilt : i < defs.length := by
      by_contra hge
      rw [List.getElem?_eq_none (by omega)] at hel
      cases hel
    have htodo1 : ∀ t, todo[t]? = defs[i + 1 + t]? := by
      intro t
      have := htodo (t + 1)
      rw [List.getElem?_cons_succ] at this
      rw [this]
      congr 1
      omega
    cases hen : element.name with
    | none => exact absurd hen (hnamed _ (List.getElem?_mem hel))
    | some en =>
      have hname_i : (defs[i]?.bind fun d => d.name) = some en := by simp [hel, hen]
      simp only [merge_loop, hen, merge_found_spec defs en logs 0 hnamed hvalid]
      by_cases hc : carried defs en logs = true
      · -- a binding of the scope carries the name: nothing is pushed
        simp only [hc, if_true, one_ne_zero, if_false]
        obtain ⟨added, h1, h2, h3⟩ := ih (i + 1) logs htodo1 hvalid
        refine ⟨added, h1, ?_, ?_⟩
        · intro b hb
          obtain ⟨h0, k, hk, hge, hlt⟩ := h2 b hb
          exact ⟨h0, k, hk, by omega, by simp only [List.length_cons]; omega⟩
        · intro k n hik hk hnc
          by_cases hki : k = i
          · subst hki
            rw [hname_i] at hk
            cases hk
            rw [hc] at hnc
            cases hnc
          · exact h3 k n (by omega) hk hnc
      · -- no binding carries the name: an un-muted binding is pushed
        simp only [hc, if_false, if_true]
        have hvalid1 : bindings_valid defs
            (logs ++ [({ off := 0, element := some i } : ngx_http_log_zmq_loc_element_conf_t)]) := by
          intro b hb
          simp only [List.mem_append, List.mem_singleton] at hb
          rcases hb with hb | rfl
          · exact hvalid b hb
          · exact ⟨i, rfl, hilt⟩
        obtain ⟨added, h1, h2, h3⟩ := ih (i + 1) _ htodo1 hvalid1
        refine ⟨{ off := 0, element := some i } :: added, ?_, ?_, ?_⟩
        · rw [h1]
          simp
        · intro b hb
          simp only [List.mem_cons] at hb
          rcases hb with rfl | hb
          · exact ⟨rfl, i, rfl, le_refl _, by simp⟩
          · obtain ⟨h0, k, hk, hge, hlt⟩ := h2 b hb
            exact ⟨h0, k, hk, by omega, by simp only [List.length_cons]; omega⟩
        · intro k n hik hk hnc
          by_cases hki : k = i
          · subst hki
            exact List.mem_cons_self _ _
          · refine List.mem_cons_of_mem _ (h3 k n (by omega) hk ?_)
            rw [carried_append, hnc, Bool.false_or]
            have hbn : binding_name defs
                ({ off := 0, element := some i } : ngx_http_log_zmq_loc_element_conf_t) =
                some en := by
              simp [binding_name, hel, hen]
            simp only [carried, List.any_cons, hbn, List.any_nil, Bool.or_false]
            by_contra hm
            exact hki (huniq k i n en hk hname_i (by simpa using hm))


/-- C10 (what the code does): when the parent scope carries the definition array, the merge
returns `NGX_CONF_OK`, and for every parent binding whose target name no child binding
carries, the merged child holds a binding of the same target with mute flag 0, whatever the
parent binding's mute flag is, and that is the only form in which the merged child binds
that name. -/
theorem ngx_http_log_zmq_merge_inherits_unmuted (cf : ngx_conf_t)
    (prev conf : ngx_http_log_zmq_loc_conf_t) (bkmc : ngx_http_log_zmq_main_conf_t)
    (defs : List ngx_http_log_zmq_element_conf_t)
    (logs : List ngx_http_log_zmq_loc_element_conf_t)
    (hmain : cf.main_conf = some bkmc) (hdefs : bkmc.logs = some defs)
    (hprev : prev.logs_definition = logs_definition_ptr.main_logs)
    (hlogs : conf.logs = some logs)
    (hnamed : registry_named defs) (huniq : registry_unique defs)
    (hvalid : bindings_valid defs logs) :
    ∃ conf1 logs1,
      ngx_http_log_zmq_merge_loc_conf cf prev conf = some (ngx_conf_rc.NGX_CONF_OK, conf1) ∧
      conf1.logs = some logs1 ∧
      ∀ p ∈ prev.logs.getD [], ∀ (i : Nat) (name : ngx_str_t), p.element = some i →
        (defs[i]?.bind fun d => d.name) = some name →
        (∀ c ∈ logs, binding_name defs c ≠ some name) →
        ({ off := 0, element := p.element } : ngx_http_log_zmq_loc_element_conf_t) ∈ logs1 ∧
        ∀ c ∈ logs1, binding_name defs c = some name →
          c = ({ off := 0, element := p.element } : ngx_http_log_zmq_loc_element_conf_t) := by
  obtain ⟨added, h1, h2, h3⟩ := merge_loop_spec defs hnamed huniq defs 0 logs
    (fun t => by simp) hvalid
  have hmerge : ∃ conf1,
      ngx_http_log_zmq_merge_loc_conf cf prev conf = some (ngx_conf_rc.NGX_CONF_OK, conf1) ∧
      conf1.logs = some (logs ++ added) := by
    unfold ngx_http_log_zmq_merge_loc_conf
    simp only [hmain, hprev, if_true, hdefs]
    split_ifs <;> simp only [hlogs, Option.getD_some, h1] <;> exact ⟨_, rfl, rfl⟩
  obtain ⟨conf1, hrun, hconf1⟩ := hmerge
  refine ⟨conf1, logs ++ added, hrun, hconf1, ?_⟩
  intro p _ i name hpi hi hnot
  have hnc : carried defs name logs = false := by
    rw [Bool.eq_false_iff]
    intro hc
    simp only [carried, List.any_eq_true] at hc
    obtain ⟨c, hc1, hc2⟩ := hc
    cases hbn : binding_name defs c with
    | none => simp [hbn] at hc2
    | some cn =>
      simp only [hbn] at hc2
      have hce : ∃ e, c.element = some e ∧ (defs[e]?.bind fun d => d.name) = some cn := by
        unfold binding_name at hbn
        cases he : c.element with
        | none => simp [he] at hbn
        | some e => exact ⟨e, rfl, by simpa [he] using hbn⟩
      obtain ⟨e, _, hen⟩ := hce
      have hie : i = e := huniq i e name cn hi hen hc2
      subst hie
      rw [hi] at hen
      cases hen
      exact hnot c hc1 hbn
  rw [hpi]
  refine ⟨List.mem_append_right _ (h3 i name (Nat.zero_le _) hi hnc), ?_⟩
  intro b hb hbn
  simp only [List.mem_append] at hb
  rcases hb with hb | hb
  · exact absurd hbn (hnot b hb)
  · obtain ⟨h0, k, hk, _, _⟩ := h2 b hb
    obtain ⟨hbi, _⟩ := binding_name_eq_iff defs huniq b i name name hi hbn
      (name_matches_refl name)
    cases b
    simp_all

/-- C10 (the claim fails): `log_zmq_off T` in a `location` leaves the binding of `T` muted
there, and merging that scope as parent into a nested scope that declares nothing gives the
nested scope a binding of `T` with mute flag 0: the muted parent binding does not stay
muted in the child. -/
theorem ngx_http_log_zmq_merge_drops_parent_mute :
    (ngx_http_log_zmq_set_off (example_cf ["log_zmq_off", "T"]) example_location).map
        (fun res => (res.1, res.2.2)) =
      some (ngx_conf_rc.NGX_CONF_OK, example_muted_parent) ∧
    example_muted_parent.logs = some [{ off := 1, element := some 0 }] ∧
    (ngx_http_log_zmq_merge_loc_conf (example_cf []) example_muted_parent example_location).map
        (fun res => (res.1, res.2.logs)) =
      some (ngx_conf_rc.NGX_CONF_OK, some [{ off := 0, element := some 0 }]) := by
  decide


/-! ### The properties at the example configuration -/

theorem example_scope_wf (lccf : ngx_http_log_zmq_loc_conf_t)
    (bs : List ngx_http_log_zmq_loc_element_conf_t) (hl : lccf.logs = some bs)
    (hb : ∀ b ∈ bs, b.element = some 0 ∨ b.element = some 1) :
    scope_wf lccf example_definitions := by
  refine ⟨⟨bs, hl, ?_⟩, ?_⟩
  · intro b hb1 e he
    rcases hb b hb1 with h | h <;> rw [h] at he <;> cases he <;> decide
  · intro d hd
    simp only [example_definitions, List.mem_cons, List.mem_singleton, List.not_mem_nil,
      or_false] at hd
    rcases hd with rfl | rfl <;> simp [templates_paired, example_definition, example_unrendered]

theorem log_zmq_serialize_concat_witness :
    (example_env.reply ([] : List ext_call).length).ptr ≠ none ∧
    (log_zmq_serialize example_env [] (ngx_string "/svc/a.example/") (ngx_string "200")).2.1 =
      ngx_string "/svc/a.example/200" :=
  ⟨by decide,
    (log_zmq_serialize_concat example_env [] (ngx_string "/svc/a.example/") (ngx_string "200")
      (by decide)).2.1.trans (by decide)⟩

theorem example_dispatched :
    dispatched example_env example_request { off := 0, element := some 0 } example_definitions []
      0 example_definition (ngx_string "/svc/a.example/") (ngx_string "200")
      example_connected example_connect_calls :=
  ⟨by decide, rfl, rfl, by decide, by decide, by decide, ⟨ngx_string "T", rfl, by decide⟩,
    by decide, ⟨[1], [2], rfl, rfl, rfl⟩, ⟨[3], [4], rfl, rfl, rfl⟩, by decide, by decide,
    example_ctx, rfl, by decide⟩

theorem ngx_http_log_zmq_handler_frame_witness :
    example_scope.off ≠ 1 ∧
    (ngx_http_log_zmq_handler example_env example_request example_scope
        example_definitions []).map (fun res => frames res.2.2) =
      some [ngx_string "/svc/a.example/200"] := by
  refine ⟨by decide, ?_⟩
  obtain ⟨sock, _, h2, h3⟩ := ngx_http_log_zmq_handler_frame example_env example_request
    example_scope [] [] { off := 0, element := some 0 } example_definitions example_definitions
    [] [] 0 example_definition (ngx_string "/svc/a.example/") (ngx_string "200")
    example_connected example_connect_calls (by decide) rfl rfl example_dispatched
  rw [h3]
  simp only [ngx_http_log_zmq_handler, ngx_http_log_zmq_handler_loop, ite_self,
    Option.map_some', h2]
  decide

theorem ngx_http_log_zmq_handler_skips_witness :
    skipped_by_flags example_definitions { off := 1, element := some 0 } ∧
    ngx_http_log_zmq_handler example_env example_request example_scope_muted
        example_definitions [] =
      ngx_http_log_zmq_handler example_env example_request example_scope example_definitions [] :=
  ⟨Or.inl rfl,
    (ngx_http_log_zmq_handler_skips example_env example_request example_scope_muted []
      [{ off := 0, element := some 0 }] { off := 1, element := some 0 } example_definitions []
      rfl (Or.inr (Or.inl rfl))).1⟩

theorem example_render_skipped :
    render_skipped example_env example_request example_definitions
      { off := 0, element := some 1 } :=
  ⟨1, example_unrendered, [9], [2], [3], [4], rfl, rfl, rfl, rfl, rfl, rfl, Or.inl rfl⟩

theorem ngx_http_log_zmq_handler_render_skip_witness :
    render_skipped example_env example_request example_definitions
      { off := 0, element := some 1 } ∧
    ngx_http_log_zmq_handler_element example_env example_request { off := 0, element := some 1 }
        (example_definitions, []) = some (example_definitions, []) ∧
    ngx_http_log_zmq_handler example_env example_request example_scope_two
        example_definitions [] =
      ngx_http_log_zmq_handler example_env example_request example_scope example_definitions [] :=
  ⟨example_render_skipped,
    (ngx_http_log_zmq_handler_render_skip example_env example_request example_scope_two []
      [{ off := 0, element := some 0 }] { off := 0, element := some 1 } example_definitions []
      rfl example_render_skipped).1,
    (ngx_http_log_zmq_handler_render_skip example_env example_request example_scope_two []
      [{ off := 0, element := some 0 }] { off := 0, element := some 1 } example_definitions []
      rfl example_render_skipped).2.2⟩

theorem example_registry_named : registry_named [example_definition] := by
  intro d hd
  simp only [List.mem_singleton] at hd
  subst hd
  simp [example_definition]

theorem example_registry_unique : registry_unique [example_definition] := by
  intro i j a b hi hj _
  match i, j with
  | 0, 0 => rfl
  | 0, j + 1 => simp at hj
  | i + 1, _ => simp at hi

theorem ngx_http_log_zmq_set_off_mutes_witness :
    ngx_string "T" ≠ ngx_string "all" ∧
    ∃ (logs1 : List ngx_http_log_zmq_loc_element_conf_t) (j : Nat),
      ngx_http_log_zmq_set_off (example_cf ["log_zmq_off", "T"]) example_location =
        some (ngx_conf_rc.NGX_CONF_OK, some example_main_conf,
          { logs := some logs1, off := 0, log := example_location.log,
            logs_definition := logs_definition_ptr.main_logs }) ∧
      logs1[j]? = some ({ off := 1, element := some 0 } : ngx_http_log_zmq_loc_element_conf_t) ∧
      (∀ k, k ≠ j → logs1[k]? = ([] : List ngx_http_log_zmq_loc_element_conf_t)[k]?) ∧
      (∀ k b, logs1[k]? = some b →
        binding_name [example_definition] b = some (ngx_string "T") → k = j) :=
  ⟨by decide,
    ngx_http_log_zmq_set_off_mutes (example_cf ["log_zmq_off", "T"]) example_location
      example_main_conf [example_definition] [] (ngx_string "T") 0 rfl rfl rfl rfl (by decide)
      example_registry_named example_registry_unique (by intro b hb; cases hb)
      (by simp [bindings_unique]) rfl⟩

theorem ngx_http_log_zmq_set_off_flags_witness :
    ngx_http_log_zmq_set_off (example_cf ["log_zmq_off", "T"]) example_muted_parent =
      some (ngx_conf_rc.NGX_CONF_OK, some example_main_conf, example_muted_parent) ∧
    ngx_string "T" ≠ ngx_string "all" ∧ example_muted_parent.off = 0 :=
  ⟨by decide, by decide,
    (ngx_http_log_zmq_set_off_flags (example_cf ["log_zmq_off", "T"]) example_muted_parent
      example_muted_parent (ngx_string "T") (some example_main_conf) rfl (by decide)).2
      (by decide)⟩

theorem ngx_http_log_zmq_set_server_twice_witness :
    ngx_http_log_zmq_set_server example_conf_env example_server_cf example_location =
      some (ngx_conf_rc.NGX_CONF_OK, some example_server_main_conf, example_scope) ∧
    ∃ llcf3, ngx_http_log_zmq_set_server example_conf_env
        (example_http_cf ["log_zmq_server", "T", "/tmp/other", "ipc", "4", "7"]
          example_server_main_conf) example_scope =
      some (ngx_conf_rc.NGX_CONF_ERROR, some example_server_main_conf, llcf3) := by
  have h : ngx_http_log_zmq_set_server example_conf_env example_server_cf example_location =
      some (ngx_conf_rc.NGX_CONF_OK, some example_server_main_conf, example_scope) := by decide
  obtain ⟨b, hb, hagain⟩ := ngx_http_log_zmq_set_server_twice example_conf_env
    example_server_cf example_location example_scope (some example_server_main_conf)
    (ngx_string "T") rfl h
  cases hb
  exact ⟨h, hagain example_server_main_conf Relation.ReflTransGen.refl example_conf_env
    (example_http_cf ["log_zmq_server", "T", "/tmp/other", "ipc", "4", "7"]
      example_server_main_conf) example_scope rfl rfl (by decide)⟩

theorem ngx_http_log_zmq_merge_inherits_unmuted_witness :
    example_muted_parent.logs = some [{ off := 1, element := some 0 }] ∧
    ∃ conf1 logs1,
      ngx_http_log_zmq_merge_loc_conf (example_cf []) example_muted_parent example_location =
        some (ngx_conf_rc.NGX_CONF_OK, conf1) ∧
      conf1.logs = some logs1 ∧
      ({ off := 0, element := some 0 } : ngx_http_log_zmq_loc_element_conf_t) ∈ logs1 ∧
      ∀ c ∈ logs1, binding_name [example_definition] c = some (ngx_string "T") →
        c = ({ off := 0, element := some 0 } : ngx_http_log_zmq_loc_element_conf_t) := by
  obtain ⟨conf1, logs1, h1, h2, h3⟩ := ngx_http_log_zmq_merge_inherits_unmuted (example_cf [])
    example_muted_parent example_location example_main_conf [example_definition] [] rfl rfl
    rfl rfl example_registry_named example_registry_unique (by intro b hb; cases hb)
  exact ⟨rfl, conf1, logs1, h1, h2,
    h3 { off := 1, element := some 0 } (List.mem_singleton.mpr rfl) 0 (ngx_string "T") rfl rfl
      (by intro c hc; cases hc)⟩

/-! ## The merge and the bindings of a scope -/

theorem getElem?_append_one {α : Type} (xs : List α) (b c : α) (k : Nat)
    (h : (xs ++ [b])[k]? = some c) :
    (k < xs.length ∧ xs[k]? = some c) ∨ (k = xs.length ∧ c = b) := by
  by_cases hk : k < xs.length
  · rw [List.getElem?_append_left hk] at h
    exact Or.inl ⟨hk, h⟩
  · rw [List.getElem?_append_right (by omega)] at h
    have hk0 : k - xs.length = 0 := by
      by_contra hne
      rw [List.getElem?_eq_none (by simp; omega)] at h
      cases h
    rw [hk0] at h
    simp only [List.getElem?_cons_zero, Option.some.injEq] at h
    exact Or.inr ⟨by omega, h.symm⟩

/-- A binding list stays without two bindings of one name when a binding is pushed whose
name, if it has one, no binding of the list carries. -/
theorem bindings_distinct_push (defs : List ngx_http_log_zmq_element_conf_t)
    (logs : List ngx_http_log_zmq_loc_element_conf_t)
    (b : ngx_http_log_zmq_loc_element_conf_t)
    (hdist : bindings_distinct defs logs)
    (hnew : ∀ n, binding_name defs b = some n → ∀ c ∈ logs, binding_name defs c ≠ some n) :
    bindings_distinct defs (logs ++ [b]) := by
  intro k l n hk hl
  obtain ⟨c1, hc1, hn1⟩ := Option.bind_eq_some.mp hk
  obtain ⟨c2, hc2, hn2⟩ := Option.bind_eq_some.mp hl
  rcases getElem?_append_one logs b c1 k hc1 with ⟨_, h1⟩ | ⟨h1, rfl⟩
  · rcases getElem?_append_one logs b c2 l hc2 with ⟨_, h2⟩ | ⟨_, rfl⟩
    · exact hdist k l n (by rw [h1]; exact hn1) (by rw [h2]; exact hn2)
    · exact absurd hn1 (hnew n hn2 c1 (List.getElem?_mem h1))
  · rcases getElem?_append_one logs c1 c2 l hc2 with ⟨_, h2⟩ | ⟨h2, _⟩
    · exact absurd hn2 (hnew n hn1 c2 (List.getElem?_mem h2))
    · omega

/-- The outer loop of the merge returns, keeps the bindings it was given in place, and keeps
the list without two bindings of one name. -/
theorem merge_loop_distinct (defs : List ngx_http_log_zmq_element_conf_t)
    (hnamed : registry_named defs)
    (todo : List ngx_http_log_zmq_element_conf_t) (i : Nat)
    (logs : List ngx_http_log_zmq_loc_element_conf_t)
    (htodo : ∀ t, todo[t]? = defs[i + t]?)
    (hvalid : bindings_valid defs logs) :
    ∃ added, merge_loop defs todo i logs = some (logs ++ added) ∧
      (bindings_distinct defs logs → bindings_distinct defs (logs ++ added)) := by
  induction todo generalizing i logs with
  | nil => exact ⟨[], by simp [merge_loop], by simp⟩
  | cons element todo ih =>
    have hel : defs[i]? = some element := by
      have := htodo 0
      simpa using this.symm
    have hilt : i < defs.length := by
      by_contra hge
      rw [List.getElem?_eq_none (by omega)] at hel
      cases hel
    have htodo1 : ∀ t, todo[t]? = defs[i + 1 + t]? := by
      intro t
      have := htodo (t + 1)
      rw [List.getElem?_cons_succ] at this
      rw [this]
      congr 1
      omega
    cases hen : element.name with
    | none => exact absurd hen (hnamed _ (List.getElem?_mem hel))
    | some en =>
      simp only [merge_loop, hen, merge_found_spec defs en logs 0 hnamed hvalid]
      by_cases hc : carried defs en logs = true
      · simp only [hc, if_true, one_ne_zero, if_false]
        exact ih (i + 1) logs htodo1 hvalid
      · simp only [hc, if_false, if_true]
        have hvalid1 : bindings_valid defs
            (logs ++ [({ off := 0, element := some i } : ngx_http_log_zmq_loc_element_conf_t)]) := by
          intro b hb
          simp only [List.mem_append, List.mem_singleton] at hb
          rcases hb with hb | rfl
          · exact hvalid b hb
          · exact ⟨i, rfl, hilt⟩
        obtain ⟨added, h1, h2⟩ := ih (i + 1) _ htodo1 hvalid1
        refine ⟨{ off := 0, element := some i } :: added, ?_, ?_⟩
        · rw [h1]
          simp
        · intro hdist
          have hpush := bindings_distinct_push defs logs { off := 0, element := some i } hdist
            (by
              intro n hn c hcm hcn
              have hbn : binding_name defs
                  ({ off := 0, element := some i } : ngx_http_log_zmq_loc_element_conf_t) =
                  some en := by
                simp [binding_name, hel, hen]
              rw [hbn] at hn
              cases hn
              apply hc
              simp only [carried, List.any_eq_true]
              exact ⟨c, hcm, by rw [hcn]; exact name_matches_refl en⟩)
          have := h2 hpush
          simpa using this

/-- What `ngx_http_log_zmq_merge_loc_conf` returns in a well-formed configuration: the child
scope with its bindings followed by the bindings the loop pushed. -/
theorem merge_loc_conf_run (cf : ngx_conf_t) (prev conf : ngx_http_log_zmq_loc_conf_t)
    (bkmc : ngx_http_log_zmq_main_conf_t) (defs : List ngx_http_log_zmq_element_conf_t)
    (logs : List ngx_http_log_zmq_loc_element_conf_t)
    (hmain : cf.main_conf = some bkmc) (hdefs : bkmc.logs = some defs)
    (hlogs : conf.logs = some logs)
    (hnamed : registry_named defs) (hvalid : bindings_valid defs logs) :
    ∃ conf1 added,
      ngx_http_log_zmq_merge_loc_conf cf prev conf = some (ngx_conf_rc.NGX_CONF_OK, conf1) ∧
      conf1.logs = some (logs ++ added) ∧
      (bindings_distinct defs logs → bindings_distinct defs (logs ++ added)) := by
  obtain ⟨added, h1, h2⟩ := merge_loop_distinct defs hnamed defs 0 logs (fun t => by simp) hvalid
  unfold ngx_http_log_zmq_merge_loc_conf
  simp only [hmain]
  by_cases hprev : prev.logs_definition = logs_definition_ptr.main_logs
  · simp only [hprev, if_true, hdefs]
    split_ifs <;> simp only [hlogs, Option.getD_some, h1] <;> exact ⟨_, added, rfl, rfl, h2⟩
  · simp only [hprev, if_false]
    split_ifs <;> exact ⟨_, [], rfl, by simp [hlogs], by simp⟩

theorem merge_loop_extends (defs : List ngx_http_log_zmq_element_conf_t)
    (todo : List ngx_http_log_zmq_element_conf_t) (i : Nat)
    (logs l : List ngx_http_log_zmq_loc_element_conf_t)
    (h : merge_loop defs todo i logs = some l) : ∃ added, l = logs ++ added := by
  induction todo generalizing i logs with
  | nil =>
    simp only [merge_loop, Option.some.injEq] at h
    exact ⟨[], by simp [h]⟩
  | cons element todo ih =>
    simp only [merge_loop] at h
    split at h
    · cases h
    · split at h
      · obtain ⟨added, ha⟩ := ih _ _ h
        exact ⟨{ off := 0, element := some i } :: added, by rw [ha]; simp⟩
      · exact ih _ _ h

/-- Whatever `ngx_http_log_zmq_merge_loc_conf` returns, the bindings of the child are the
first bindings of the scope it leaves. -/
theorem merge_loc_conf_extends (cf : ngx_conf_t) (prev conf conf1 : ngx_http_log_zmq_loc_conf_t)
    (rc : ngx_conf_rc)
    (h : ngx_http_log_zmq_merge_loc_conf cf prev conf = some (rc, conf1)) :
    ∃ added, conf1.logs.getD [] = conf.logs.getD [] ++ added := by
  have key : ∀ c2 : ngx_http_log_zmq_loc_conf_t, c2.logs = conf.logs →
      ∀ bkmc : ngx_http_log_zmq_main_conf_t,
      (if prev.logs_definition = logs_definition_ptr.main_logs then
        match bkmc.logs with
        | none => none
        | some element =>
          match merge_loop element element 0 (c2.logs.getD []) with
          | none => none
          | some logs => some (ngx_conf_rc.NGX_CONF_OK, { c2 with logs := some logs })
      else some (ngx_conf_rc.NGX_CONF_OK, c2)) = some (rc, conf1) →
      ∃ added, conf1.logs.getD [] = conf.logs.getD [] ++ added := by
    intro c2 hc2 bkmc hk
    split at hk
    · split at hk
      · cases hk
      · split at hk
        · cases hk
        · rename_i l hl
          simp only [Option.some.injEq, Prod.mk.injEq] at hk
          obtain ⟨_, h1⟩ := hk
          subst h1
          obtain ⟨added, ha⟩ := merge_loop_extends _ _ _ _ _ hl
          exact ⟨added, by rw [← hc2]; simpa using ha⟩
    · simp only [Option.some.injEq, Prod.mk.injEq] at hk
      obtain ⟨_, h1⟩ := hk
      subst h1
      exact ⟨[], by rw [hc2]; simp⟩
  unfold ngx_http_log_zmq_merge_loc_conf at h
  cases hmain : cf.main_conf with
  | none =>
    simp only [hmain, Option.some.injEq, Prod.mk.injEq] at h
    obtain ⟨_, h1⟩ := h
    subst h1
    exact ⟨[], by simp⟩
  | some bkmc =>
    simp only [hmain] at h
    refine key _ ?_ bkmc h
    split_ifs <;> rfl

/-- C11: the merge keeps every binding the child declared itself where it was, with its
target and its mute flag, whatever the parent scope holds: whatever the merge returns, the
child's bindings are the first bindings of the scope it leaves, in their order, and in a
well-formed configuration the merge returns `NGX_CONF_OK`. -/
theorem ngx_http_log_zmq_merge_keeps_child (cf : ngx_conf_t)
    (prev conf : ngx_http_log_zmq_loc_conf_t) (bkmc : ngx_http_log_zmq_main_conf_t)
    (defs : List ngx_http_log_zmq_element_conf_t)
    (logs : List ngx_http_log_zmq_loc_element_conf_t)
    (hmain : cf.main_conf = some bkmc) (hdefs : bkmc.logs = some defs)
    (hlogs : conf.logs = some logs)
    (hnamed : registry_named defs) (hvalid : bindings_valid defs logs) :
    (∃ conf1 added,
      ngx_http_log_zmq_merge_loc_conf cf prev conf = some (ngx_conf_rc.NGX_CONF_OK, conf1) ∧
      conf1.logs = some (logs ++ added) ∧
      ∀ (k : Nat) (b : ngx_http_log_zmq_loc_element_conf_t),
        logs[k]? = some b → (logs ++ added)[k]? = some b) ∧
    ∀ (cf1 : ngx_conf_t) (prev1 : ngx_http_log_zmq_loc_conf_t) (rc : ngx_conf_rc)
      (conf1 : ngx_http_log_zmq_loc_conf_t),
      ngx_http_log_zmq_merge_loc_conf cf1 prev1 conf = some (rc, conf1) →
      ∀ (k : Nat) (b : ngx_http_log_zmq_loc_element_conf_t),
        logs[k]? = some b → (conf1.logs.getD [])[k]? = some b := by
  constructor
  · obtain ⟨conf1, added, h1, h2, _⟩ :=
      merge_loc_conf_run cf prev conf bkmc defs logs hmain hdefs hlogs hnamed hvalid
    refine ⟨conf1, added, h1, h2, ?_⟩
    intro k b hk
    have hlt : k < logs.length := by
      by_contra hge
      rw [List.getElem?_eq_none (by omega)] at hk
      cases hk
    rw [List.getElem?_append_left hlt]
    exact hk
  · intro cf1 prev1 rc conf1 h k b hk
    obtain ⟨added, ha⟩ := merge_loc_conf_extends cf1 prev1 conf conf1 rc h
    rw [ha, hlogs, Option.getD_some]
    have hlt : k < logs.length := by
      by_contra hge
      rw [List.getElem?_eq_none (by omega)] at hk
      cases hk
    rw [List.getElem?_append_left hlt]
    exact hk

theorem modify_append_one {α : Type} (f : α → α) (xs : List α) (z : α) :
    (xs ++ [z]).modify f xs.length = xs ++ [f z] := by
  induction xs with
  | nil => rfl
  | cons x xs ih =>
    rw [List.cons_append, List.length_cons, List.modify_succ_cons, ih]
    rfl

theorem ngx_strncmp_symm (n : Nat) (a b : List u_char) (h : ngx_strncmp a b n = 0) :
    ngx_strncmp b a n = 0 := by
  induction n generalizing a b with
  | zero => simp [ngx_strncmp]
  | succ n ih =>
    rw [ngx_strncmp_succ] at h ⊢
    obtain ⟨hab, h1⟩ := h
    refine ⟨hab.symm, ?_⟩
    rcases h1 with h1 | h1
    · exact Or.inl (hab ▸ h1)
    · exact Or.inr (ih _ _ h1)

theorem name_matches_symm (a b : ngx_str_t) (h : name_matches a b = true) :
    name_matches b a = true := by
  simp only [name_matches, Bool.and_eq_true, beq_iff_eq] at *
  obtain ⟨hl, h1⟩ := h
  exact ⟨hl.symm, by rw [← hl]; exact ngx_strncmp_symm _ a b h1⟩

/-- What `ngx_http_log_zmq_create_location_element` returns in a well-formed scope: the
first binding whose name matches, the scope being left as it was, or a zeroed binding pushed
at the end when no binding carries a matching name. -/
theorem create_location_element_spec (defs : List ngx_http_log_zmq_element_conf_t)
    (logs : List ngx_http_log_zmq_loc_element_conf_t) (llcf : ngx_http_log_zmq_loc_conf_t)
    (name : ngx_str_t) (hlogs : llcf.logs = some logs)
    (hnamed : registry_named defs) (hvalid : bindings_valid defs logs) :
    (∃ j b n, ngx_http_log_zmq_create_location_element defs llcf name = some (llcf, j) ∧
      logs[j]? = some b ∧ binding_name defs b = some n ∧ name_matches n name = true) ∨
    (ngx_http_log_zmq_create_location_element defs llcf name =
        some ({ llcf with logs := some (logs ++ [zero_loc_element]) }, logs.length) ∧
      ∀ b ∈ logs, ∀ n, binding_name defs b = some n → name_matches n name = false) := by
  unfold ngx_http_log_zmq_create_location_element
  rcases find_location_element_spec defs name logs 0 hnamed hvalid with
    ⟨j, b, n, h1, h2, h3, h4⟩ | ⟨h1, h2⟩
  · refine Or.inl ⟨j, b, n, ?_, h2, h3, h4⟩
    simp only [hlogs, h1]
    simp
  · refine Or.inr ⟨?_, h2⟩
    simp only [hlogs, h1]

theorem binding_name_modify_same (defs : List ngx_http_log_zmq_element_conf_t)
    (logs : List ngx_http_log_zmq_loc_element_conf_t)
    (f : ngx_http_log_zmq_loc_element_conf_t → ngx_http_log_zmq_loc_element_conf_t) (j : Nat)
    (hf : ∀ b, logs[j]? = some b → binding_name defs (f b) = binding_name defs b) (k : Nat) :
    ((logs.modify f j)[k]?.bind (binding_name defs)) = (logs[k]?.bind (binding_name defs)) := by
  rw [List.getElem?_modify]
  cases hk : logs[k]? with
  | none => rfl
  | some b =>
    simp only [Option.map_eq_map, Option.map_some', Option.some_bind]
    split_ifs with hjk
    · subst hjk
      exact hf b hk
    · rfl

/-- C12: in a well-formed scope without two bindings of one target name,
`ngx_http_log_zmq_create_location_element` returns and leaves a scope without two bindings
of one name, and so is the scope once the binding returned points, as each caller makes it,
at a definition whose name matches the name searched (in a registry without two matching
names); `ngx_http_log_zmq_merge_loc_conf` returns `NGX_CONF_OK` and leaves a scope without
two bindings of one name. -/
theorem ngx_http_log_zmq_one_binding_per_name (defs : List ngx_http_log_zmq_element_conf_t)
    (logs : List ngx_http_log_zmq_loc_element_conf_t)
    (hnamed : registry_named defs) (hvalid : bindings_valid defs logs)
    (hdist : bindings_distinct defs logs) :
    (∀ (llcf : ngx_http_log_zmq_loc_conf_t) (name : ngx_str_t), llcf.logs = some logs →
      ∃ llcf1 j logs1,
        ngx_http_log_zmq_create_location_element defs llcf name = some (llcf1, j) ∧
        llcf1.logs = some logs1 ∧ bindings_distinct defs logs1 ∧
        (registry_unique defs → ∀ (lecf : Nat) (m : ngx_str_t) (off : ngx_uint_t),
          (defs[lecf]?.bind fun d => d.name) = some m → name_matches m name = true →
          bindings_distinct defs
            (logs1.modify (fun _ => { off := off, element := some lecf }) j))) ∧
    (∀ (cf : ngx_conf_t) (prev conf : ngx_http_log_zmq_loc_conf_t)
      (bkmc : ngx_http_log_zmq_main_conf_t),
      cf.main_conf = some bkmc → bkmc.logs = some defs → conf.logs = some logs →
      ∃ conf1 logs1,
        ngx_http_log_zmq_merge_loc_conf cf prev conf = some (ngx_conf_rc.NGX_CONF_OK, conf1) ∧
        conf1.logs = some logs1 ∧ bindings_distinct defs logs1) := by
  constructor
  · intro llcf name hlogs
    rcases create_location_element_spec defs logs llcf name hlogs hnamed hvalid with
      ⟨j, b, n, h1, h2, h3, h4⟩ | ⟨h1, h2⟩
    · refine ⟨llcf, j, logs, h1, hlogs, hdist, ?_⟩
      intro huniq lecf m off hm hmn
      have hnm : name_matches n m = true :=
        name_matches_trans n name m h4 (name_matches_symm m name hmn)
      obtain ⟨e, he, _⟩ := hvalid b (List.getElem?_mem h2)
      have hen : (defs[e]?.bind fun d => d.name) = some n := by
        simpa [binding_name, he] using h3
      have hel : e = lecf := huniq e lecf n m hen hm hnm
      subst hel
      intro k l x hk hl
      rw [binding_name_modify_same] at hk hl
      · exact hdist k l x hk hl
      all_goals
        intro b1 hb1
        rw [h2] at hb1
        cases hb1
        simp [binding_name, he]
    · refine ⟨_, logs.length, logs ++ [zero_loc_element], h1, rfl,
        bindings_distinct_push defs logs zero_loc_element hdist
          (by intro n hn; simp [binding_name, zero_loc_element] at hn), ?_⟩
      intro _ lecf m off hm hmn
      have hmod : (logs ++ [zero_loc_element]).modify
          (fun _ => ({ off := off, element := some lecf } : ngx_http_log_zmq_loc_element_conf_t))
          logs.length = logs ++ [{ off := off, element := some lecf }] := by
        exact modify_append_one _ logs zero_loc_element
      rw [hmod]
      apply bindings_distinct_push defs logs _ hdist
      intro n hn c hc hcn
      have hn1 : (defs[lecf]?.bind fun d => d.name) = some n := by
        simpa [binding_name] using hn
      rw [hm] at hn1
      cases hn1
      have := h2 c hc m hcn
      rw [hmn] at this
      cases this
  · intro cf prev conf bkmc hmain hdefs hlogs
    obtain ⟨conf1, added, h1, h2, h3⟩ :=
      merge_loc_conf_run cf prev conf bkmc defs logs hmain hdefs hlogs hnamed hvalid
    exact ⟨conf1, logs ++ added, h1, h2, h3 hdist⟩

/-! ## The words of the declare-server directive -/

theorem u_char_toNat_eq_zero (c : u_char) (h : (c.toNat : Int) = 0) : c = 0 := by
  have h1 : c.toNat = (0 : u_char).toNat := by
    have : c.toNat = 0 := by omega
    rw [this]
    rfl
  exact UInt8.toNat.inj h1

/-- The comparison `ngx_strcmp` returns 0 exactly when the two C strings are the same. -/
theorem ngx_strcmp_eq_zero_iff (a b : List u_char) :
    ngx_strcmp a b = 0 ↔ c_str a = c_str b := by
  induction a generalizing b with
  | nil =>
    cases b with
    | nil => simp [ngx_strcmp, c_str]
    | cons c2 b =>
      by_cases h2 : c2 = 0
      · subst h2
        simp [ngx_strcmp, c_str]
      · simp only [ngx_strcmp, List.headD_cons, c_str, List.takeWhile_nil, List.takeWhile_cons,
          ne_eq, h2, not_false_eq_true, decide_True, if_true]
        constructor
        · intro h
          exact absurd (u_char_toNat_eq_zero c2 (by omega)) h2
        · intro h
          cases h
  | cons c1 a ih =>
    cases b with
    | nil =>
      by_cases h1 : c1 = 0
      · subst h1
        simp [ngx_strcmp, c_str]
      · simp only [ngx_strcmp, List.headD_nil, ne_eq, h1, not_false_eq_true, if_true, c_str,
          List.takeWhile_cons, decide_True, List.takeWhile_nil]
        constructor
        · intro h
          exact absurd h (u_char_sub_ne_zero c1 0 h1)
        · intro h
          cases h
    | cons c2 b =>
      by_cases hc : c1 = c2
      · subst hc
        by_cases h1 : c1 = 0
        · subst h1
          simp [ngx_strcmp, c_str]
        · have := ih b
          simp only [c_str] at this
          simp [ngx_strcmp, c_str, h1, this]
      · simp only [ngx_strcmp, List.headD_cons, ne_eq, hc, not_false_eq_true, if_true, c_str,
          List.takeWhile_cons]
        constructor
        · intro h
          exact absurd h (u_char_sub_ne_zero c1 c2 hc)
        · intro h
          by_cases h1 : c1 = 0 <;> by_cases h2 : c2 = 0 <;> simp [h1, h2] at h
          · exact absurd (h1.trans h2.symm) hc
          · exact absurd h.1 hc

theorem c_str_of_no_nul (s : ngx_str_t) (h : ∀ c ∈ s, c ≠ 0) : c_str s = s := by
  simp only [c_str, List.takeWhile_eq_self_iff]
  intro c hc
  simpa using h c hc

/-- The protocol word selects a kind by its C string: `tcp`, `ipc` and `inproc` select
`TCP`, `IPC` and `INPROC`, and every other C string selects nothing. -/
theorem set_server_kind_spec (kind : ngx_str_t) :
    set_server_kind kind =
      if c_str kind = ngx_string "tcp" then some ngx_log_zmq_server_kind.TCP
      else if c_str kind = ngx_string "ipc" then some ngx_log_zmq_server_kind.IPC
      else if c_str kind = ngx_string "inproc" then some ngx_log_zmq_server_kind.INPROC
      else none := by
  have h1 : c_str ZMQ_TCP_KEY = ngx_string "tcp" := by decide
  have h2 : c_str ZMQ_IPC_KEY = ngx_string "ipc" := by decide
  have h3 : c_str ZMQ_INPROC_KEY = ngx_string "inproc" := by decide
  simp only [set_server_kind, ngx_strcmp_eq_zero_iff, h1, h2, h3]

/-! ## The steps of a directive handler in a well-formed configuration -/

theorem find_definition_total (name : ngx_str_t) (l : List ngx_http_log_zmq_element_conf_t)
    (k : Nat) (hnamed : registry_named l) :
    (∃ i, find_definition name l k = some (some i)) ∨ find_definition name l k = some none := by
  induction l generalizing k with
  | nil => exact Or.inr rfl
  | cons d rest ih =>
    cases hn : d.name with
    | none => exact absurd hn (hnamed d (List.mem_cons_self _ _))
    | some n =>
      simp only [find_definition, hn]
      split_ifs
      · exact Or.inl ⟨k, rfl⟩
      · exact ih (k + 1) (fun d hd => hnamed d (List.mem_cons_of_mem _ hd))

theorem find_location_element_append (defs x : List ngx_http_log_zmq_element_conf_t)
    (name : ngx_str_t) (logs : List ngx_http_log_zmq_loc_element_conf_t) (k : Nat)
    (hvalid : bindings_valid defs logs) :
    find_location_element (defs ++ x) name logs k = find_location_element defs name logs k := by
  induction logs generalizing k with
  | nil => rfl
  | cons b rest ih =>
    obtain ⟨e, he, hlt⟩ := hvalid b (List.mem_cons_self _ _)
    have hrest : bindings_valid defs rest := fun b hb => hvalid b (List.mem_cons_of_mem _ hb)
    simp only [find_location_element, he, List.getElem?_append_left hlt, ih _ hrest]

/-- In a well-formed configuration the steps every declare directive starts with return:
`ngx_http_log_zmq_create_definition` returns a definition of the array it leaves, and
`ngx_http_log_zmq_create_location_element` returns a binding. -/
theorem directive_first_steps (bkmc : ngx_http_log_zmq_main_conf_t)
    (llcf : ngx_http_log_zmq_loc_conf_t) (name : ngx_str_t) (hwf : conf_wf bkmc llcf) :
    ∃ bk lecf d0 llcf2 lelcf,
      ngx_http_log_zmq_create_definition bkmc name = some (bk, lecf) ∧
      (bk.logs.bind fun logs => logs[lecf]?) = some d0 ∧
      ngx_http_log_zmq_create_location_element (bk.logs.getD [])
        { llcf with logs_definition := logs_ptr bk } name = some (llcf2, lelcf) := by
  obtain ⟨defs, logs, hdefs, hlogs, hnamed, hvalid⟩ := hwf
  have hloc : ∀ ptr, ∃ llcf2 lelcf,
      ngx_http_log_zmq_create_location_element defs { llcf with logs_definition := ptr } name =
        some (llcf2, lelcf) := by
    intro ptr
    rcases create_location_element_spec defs logs { llcf with logs_definition := ptr } name
      hlogs hnamed hvalid with ⟨j, _, _, h1, _⟩ | ⟨h1, _⟩
    · exact ⟨_, _, h1⟩
    · exact ⟨_, _, h1⟩
  rcases find_definition_total name defs 0 hnamed with ⟨i, hfind⟩ | hfind
  · obtain ⟨_, hlt⟩ := find_definition_ge name defs 0 i hfind
    obtain ⟨llcf2, lelcf, h2⟩ := hloc (logs_ptr bkmc)
    refine ⟨bkmc, i, defs.get ⟨i, by omega⟩, llcf2, lelcf, ?_, ?_, ?_⟩
    · simp [ngx_http_log_zmq_create_definition, hdefs, hfind]
    · simp [hdefs, List.getElem?_eq_getElem (show i < defs.length by omega)]
    · simpa [hdefs] using h2
  · obtain ⟨llcf2, lelcf, h2⟩ :=
      hloc (logs_ptr { bkmc with logs := some (defs ++ [zero_element_conf]) })
    refine ⟨{ bkmc with logs := some (defs ++ [zero_element_conf]) }, defs.length,
      zero_element_conf, llcf2, lelcf, ?_, ?_, ?_⟩
    · simp [ngx_http_log_zmq_create_definition, hdefs, hfind]
    · simp
    · simp only [Option.getD_some]
      unfold ngx_http_log_zmq_create_location_element at h2 ⊢
      simp only [hlogs] at h2 ⊢
      rw [find_location_element_append defs _ name logs 0 hvalid]
      exact h2

/-- The run of `ngx_http_log_zmq_set_server` past its first steps, the definition returned
not having its server flag set: an unknown kind, a thread count that is `NGX_ERROR` or not
positive, and a url that `ngx_parse_url` refuses return `NGX_CONF_ERROR`, in this order, and
otherwise the call returns `NGX_CONF_OK` with the definition written. -/
theorem set_server_tail (env : ngx_conf_env) (cf : ngx_conf_t)
    (llcf : ngx_http_log_zmq_loc_conf_t) (bkmc bk : ngx_http_log_zmq_main_conf_t)
    (value1 value2 value3 value4 value5 : ngx_str_t) (lecf : Nat)
    (d0 : ngx_http_log_zmq_element_conf_t) (llcf2 : ngx_http_log_zmq_loc_conf_t) (lelcf : Nat)
    (hcmd : cf.cmd_type = NGX_HTTP_MAIN_CONF) (hmain : cf.main_conf = some bkmc)
    (h1 : cf.args[1]? = some value1) (h2 : cf.args[2]? = some value2)
    (h3 : cf.args[3]? = some value3) (h4 : cf.args[4]? = some value4)
    (h5 : cf.args[5]? = some value5)
    (hcreate : ngx_http_log_zmq_create_definition bkmc value1 = some (bk, lecf))
    (hlook : (bk.logs.bind fun logs => logs[lecf]?) = some d0) (hsset : d0.sset ≠ 1)
    (hloc : ngx_http_log_zmq_create_location_element (bk.logs.getD [])
      { llcf with logs_definition := logs_ptr bk } value1 = some (llcf2, lelcf)) :
    (set_server_kind value3 = none →
      ∃ bk1 llcf1, ngx_http_log_zmq_set_server env cf llcf =
        some (ngx_conf_rc.NGX_CONF_ERROR, bk1, llcf1)) ∧
    ∀ kind, set_server_kind value3 = some kind →
      ((env.ngx_atoi value4 = NGX_ERROR ∨ env.ngx_atoi value4 ≤ 0) →
        ∃ bk1 llcf1, ngx_http_log_zmq_set_server env cf llcf =
          some (ngx_conf_rc.NGX_CONF_ERROR, bk1, llcf1)) ∧
      (¬(env.ngx_atoi value4 = NGX_ERROR ∨ env.ngx_atoi value4 ≤ 0) →
        (set_server_url env kind value2 = some none →
          ∃ bk1 llcf1, ngx_http_log_zmq_set_server env cf llcf =
            some (ngx_conf_rc.NGX_CONF_ERROR, bk1, llcf1)) ∧
        ∀ u peer_addr, set_server_url env kind value2 = some (some (u, peer_addr)) →
          ngx_http_log_zmq_set_server env cf llcf =
            some (ngx_conf_rc.NGX_CONF_OK,
              some (update_definition bk lecf
                (set_server_fields cf.cycle_log value1 (env.ngx_atoi value4)
                  (env.ngx_atoi value5)
                  { peer_addr := peer_addr, kind := kind,
                    connection := build_connection kind u.url })),
              { update_location_element llcf2 lelcf
                  (fun _ => { off := 0, element := some lecf }) with off := 0 })) := by
  have hcmd1 : ¬cf.cmd_type ≠ NGX_HTTP_MAIN_CONF := by simp [hcmd]
  refine ⟨?_, ?_⟩
  · intro hk
    unfold ngx_http_log_zmq_set_server
    simp only [hcmd1, if_false, hmain, h1, h2, h3, h4, h5, hcreate, hlook, hsset, hloc, hk]
    exact ⟨_, _, rfl⟩
  · intro kind hk
    refine ⟨?_, ?_⟩
    · intro hio
      unfold ngx_http_log_zmq_set_server
      simp only [hcmd1, if_false, hmain, h1, h2, h3, h4, h5, hcreate, hlook, hsset, hloc, hk,
        hio, if_true]
      exact ⟨_, _, rfl⟩
    · intro hio
      refine ⟨?_, ?_⟩
      · intro hu
        unfold ngx_http_log_zmq_set_server
        simp only [hcmd1, if_false, hmain, h1, h2, h3, h4, h5, hcreate, hlook, hsset, hloc, hk,
          hio, hu]
        exact ⟨_, _, rfl⟩
      · intro u peer_addr hu
        unfold ngx_http_log_zmq_set_server
        simp only [hcmd1, if_false, hmain, h1, h2, h3, h4, h5, hcreate, hlook, hsset, hloc, hk,
          hio, hu, update_definition_twice]
        rfl

/-! ## The format and endpoint directives -/

/-- The copy loop of `ngx_http_log_zmq_set_format`: after the parts have been copied one
behind the other into a buffer that starts with `pre`, the buffer starts with `pre`
followed by the parts. -/
theorem log_format_copy (parts : List ngx_str_t) (pre buf : List u_char) (pad : Nat)
    (hlen : buf.length = pre.length + (parts.map List.length).sum + pad)
    (hpre : buf.take pre.length = pre) :
    ((parts.foldl
      (fun (acc : List u_char × Nat) value =>
        (ngx_memcpy acc.1 acc.2 value value.length, acc.2 + value.length))
      (buf, pre.length)).1).take (pre.length + (parts.map List.length).sum) =
      pre ++ parts.flatten := by
  induction parts generalizing pre buf with
  | nil => simpa using hpre
  | cons v rest ih =>
    simp only [List.map_cons, List.sum_cons] at hlen
    simp only [List.foldl_cons, List.map_cons, List.sum_cons, List.flatten_cons]
    have hcopy : ngx_memcpy buf pre.length v v.length =
        (pre ++ v) ++ buf.drop (pre.length + v.length) := by
      simp [ngx_memcpy, hpre]
    have h1 := ih (pre ++ v) (ngx_memcpy buf pre.length v v.length)
      (by rw [hcopy]; simp; omega)
      (by
        rw [hcopy, ← List.length_append]
        exact List.take_left' rfl)
    simp only [List.length_append] at h1
    rw [← Nat.add_assoc, h1, List.append_assoc]

/-- The template source `ngx_http_log_zmq_set_format` builds in its two loops is the parts
of the directive one behind the other. -/
theorem log_format_source (parts : List ngx_str_t) :
    ((parts.foldl
      (fun (acc : List u_char × Nat) value =>
        (ngx_memcpy acc.1 acc.2 value value.length, acc.2 + value.length))
      (List.replicate ((parts.map List.length).sum + 1) (0 : u_char), 0)).1).take
        (parts.map List.length).sum = parts.flatten := by
  have := log_format_copy parts [] (List.replicate ((parts.map List.length).sum + 1) 0) 1
    (by simp) (by simp)
  simpa using this

/-- The run of `ngx_http_log_zmq_set_format` past its first steps, the definition returned
not having its format flag set: the parts of the directive, one behind the other, are
compiled, and the call returns `NGX_CONF_OK` with the compiled template written, or
`NGX_CONF_ERROR` when the compilation fails. -/
theorem set_format_tail (env : ngx_conf_env) (cf : ngx_conf_t)
    (llcf : ngx_http_log_zmq_loc_conf_t) (bkmc bk : ngx_http_log_zmq_main_conf_t)
    (value1 : ngx_str_t) (lecf : Nat)
    (d0 : ngx_http_log_zmq_element_conf_t) (llcf2 : ngx_http_log_zmq_loc_conf_t) (lelcf : Nat)
    (hcmd : cf.cmd_type = NGX_HTTP_MAIN_CONF) (hmain : cf.main_conf = some bkmc)
    (h1 : cf.args[1]? = some value1)
    (hcreate : ngx_http_log_zmq_create_definition bkmc value1 = some (bk, lecf))
    (hlook : (bk.logs.bind fun logs => logs[lecf]?) = some d0) (hfset : d0.fset ≠ 1)
    (hloc : ngx_http_log_zmq_create_location_element (bk.logs.getD [])
      { llcf with logs_definition := logs_ptr bk } value1 = some (llcf2, lelcf)) :
    (env.ngx_http_script_compile (cf.args.drop 2).flatten = none →
      ∃ bk1 llcf1, ngx_http_log_zmq_set_format env cf llcf =
        some (ngx_conf_rc.NGX_CONF_ERROR, bk1, llcf1)) ∧
    ∀ lengths values,
      env.ngx_http_script_compile (cf.args.drop 2).flatten = some (lengths, values) →
      ngx_http_log_zmq_set_format env cf llcf =
        some (ngx_conf_rc.NGX_CONF_OK,
          some (update_definition bk lecf (set_format_fields lengths values)),
          { update_location_element llcf2 lelcf
              (fun _ => { off := 0, element := some lecf }) with off := 0 }) := by
  have hcmd1 : ¬cf.cmd_type ≠ NGX_HTTP_MAIN_CONF := by simp [hcmd]
  refine ⟨?_, ?_⟩
  · intro hc
    unfold ngx_http_log_zmq_set_format
    simp only [hcmd1, if_false, hmain, h1, hcreate, hlook, hfset, hloc, log_format_source, hc]
    exact ⟨_, _, rfl⟩
  · intro lengths values hc
    unfold ngx_http_log_zmq_set_format
    simp only [hcmd1, if_false, hmain, h1, hcreate, hlook, hfset, hloc, log_format_source, hc,
      update_definition_twice]
    rfl

/-- The run of `ngx_http_log_zmq_set_endpoint` past its first steps, the definition returned
not having its endpoint flag set. -/
theorem set_endpoint_tail (env : ngx_conf_env) (cf : ngx_conf_t)
    (llcf : ngx_http_log_zmq_loc_conf_t) (bkmc bk : ngx_http_log_zmq_main_conf_t)
    (value1 value2 : ngx_str_t) (lecf : Nat)
    (d0 : ngx_http_log_zmq_element_conf_t) (llcf2 : ngx_http_log_zmq_loc_conf_t) (lelcf : Nat)
    (hcmd : cf.cmd_type = NGX_HTTP_MAIN_CONF) (hmain : cf.main_conf = some bkmc)
    (h1 : cf.args[1]? = some value1) (h2 : cf.args[2]? = some value2)
    (hcreate : ngx_http_log_zmq_create_definition bkmc value1 = some (bk, lecf))
    (hlook : (bk.logs.bind fun logs => logs[lecf]?) = some d0) (heset : d0.eset ≠ 1)
    (hloc : ngx_http_log_zmq_create_location_element (bk.logs.getD [])
      { llcf with logs_definition := logs_ptr bk } value1 = some (llcf2, lelcf)) :
    (env.ngx_http_script_compile value2 = none →
      ∃ bk1 llcf1, ngx_http_log_zmq_set_endpoint env cf llcf =
        some (ngx_conf_rc.NGX_CONF_ERROR, bk1, llcf1)) ∧
    ∀ lengths values,
      env.ngx_http_script_compile value2 = some (lengths, values) →
      ngx_http_log_zmq_set_endpoint env cf llcf =
        some (ngx_conf_rc.NGX_CONF_OK,
          some (update_definition bk lecf (set_endpoint_fields lengths values)),
          { update_location_element llcf2 lelcf
              (fun _ => { off := 0, element := some lecf }) with off := 0 }) := by
  have hcmd1 : ¬cf.cmd_type ≠ NGX_HTTP_MAIN_CONF := by simp [hcmd]
  refine ⟨?_, ?_⟩
  · intro hc
    unfold ngx_http_log_zmq_set_endpoint
    simp only [hcmd1, if_false, hmain, h1, h2, hcreate, hlook, heset, hloc, hc]
    exact ⟨_, _, rfl⟩
  · intro lengths values hc
    unfold ngx_http_log_zmq_set_endpoint
    simp only [hcmd1, if_false, hmain, h1, h2, hcreate, hlook, heset, hloc, hc,
      update_definition_twice]
    rfl

/-- A successful `ngx_http_log_zmq_set_format`, step by step. -/
theorem set_format_ok_steps (env : ngx_conf_env) (cf : ngx_conf_t)
    (llcf llcf1 : ngx_http_log_zmq_loc_conf_t) (bk1 : Option ngx_http_log_zmq_main_conf_t)
    (h : ngx_http_log_zmq_set_format env cf llcf = some (ngx_conf_rc.NGX_CONF_OK, bk1, llcf1)) :
    ∃ bkmc value1 bk lecf d0 llcf2 lelcf lengths values,
      cf.cmd_type = NGX_HTTP_MAIN_CONF ∧ cf.main_conf = some bkmc ∧
      cf.args[1]? = some value1 ∧
      ngx_http_log_zmq_create_definition bkmc value1 = some (bk, lecf) ∧
      (bk.logs.bind fun logs => logs[lecf]?) = some d0 ∧ d0.fset ≠ 1 ∧
      ngx_http_log_zmq_create_location_element (bk.logs.getD [])
        { llcf with logs_definition := logs_ptr bk } value1 = some (llcf2, lelcf) ∧
      env.ngx_http_script_compile (cf.args.drop 2).flatten = some (lengths, values) ∧
      bk1 = some (update_definition bk lecf (set_format_fields lengths values)) ∧
      llcf1 = { update_location_element llcf2 lelcf
        (fun _ => { off := 0, element := some lecf }) with off := 0 } := by
  have h0 := h
  unfold ngx_http_log_zmq_set_format at h
  repeat' (first | split at h | simp only [] at h)
  all_goals first
    | (cases h; done)
    | skip
  have hcmd : cf.cmd_type = NGX_HTTP_MAIN_CONF := by simpa using ‹¬cf.cmd_type ≠ _›
  have hc := ‹env.ngx_http_script_compile _ = some _›
  rw [log_format_source] at hc
  obtain ⟨_, hok⟩ := set_format_tail env cf llcf _ _ _ _ _ _ _ hcmd ‹cf.main_conf = some _›
    ‹cf.args[1]? = some _› ‹ngx_http_log_zmq_create_definition _ _ = some _› ‹_ = some _›
    ‹¬_ = 1› ‹ngx_http_log_zmq_create_location_element _ _ _ = some _›
  have hrun := hok _ _ hc
  rw [hrun] at h0
  simp only [Option.some.injEq, Prod.mk.injEq, true_and] at h0
  exact ⟨_, _, _, _, _, _, _, _, _, hcmd, ‹cf.main_conf = some _›, ‹cf.args[1]? = some _›,
    ‹ngx_http_log_zmq_create_definition _ _ = some _›, ‹_ = some _›, ‹¬_ = 1›,
    ‹ngx_http_log_zmq_create_location_element _ _ _ = some _›, hc, h0.1.symm, h0.2.symm⟩

/-- A successful `ngx_http_log_zmq_set_endpoint`, step by step. -/
theorem set_endpoint_ok_steps (env : ngx_conf_env) (cf : ngx_conf_t)
    (llcf llcf1 : ngx_http_log_zmq_loc_conf_t) (bk1 : Option ngx_http_log_zmq_main_conf_t)
    (h : ngx_http_log_zmq_set_endpoint env cf llcf =
      some (ngx_conf_rc.NGX_CONF_OK, bk1, llcf1)) :
    ∃ bkmc value1 value2 bk lecf d0 llcf2 lelcf lengths values,
      cf.cmd_type = NGX_HTTP_MAIN_CONF ∧ cf.main_conf = some bkmc ∧
      cf.args[1]? = some value1 ∧ cf.args[2]? = some value2 ∧
      ngx_http_log_zmq_create_definition bkmc value1 = some (bk, lecf) ∧
      (bk.logs.bind fun logs => logs[lecf]?) = some d0 ∧ d0.eset ≠ 1 ∧
      ngx_http_log_zmq_create_location_element (bk.logs.getD [])
        { llcf with logs_definition := logs_ptr bk } value1 = some (llcf2, lelcf) ∧
      env.ngx_http_script_compile value2 = some (lengths, values) ∧
      bk1 = some (update_definition bk lecf (set_endpoint_fields lengths values)) ∧
      llcf1 = { update_location_element llcf2 lelcf
        (fun _ => { off := 0, element := some lecf }) with off := 0 } := by
  have h0 := h
  unfold ngx_http_log_zmq_set_endpoint at h
  repeat' (first | split at h | simp only [] at h)
  all_goals first
    | (cases h; done)
    | skip
  have hcmd : cf.cmd_type = NGX_HTTP_MAIN_CONF := by simpa using ‹¬cf.cmd_type ≠ _›
  have hc := ‹env.ngx_http_script_compile _ = some _›
  obtain ⟨_, hok⟩ := set_endpoint_tail env cf llcf _ _ _ _ _ _ _ _ hcmd ‹cf.main_conf = some _›
    ‹cf.args[1]? = some _› ‹cf.args[2]? = some _›
    ‹ngx_http_log_zmq_create_definition _ _ = some _› ‹_ = some _›
    ‹¬_ = 1› ‹ngx_http_log_zmq_create_location_element _ _ _ = some _›
  have hrun := hok _ _ hc
  rw [hrun] at h0
  simp only [Option.some.injEq, Prod.mk.injEq, true_and] at h0
  exact ⟨_, _, _, _, _, _, _, _, _, _, hcmd, ‹cf.main_conf = some _›, ‹cf.args[1]? = some _›,
    ‹cf.args[2]? = some _›,
    ‹ngx_http_log_zmq_create_definition _ _ = some _›, ‹_ = some _›, ‹¬_ = 1›,
    ‹ngx_http_log_zmq_create_location_element _ _ _ = some _›, hc, h0.1.symm, h0.2.symm⟩

/-! ## What a declared server holds -/

/-- After a successful `ngx_http_log_zmq_set_server` the lookup of the name finds the
definition the call has written: the kind selected, the connection built for it, the thread
count and the queue length parsed, the server flag set. -/
theorem set_server_ok_target (env : ngx_conf_env) (cf : ngx_conf_t)
    (llcf llcf1 : ngx_http_log_zmq_loc_conf_t) (bk1 : Option ngx_http_log_zmq_main_conf_t)
    (h : ngx_http_log_zmq_set_server env cf llcf = some (ngx_conf_rc.NGX_CONF_OK, bk1, llcf1)) :
    ∃ b defs1 i d value1 value2 value3 value4 value5 kind u peer_addr,
      bk1 = some b ∧ b.logs = some defs1 ∧
      cf.args[1]? = some value1 ∧ cf.args[2]? = some value2 ∧ cf.args[3]? = some value3 ∧
      cf.args[4]? = some value4 ∧ cf.args[5]? = some value5 ∧
      find_definition value1 defs1 0 = some (some i) ∧ defs1[i]? = some d ∧
      set_server_kind value3 = some kind ∧
      ¬(env.ngx_atoi value4 = NGX_ERROR ∨ env.ngx_atoi value4 ≤ 0) ∧
      set_server_url env kind value2 = some (some (u, peer_addr)) ∧
      d.server = some { peer_addr := peer_addr, kind := kind,
                        connection := build_connection kind u.url } ∧
      d.iothreads = env.ngx_atoi value4 ∧ d.qlen = env.ngx_atoi value5 ∧ d.sset = 1 ∧
      d.name = some value1 := by
  obtain ⟨bkmc, value1, value2, value3, value4, value5, bk, lecf, d0, kind, u, peer_addr, llcf2,
    lelcf, _, _, h1, h2, h3, h4, h5, hcreate, hd0, _, hkind, hio, hurl, _, hbk, _⟩ :=
    set_server_ok_inv env cf llcf llcf1 bk1 h
  generalize hF : set_server_fields cf.cycle_log value1 (env.ngx_atoi value4)
      (env.ngx_atoi value5)
      { peer_addr := peer_addr, kind := kind, connection := build_connection kind u.url } = F
      at hbk
  have hFname : ∀ d, (F d).name = some value1 := by intro d; rw [← hF]; rfl
  obtain ⟨defs, hdefs, hlt, hupd, hfind⟩ :=
    create_definition_lookup bkmc bk value1 lecf F hFname hcreate
  have hd : defs[lecf]? = some d0 := by simpa [hdefs] using hd0
  have hget : (defs.modify F lecf)[lecf]? = some (F d0) := by
    rw [List.getElem?_modify_eq, hd]
    rfl
  refine ⟨_, defs.modify F lecf, lecf, F d0, value1, value2, value3, value4, value5, kind, u,
    peer_addr, hbk, hupd, h1, h2, h3, h4, h5, hfind, hget, hkind, hio, hurl, ?_, ?_, ?_, ?_, ?_⟩
  all_goals
    rw [← hF]
    rfl

/-- In a well-formed configuration `ngx_http_log_zmq_set_server` returns `NGX_CONF_ERROR`
when the protocol word selects no kind or the thread count is `NGX_ERROR` or not positive. -/
theorem set_server_error_of (env : ngx_conf_env) (cf : ngx_conf_t)
    (llcf : ngx_http_log_zmq_loc_conf_t) (bkmc : ngx_http_log_zmq_main_conf_t)
    (hmain : cf.main_conf = some bkmc) (hwf : conf_wf bkmc llcf) (hlen : 6 ≤ cf.args.length)
    (hbad : ∀ value3 value4, cf.args[3]? = some value3 → cf.args[4]? = some value4 →
      set_server_kind value3 = none ∨ env.ngx_atoi value4 = NGX_ERROR ∨
        env.ngx_atoi value4 ≤ 0) :
    ∃ bk1 llcf1, ngx_http_log_zmq_set_server env cf llcf =
      some (ngx_conf_rc.NGX_CONF_ERROR, bk1, llcf1) := by
  have h1 : cf.args[1]? = some (cf.args.get ⟨1, by omega⟩) := List.getElem?_eq_getElem _
  have h2 : cf.args[2]? = some (cf.args.get ⟨2, by omega⟩) := List.getElem?_eq_getElem _
  have h3 : cf.args[3]? = some (cf.args.get ⟨3, by omega⟩) := List.getElem?_eq_getElem _
  have h4 : cf.args[4]? = some (cf.args.get ⟨4, by omega⟩) := List.getElem?_eq_getElem _
  have h5 : cf.args[5]? = some (cf.args.get ⟨5, by omega⟩) := List.getElem?_eq_getElem _
  by_cases hcmd : cf.cmd_type = NGX_HTTP_MAIN_CONF
  · obtain ⟨bk, lecf, d0, llcf2, lelcf, hcreate, hlook, hloc⟩ :=
      directive_first_steps bkmc llcf (cf.args.get ⟨1, by omega⟩) hwf
    by_cases hsset : d0.sset = 1
    · have hcmd1 : ¬cf.cmd_type ≠ NGX_HTTP_MAIN_CONF := by simp [hcmd]
      unfold ngx_http_log_zmq_set_server
      simp only [hcmd1, if_false, hmain, h1, h2, h3, h4, h5, hcreate, hlook, hsset, if_true]
      exact ⟨_, _, rfl⟩
    · obtain ⟨hk, hrest⟩ := set_server_tail env cf llcf bkmc bk _ _ _ _ _ lecf d0 llcf2 lelcf
        hcmd hmain h1 h2 h3 h4 h5 hcreate hlook hsset hloc
      cases hkind : set_server_kind (cf.args.get ⟨3, by omega⟩) with
      | none => exact hk hkind
      | some kind =>
        rcases hbad _ _ h3 h4 with hb | hb
        · rw [hkind] at hb
          cases hb
        · exact (hrest kind hkind).1 hb
  · unfold ngx_http_log_zmq_set_server
    simp only [ne_eq, hcmd, not_false_eq_true, if_true]
    exact ⟨_, _, rfl⟩

theorem mem_modify {α : Type} (f : α → α) (l : List α) (n : Nat) (x : α)
    (h : x ∈ l.modify f n) : x ∈ l ∨ ∃ y ∈ l, x = f y := by
  induction l generalizing n with
  | nil => simp at h
  | cons a rest ih =>
    cases n with
    | zero =>
      rw [List.modify_zero_cons] at h
      simp only [List.mem_cons] at h
      rcases h with h | h
      · exact Or.inr ⟨a, List.mem_cons_self _ _, h⟩
      · exact Or.inl (List.mem_cons_of_mem _ h)
    | succ n =>
      rw [List.modify_succ_cons] at h
      simp only [List.mem_cons] at h
      rcases h with h | h
      · exact Or.inl (h ▸ List.mem_cons_self _ _)
      · rcases ih n h with h1 | ⟨y, hy, h1⟩
        · exact Or.inl (List.mem_cons_of_mem _ h1)
        · exact Or.inr ⟨y, List.mem_cons_of_mem _ hy, h1⟩

/-- The definitions `ngx_http_log_zmq_create_definition` leaves are the ones it was given
and, at most, one zeroed definition. -/
theorem mem_create_definition (bkmc bk : ngx_http_log_zmq_main_conf_t) (m : ngx_str_t)
    (lecf : Nat) (h : ngx_http_log_zmq_create_definition bkmc m = some (bk, lecf))
    (d : ngx_http_log_zmq_element_conf_t) (hd : d ∈ bk.logs.getD []) :
    d ∈ bkmc.logs.getD [] ∨ d = zero_element_conf := by
  unfold ngx_http_log_zmq_create_definition at h
  cases hl : bkmc.logs with
  | none =>
    simp only [hl, Option.some.injEq, Prod.mk.injEq] at h
    obtain ⟨h1, _⟩ := h
    subst h1
    simp only [Option.getD_some, List.mem_singleton] at hd
    exact Or.inr hd
  | some logs =>
    simp only [hl] at h
    split at h
    · cases h
    · simp only [Option.some.injEq, Prod.mk.injEq] at h
      obtain ⟨h1, _⟩ := h
      subst h1
      rw [hl] at hd
      exact Or.inl hd
    · simp only [Option.some.injEq, Prod.mk.injEq] at h
      obtain ⟨h1, _⟩ := h
      subst h1
      simp only [Option.getD_some, List.mem_append, List.mem_singleton] at hd ⊢
      exact hd

/-- A property of definitions that the zeroed definition has and that the writes of the
three declare directives keep or establish holds of every definition after a successful
directive when it held of every definition before. -/
theorem registry_invariant_step (P : ngx_http_log_zmq_element_conf_t → Prop)
    (hzero : P zero_element_conf)
    (hsrv : ∀ (env : ngx_conf_env) (value1 value2 value3 value4 value5 : ngx_str_t)
      (kind : ngx_log_zmq_server_kind) (u : ngx_url_t) (peer_addr : ngx_addr_t)
      (cycle_log : Option Nat) (d : ngx_http_log_zmq_element_conf_t),
      set_server_kind value3 = some kind →
      ¬(env.ngx_atoi value4 = NGX_ERROR ∨ env.ngx_atoi value4 ≤ 0) →
      set_server_url env kind value2 = some (some (u, peer_addr)) → P d →
      P (set_server_fields cycle_log value1 (env.ngx_atoi value4) (env.ngx_atoi value5)
        { peer_addr := peer_addr, kind := kind, connection := build_connection kind u.url } d))
    (hfmt : ∀ lengths values d, P d → P (set_format_fields lengths values d))
    (hend : ∀ lengths values d, P d → P (set_endpoint_fields lengths values d))
    (bkmc bk1 : ngx_http_log_zmq_main_conf_t) (hstep : directive_step bkmc bk1)
    (hP : ∀ d ∈ bkmc.logs.getD [], P d) : ∀ d ∈ bk1.logs.getD [], P d := by
  have hupd : ∀ (bk : ngx_http_log_zmq_main_conf_t) (m : ngx_str_t) (lecf : Nat)
      (f : ngx_http_log_zmq_element_conf_t → ngx_http_log_zmq_element_conf_t),
      ngx_http_log_zmq_create_definition bkmc m = some (bk, lecf) →
      (∀ d, P d → P (f d)) → ∀ d ∈ (update_definition bk lecf f).logs.getD [], P d := by
    intro bk m lecf f hcreate hf d hd
    have hbk : ∀ d ∈ bk.logs.getD [], P d := by
      intro d hd
      rcases mem_create_definition bkmc bk m lecf hcreate d hd with h | h
      · exact hP d h
      · rw [h]
        exact hzero
    cases hl : bk.logs with
    | none => simp [update_definition, hl] at hd
    | some logs =>
      simp only [update_definition, hl, Option.map_some', Option.getD_some] at hd
      rw [hl] at hbk
      rcases mem_modify f logs lecf d hd with h | ⟨y, hy, h⟩
      · exact hbk d h
      · rw [h]
        exact hf y (hbk y hy)
  obtain ⟨env, cf, llcf, llcf1, hmain, h | h | h | h⟩ := hstep
  · obtain ⟨bkmc0, value1, value2, value3, value4, value5, bk, lecf, d0, kind, u, peer_addr,
      llcf2, lelcf, _, hmain0, _, _, _, _, _, hcreate, _, _, hkind, hio, hurl, _, hbk, _⟩ :=
      set_server_ok_inv env cf llcf llcf1 (some bk1) h
    rw [hmain] at hmain0
    cases hmain0
    simp only [Option.some.injEq] at hbk
    rw [hbk]
    exact hupd bk value1 lecf _ hcreate
      (fun d hd => hsrv env value1 value2 value3 value4 value5 kind u peer_addr _ d hkind hio
        hurl hd)
  · obtain ⟨bkmc0, value1, bk, lecf, d0, llcf2, lelcf, lengths, values, _, hmain0, _, hcreate,
      _, _, _, _, hbk, _⟩ := set_format_ok_steps env cf llcf llcf1 (some bk1) h
    rw [hmain] at hmain0
    cases hmain0
    simp only [Option.some.injEq] at hbk
    rw [hbk]
    exact hupd bk value1 lecf _ hcreate (hfmt lengths values)
  · obtain ⟨bkmc0, value1, value2, bk, lecf, d0, llcf2, lelcf, lengths, values, _, hmain0, _, _,
      hcreate, _, _, _, _, hbk, _⟩ := set_endpoint_ok_steps env cf llcf llcf1 (some bk1) h
    rw [hmain] at hmain0
    cases hmain0
    simp only [Option.some.injEq] at hbk
    rw [hbk]
    exact hupd bk value1 lecf _ hcreate (hend lengths values)
  · have hsame := set_off_main_conf cf llcf llcf1 _ _ h
    rw [hmain] at hsame
    cases hsame
    exact hP

/-- Such a property holds of every definition of every reachable main configuration. -/
theorem registry_invariant (P : ngx_http_log_zmq_element_conf_t → Prop)
    (hzero : P zero_element_conf)
    (hsrv : ∀ (env : ngx_conf_env) (value1 value2 value3 value4 value5 : ngx_str_t)
      (kind : ngx_log_zmq_server_kind) (u : ngx_url_t) (peer_addr : ngx_addr_t)
      (cycle_log : Option Nat) (d : ngx_http_log_zmq_element_conf_t),
      set_server_kind value3 = some kind →
      ¬(env.ngx_atoi value4 = NGX_ERROR ∨ env.ngx_atoi value4 ≤ 0) →
      set_server_url env kind value2 = some (some (u, peer_addr)) → P d →
      P (set_server_fields cycle_log value1 (env.ngx_atoi value4) (env.ngx_atoi value5)
        { peer_addr := peer_addr, kind := kind, connection := build_connection kind u.url } d))
    (hfmt : ∀ lengths values d, P d → P (set_format_fields lengths values d))
    (hend : ∀ lengths values d, P d → P (set_endpoint_fields lengths values d))
    (bkmc : ngx_http_log_zmq_main_conf_t) (hreach : conf_reachable bkmc) :
    ∀ d ∈ bkmc.logs.getD [], P d := by
  obtain ⟨cf0, hsteps⟩ := hreach
  induction hsteps with
  | refl =>
    intro d hd
    simp [ngx_http_log_zmq_create_main_conf] at hd
  | tail _ hstep ih => exact registry_invariant_step P hzero hsrv hfmt hend _ _ hstep ih

/-- C15: `ngx_http_log_zmq_set_server` returns `NGX_CONF_ERROR` when `ngx_atoi` of its
thread-count word is `NGX_ERROR` (the word is not a decimal number) or is not greater than
0; when the call succeeds the definition it has written stores the parsed value, which is
greater than 0; and in every reachable main configuration a definition whose server flag is
set has a thread count greater than 0. -/
theorem ngx_http_log_zmq_set_server_iothreads (env : ngx_conf_env) (cf : ngx_conf_t)
    (llcf : ngx_http_log_zmq_loc_conf_t) (bkmc : ngx_http_log_zmq_main_conf_t)
    (value4 : ngx_str_t)
    (hmain : cf.main_conf = some bkmc) (hwf : conf_wf bkmc llcf) (hlen : 6 ≤ cf.args.length)
    (h4 : cf.args[4]? = some value4) :
    ((env.ngx_atoi value4 = NGX_ERROR ∨ env.ngx_atoi value4 ≤ 0) →
      ∃ bk1 llcf1, ngx_http_log_zmq_set_server env cf llcf =
        some (ngx_conf_rc.NGX_CONF_ERROR, bk1, llcf1)) ∧
    (∀ bk1 llcf1, ngx_http_log_zmq_set_server env cf llcf =
        some (ngx_conf_rc.NGX_CONF_OK, bk1, llcf1) →
      ∃ b defs1 i d value1, bk1 = some b ∧ b.logs = some defs1 ∧
        cf.args[1]? = some value1 ∧ find_definition value1 defs1 0 = some (some i) ∧
        defs1[i]? = some d ∧ d.sset = 1 ∧ d.iothreads = env.ngx_atoi value4 ∧
        0 < d.iothreads) ∧
    ∀ bk, conf_reachable bk → ∀ d ∈ bk.logs.getD [], d.sset = 1 → 0 < d.iothreads := by
  refine ⟨?_, ?_, ?_⟩
  · intro hbad
    apply set_server_error_of env cf llcf bkmc hmain hwf hlen
    intro v3 v4 _ hv4
    rw [h4] at hv4
    cases hv4
    exact Or.inr hbad
  · intro bk1 llcf1 hok
    obtain ⟨b, defs1, i, d, value1, value2, value3, v4, value5, kind, u, peer_addr, hb, hdefs,
      h1, _, _, hv4, _, hfind, hd, _, hio, _, _, hthreads, _, hsset, _⟩ :=
      set_server_ok_target env cf llcf llcf1 bk1 hok
    rw [h4] at hv4
    cases hv4
    refine ⟨b, defs1, i, d, value1, hb, hdefs, h1, hfind, hd, hsset, hthreads, ?_⟩
    rw [hthreads]
    by_contra hle
    exact hio (Or.inr (not_lt.mp hle))
  · intro bk hreach d hd
    refine registry_invariant (fun d => d.sset = 1 → 0 < d.iothreads) ?_ ?_ ?_ ?_ bk hreach d hd
    · intro h
      cases h
    · intro env1 v1 v2 v3 v4 v5 kind u pa cl d _ hio _ _ _
      show 0 < env1.ngx_atoi v4
      by_contra hle
      exact hio (Or.inr (not_lt.mp hle))
    · intro lengths values d hP hs
      exact hP hs
    · intro lengths values d hP hs
      exact hP hs

/-! ## The queue length -/

theorem hwm_applied_append (xs ys : List ext_call) :
    hwm_applied (xs ++ ys) = hwm_applied xs ++ hwm_applied ys := by
  induction xs with
  | nil => rfl
  | cons c cs ih =>
    cases c with
    | zmq_setsockopt s o v =>
      cases o <;> simp [hwm_applied, ih]
    | _ => simp [hwm_applied, ih]

theorem to_int_of_range (q : Int) (h0 : 0 ≤ q) (h1 : q < 2 ^ 31) : to_int q = q := by
  have hm : q % 2 ^ 32 = q := Int.emod_eq_of_lt h0 (lt_trans h1 (by norm_num))
  simp only [to_int, hm, h1, if_true]

theorem to_uint64_of_range (q : Int) (h0 : 0 ≤ q) (h1 : q < 2 ^ 64) : to_uint64 q = q := by
  simp only [to_uint64]
  exact Int.emod_eq_of_lt h0 h1

/-- The value `zmq_create_socket` computes for the send high-water mark. -/
theorem zmq_hwm_spec (env : ngx_env) (qlen : ngx_int_t) :
    (qlen < 0 → zmq_hwm env qlen = 100) ∧
    (0 ≤ qlen → qlen < 2 ^ 31 → zmq_hwm env qlen = qlen) ∧
    (env.ZMQ_VERSION_MAJOR < 3 → 0 ≤ qlen → qlen < 2 ^ 64 → zmq_hwm env qlen = qlen) ∧
    (3 ≤ env.ZMQ_VERSION_MAJOR → 0 ≤ qlen → zmq_hwm env qlen = to_int qlen) := by
  refine ⟨?_, ?_, ?_, ?_⟩
  · intro h
    simp only [zmq_hwm, h, if_true, ZMQ_NGINX_QUEUE_LENGTH]
    split_ifs
    · exact to_uint64_of_range 100 (by norm_num) (by norm_num)
    · exact to_int_of_range 100 (by norm_num) (by norm_num)
  · intro h0 h1
    have h0' : ¬qlen < 0 := not_lt.mpr h0
    simp only [zmq_hwm, h0', if_false]
    split_ifs
    · exact to_uint64_of_range qlen h0 (lt_trans h1 (by norm_num))
    · exact to_int_of_range qlen h0 h1
  · intro hv h0 h1
    have h0' : ¬qlen < 0 := not_lt.mpr h0
    simp only [zmq_hwm, h0', if_false, hv, if_true]
    exact to_uint64_of_range qlen h0 h1
  · intro hv h0
    have h0' : ¬qlen < 0 := not_lt.mpr h0
    have hv' : ¬env.ZMQ_VERSION_MAJOR < 3 := by omega
    simp only [zmq_hwm, h0', if_false, hv']

/-- A call of `zmq_create_socket` on a definition whose context is created, the socket being
there or its creation succeeding, applies one send high-water mark, the value computed from
the queue length. -/
theorem zmq_create_socket_hwm (env : ngx_env) (calls : List ext_call)
    (cf : ngx_http_log_zmq_element_conf_t) (ctx : ngx_http_log_zmq_ctx_t)
    (hctx : cf.ctx = some ctx) (hcontext : ctx.zmq_context ≠ none)
    (hsock : ctx.screated = 0 → (env.reply calls.length).ptr ≠ none)
    (hserver : cf.server ≠ none) :
    ∃ res, zmq_create_socket env calls cf = some res ∧
      hwm_applied res.2.2 = hwm_applied calls ++ [zmq_hwm env cf.qlen] := by
  obtain ⟨server, hs⟩ := Option.ne_none_iff_exists'.mp hserver
  unfold zmq_create_socket
  simp only [hctx, hcontext, if_false]
  by_cases h0 : ctx.screated = 0
  · simp only [h0, if_true, hsock h0, if_false]
    unfold zmq_create_socket_connect
    simp only [hs]
    split_ifs <;>
      exact ⟨_, rfl, by simp [hwm_applied_append, hwm_applied]⟩
  · simp only [h0, if_false]
    unfold zmq_create_socket_connect
    simp only [hs]
    split_ifs <;>
      exact ⟨_, rfl, by simp [hwm_applied_append, hwm_applied]⟩

/-- When `ngx_http_log_zmq_create_definition` returns a definition whose server flag is set,
the server of the name was declared. -/
theorem server_declared_of_create (bkmc bk : ngx_http_log_zmq_main_conf_t) (name : ngx_str_t)
    (lecf : Nat) (d0 : ngx_http_log_zmq_element_conf_t)
    (hcreate : ngx_http_log_zmq_create_definition bkmc name = some (bk, lecf))
    (hlook : (bk.logs.bind fun logs => logs[lecf]?) = some d0) (hsset : d0.sset = 1) :
    server_declared bkmc name := by
  unfold ngx_http_log_zmq_create_definition at hcreate
  cases hl : bkmc.logs with
  | none =>
    simp only [hl, Option.some.injEq, Prod.mk.injEq] at hcreate
    obtain ⟨h1, h2⟩ := hcreate
    subst h1 h2
    simp only [Option.some_bind, List.getElem?_cons_zero, Option.some.injEq] at hlook
    subst hlook
    cases hsset
  | some logs =>
    simp only [hl] at hcreate
    split at hcreate
    · cases hcreate
    · rename_i i hfind
      simp only [Option.some.injEq, Prod.mk.injEq] at hcreate
      obtain ⟨h1, h2⟩ := hcreate
      subst h1 h2
      rw [hl] at hlook
      exact ⟨logs, i, d0, hl, hfind, hlook, hsset⟩
    · simp only [Option.some.injEq, Prod.mk.injEq] at hcreate
      obtain ⟨h1, h2⟩ := hcreate
      subst h1 h2
      simp only [Option.some_bind, List.getElem?_concat_length, Option.some.injEq] at hlook
      subst hlook
      cases hsset

/-- In a well-formed configuration a declare-server directive for a name whose server is not
declared, with a known kind, a positive thread count and a url that parses, succeeds. -/
theorem set_server_succeeds (env : ngx_conf_env) (cf : ngx_conf_t)
    (llcf : ngx_http_log_zmq_loc_conf_t) (bkmc : ngx_http_log_zmq_main_conf_t)
    (value1 value2 value3 value4 value5 : ngx_str_t) (kind : ngx_log_zmq_server_kind)
    (u : ngx_url_t) (peer_addr : ngx_addr_t)
    (hcmd : cf.cmd_type = NGX_HTTP_MAIN_CONF) (hmain : cf.main_conf = some bkmc)
    (hwf : conf_wf bkmc llcf)
    (h1 : cf.args[1]? = some value1) (h2 : cf.args[2]? = some value2)
    (h3 : cf.args[3]? = some value3) (h4 : cf.args[4]? = some value4)
    (h5 : cf.args[5]? = some value5)
    (hnew : ¬server_declared bkmc value1)
    (hkind : set_server_kind value3 = some kind)
    (hio : ¬(env.ngx_atoi value4 = NGX_ERROR ∨ env.ngx_atoi value4 ≤ 0))
    (hurl : set_server_url env kind value2 = some (some (u, peer_addr))) :
    ∃ bk1 llcf1, ngx_http_log_zmq_set_server env cf llcf =
      some (ngx_conf_rc.NGX_CONF_OK, bk1, llcf1) := by
  obtain ⟨bk, lecf, d0, llcf2, lelcf, hcreate, hlook, hloc⟩ :=
    directive_first_steps bkmc llcf value1 hwf
  have hsset : d0.sset ≠ 1 :=
    fun hs => hnew (server_declared_of_create bkmc bk value1 lecf d0 hcreate hlook hs)
  obtain ⟨_, hrest⟩ := set_server_tail env cf llcf bkmc bk _ _ _ _ _ lecf d0 llcf2 lelcf
    hcmd hmain h1 h2 h3 h4 h5 hcreate hlook hsset hloc
  exact ⟨_, _, ((hrest kind hkind).2 hio).2 u peer_addr hurl⟩

/-- C16 (what the code does): a declare-server directive that is otherwise in order
succeeds whatever its queue-length word parses to, `NGX_ERROR` and negative values included,
and stores the parsed value; a call of `zmq_create_socket` that reaches the socket options
applies one send high-water mark, which is 100 when the stored queue length is negative and
the stored queue length itself when that lies between 0 and 2^31 - 1 (between 0 and
2^64 - 1 with libzmq 2); with libzmq 3 or later a larger queue length is applied reduced to a
C `int`. -/
theorem zmq_create_socket_queue_length (env : ngx_conf_env) (cf : ngx_conf_t)
    (llcf : ngx_http_log_zmq_loc_conf_t) (bkmc : ngx_http_log_zmq_main_conf_t)
    (value1 value2 value3 value4 value5 : ngx_str_t) (kind : ngx_log_zmq_server_kind)
    (u : ngx_url_t) (peer_addr : ngx_addr_t)
    (hcmd : cf.cmd_type = NGX_HTTP_MAIN_CONF) (hmain : cf.main_conf = some bkmc)
    (hwf : conf_wf bkmc llcf)
    (h1 : cf.args[1]? = some value1) (h2 : cf.args[2]? = some value2)
    (h3 : cf.args[3]? = some value3) (h4 : cf.args[4]? = some value4)
    (h5 : cf.args[5]? = some value5)
    (hnew : ¬server_declared bkmc value1)
    (hkind : set_server_kind value3 = some kind)
    (hio : ¬(env.ngx_atoi value4 = NGX_ERROR ∨ env.ngx_atoi value4 ≤ 0))
    (hurl : set_server_url env kind value2 = some (some (u, peer_addr))) :
    (∃ b llcf1 defs1 i d,
      ngx_http_log_zmq_set_server env cf llcf =
        some (ngx_conf_rc.NGX_CONF_OK, some b, llcf1) ∧
      b.logs = some defs1 ∧ find_definition value1 defs1 0 = some (some i) ∧
      defs1[i]? = some d ∧ d.sset = 1 ∧ d.qlen = env.ngx_atoi value5) ∧
    ∀ (renv : ngx_env) (calls : List ext_call) (d : ngx_http_log_zmq_element_conf_t)
      (ctx : ngx_http_log_zmq_ctx_t),
      d.ctx = some ctx → ctx.zmq_context ≠ none →
      (ctx.screated = 0 → (renv.reply calls.length).ptr ≠ none) → d.server ≠ none →
      ∃ res hwm, zmq_create_socket renv calls d = some res ∧
        hwm_applied res.2.2 = hwm_applied calls ++ [hwm] ∧
        (d.qlen < 0 → hwm = 100) ∧
        (0 ≤ d.qlen → d.qlen < 2 ^ 31 → hwm = d.qlen) ∧
        (renv.ZMQ_VERSION_MAJOR < 3 → 0 ≤ d.qlen → d.qlen < 2 ^ 64 → hwm = d.qlen) ∧
        (3 ≤ renv.ZMQ_VERSION_MAJOR → 0 ≤ d.qlen → hwm = to_int d.qlen) := by
  constructor
  · obtain ⟨bk1, llcf1, hok⟩ := set_server_succeeds env cf llcf bkmc value1 value2 value3
      value4 value5 kind u peer_addr hcmd hmain hwf h1 h2 h3 h4 h5 hnew hkind hio hurl
    obtain ⟨b, defs1, i, d, v1, v2, v3, v4, v5, kind1, u1, pa1, hb, hdefs, hv1, _, _, _, hv5,
      hfind, hd, _, _, _, _, _, hq, hsset, _⟩ := set_server_ok_target env cf llcf llcf1 bk1 hok
    rw [h1] at hv1
    rw [h5] at hv5
    cases hv1
    cases hv5
    subst hb
    exact ⟨b, llcf1, defs1, i, d, hok, hdefs, hfind, hd, hsset, hq⟩
  · intro renv calls d ctx hctx hcontext hsock hserver
    obtain ⟨res, hres, hhwm⟩ := zmq_create_socket_hwm renv calls d ctx hctx hcontext hsock hserver
    exact ⟨res, zmq_hwm renv d.qlen, hres, hhwm, zmq_hwm_spec renv d.qlen⟩

/-- C16 (the claim fails): the directive `log_zmq_server T 127.0.0.1:5555 tcp 1 4294967296`
succeeds and stores the queue length 2^32, and `zmq_create_socket` on a definition with that
queue length, compiled against libzmq 4, applies the send high-water mark 0. -/
theorem zmq_create_socket_queue_length_wraps :
    (ngx_http_log_zmq_set_server example_conf_env example_wide_queue_cf example_location).map
        (fun res => (res.1, res.2.1.map fun bk => (bk.logs.getD []).map fun d => d.qlen)) =
      some (ngx_conf_rc.NGX_CONF_OK, some [4294967296]) ∧
    example_wide_queue.qlen = 4294967296 ∧
    (zmq_create_socket example_env [] example_wide_queue).map
        (fun res => (res.1, hwm_applied res.2.2)) = some (0, [0]) := by
  decide

/-! ## The connection string -/

/-- The buffer `ngx_http_log_zmq_set_server` builds is the scheme token of the kind followed
by the url. -/
theorem build_connection_eq (kind : ngx_log_zmq_server_kind) (url : ngx_str_t) :
    build_connection kind url = zmq_handler kind ++ url := by
  have key : ∀ (h : ngx_str_t) (n : Nat), h.length = n →
      (ngx_memcpy (ngx_memcpy (List.replicate (url.length + n + 1) (0 : u_char)) 0 h n) n url
        url.length).take (url.length + n) = h ++ url := by
    intro h n hn
    subst hn
    have h1 : ngx_memcpy (List.replicate (url.length + h.length + 1) (0 : u_char)) 0 h h.length =
        h ++ List.replicate (url.length + 1) 0 := by
      have hsub : url.length + h.length + 1 - h.length = url.length + 1 := by omega
      simp [ngx_memcpy, hsub]
    rw [h1]
    have h2 : ngx_memcpy (h ++ List.replicate (url.length + 1) 0) h.length url url.length =
        (h ++ url) ++ [0] := by
      simp [ngx_memcpy, List.drop_append, List.replicate_succ']
    rw [h2, Nat.add_comm, ← List.length_append]
    exact List.take_left' rfl
  cases kind
  · exact key ZMQ_TCP_HANDLER ZMQ_TCP_HLEN (by decide)
  · exact key ZMQ_IPC_HANDLER ZMQ_IPC_HLEN (by decide)
  · exact key ZMQ_INPROC_HANDLER ZMQ_INPROC_HLEN (by decide)

/-- The url step of a successful `ngx_http_log_zmq_set_server`: for `TCP` the url went
through `ngx_parse_url` with the default port 5555, for the other kinds it is the word of
the directive. -/
theorem set_server_url_ok (env : ngx_conf_env) (kind : ngx_log_zmq_server_kind)
    (value2 : ngx_str_t) (u : ngx_url_t) (peer_addr : ngx_addr_t)
    (h : set_server_url env kind value2 = some (some (u, peer_addr))) :
    (kind = ngx_log_zmq_server_kind.TCP →
      env.ngx_parse_url { url := value2, default_port := 5555, no_resolve := 0, listen := 1,
                          addrs := [] } = (NGX_OK, u) ∧ u.addrs.head? = some peer_addr) ∧
    (kind ≠ ngx_log_zmq_server_kind.TCP → u.url = value2) := by
  unfold set_server_url at h
  by_cases hk : kind = ngx_log_zmq_server_kind.TCP
  · subst hk
    simp only [if_true, __get_default_port] at h
    split_ifs at h with hrc
    · cases h
    split at h
    · cases h
    · rename_i addr haddr
      simp only [Option.some.injEq, Prod.mk.injEq] at h
      obtain ⟨h1, h2⟩ := h
      refine ⟨fun _ => ⟨?_, ?_⟩, fun hne => absurd rfl hne⟩
      · rw [← h1]
        exact Prod.ext (by simpa using hrc) rfl
      · rw [← h1, ← h2]
        exact haddr
  · simp only [hk, if_false, Option.some.injEq, Prod.mk.injEq] at h
    refine ⟨fun hk1 => absurd hk1 hk, fun _ => ?_⟩
    rw [← h.1]

/-- C17 (what the code does): after a successful `ngx_http_log_zmq_set_server` the
connection string of the target is the scheme token of its kind (6, 6 or 9 bytes) followed by
the url and nothing else, its length being the token length plus the url length. The url is
the word of the directive for `IPC` and `INPROC`, and for `TCP` the `url` field as
`ngx_parse_url`, which was handed the default port 5555, leaves it: when `ngx_parse_url`
leaves that field as it was given, the connection string is the token followed by the
address as written, no port being added. -/
theorem ngx_http_log_zmq_set_server_connection (env : ngx_conf_env) (cf : ngx_conf_t)
    (llcf llcf1 : ngx_http_log_zmq_loc_conf_t) (bk1 : Option ngx_http_log_zmq_main_conf_t)
    (h : ngx_http_log_zmq_set_server env cf llcf = some (ngx_conf_rc.NGX_CONF_OK, bk1, llcf1)) :
    ∃ b defs1 i d s value1 value2 u,
      bk1 = some b ∧ b.logs = some defs1 ∧
      cf.args[1]? = some value1 ∧ cf.args[2]? = some value2 ∧
      find_definition value1 defs1 0 = some (some i) ∧ defs1[i]? = some d ∧
      d.server = some s ∧
      s.connection = zmq_handler s.kind ++ u.url ∧
      s.connection.length = zmq_hdlen s.kind + u.url.length ∧
      (zmq_hdlen ngx_log_zmq_server_kind.TCP = 6 ∧ zmq_hdlen ngx_log_zmq_server_kind.IPC = 6 ∧
        zmq_hdlen ngx_log_zmq_server_kind.INPROC = 9) ∧
      (s.kind = ngx_log_zmq_server_kind.TCP →
        env.ngx_parse_url { url := value2, default_port := 5555, no_resolve := 0, listen := 1,
                            addrs := [] } = (NGX_OK, u)) ∧
      (s.kind ≠ ngx_log_zmq_server_kind.TCP → u.url = value2) ∧
      ((env.ngx_parse_url { url := value2, default_port := 5555, no_resolve := 0, listen := 1,
                            addrs := [] }).2.url = value2 →
        s.connection = zmq_handler s.kind ++ value2) := by
  obtain ⟨b, defs1, i, d, value1, value2, value3, value4, value5, kind, u, peer_addr, hb, hdefs,
    h1, h2, _, _, _, hfind, hd, _, _, hurl, hsrv, _, _, _, _⟩ :=
    set_server_ok_target env cf llcf llcf1 bk1 h
  obtain ⟨htcp, hother⟩ := set_server_url_ok env kind value2 u peer_addr hurl
  have hlenk : (zmq_handler kind).length = zmq_hdlen kind := by cases kind <;> rfl
  refine ⟨b, defs1, i, d, _, value1, value2, u, hb, hdefs, h1, h2, hfind, hd, hsrv,
    build_connection_eq kind u.url, ?_, ⟨rfl, rfl, rfl⟩, fun hk => (htcp hk).1, hother, ?_⟩
  · show (build_connection kind u.url).length = zmq_hdlen kind + u.url.length
    rw [build_connection_eq, List.length_append, hlenk]
  · intro hkeep
    show build_connection kind u.url = zmq_handler kind ++ value2
    rw [build_connection_eq]
    by_cases hk : kind = ngx_log_zmq_server_kind.TCP
    · have hu := (htcp hk).1
      rw [hu] at hkeep
      rw [show u.url = value2 from hkeep]
    · rw [hother hk]

/-- C17 (the claim fails): for the directive `log_zmq_server T 127.0.0.1 tcp 1 1000`, with
an `ngx_parse_url` that resolves the address to port 5555, the call succeeds, the resolved
peer address is `127.0.0.1:5555`, and the connection string is `tcp://127.0.0.1`: it does
not carry the default port. -/
theorem ngx_http_log_zmq_set_server_connection_portless :
    (ngx_http_log_zmq_set_server example_resolving_env example_portless_cf
        example_location).map (fun res => res.1) = some ngx_conf_rc.NGX_CONF_OK ∧
    (ngx_http_log_zmq_set_server example_resolving_env example_portless_cf
        example_location).map
      (fun res => res.2.1.map fun bk => (bk.logs.getD []).map fun d =>
        d.server.map fun s => s.peer_addr.name) =
      some (some [some (ngx_string "127.0.0.1:5555")]) ∧
    (ngx_http_log_zmq_set_server example_resolving_env example_portless_cf
        example_location).map
      (fun res => res.2.1.map fun bk => (bk.logs.getD []).map fun d =>
        d.server.map fun s => s.connection) =
      some (some [some (ngx_string "tcp://127.0.0.1")]) := by
  decide

/-! ## The protocol word -/

/-- C14 (what the code does): `ngx_http_log_zmq_set_server` compares the C string of its
protocol word, the word itself when it holds no NUL byte, with `tcp`, `ipc` and `inproc`.
When the C string is none of the three the call returns `NGX_CONF_ERROR`. When it is one of
the three, the directive being otherwise in order (met at the `http` level, for a name
whose server is not declared, with a positive thread count and a url that the kind
accepts), the call returns `NGX_CONF_OK` and the definition that the lookup of the name
finds holds a server of the kind `TCP`, `IPC` or `INPROC` respectively; and whenever the
call succeeds the definition it has written holds the kind the C string names. In every
reachable main configuration a definition whose server flag is set has a server, of one of
the three kinds, whose connection string starts with the scheme token of that kind. -/
theorem ngx_http_log_zmq_set_server_kind_checked (env : ngx_conf_env) (cf : ngx_conf_t)
    (llcf : ngx_http_log_zmq_loc_conf_t) (bkmc : ngx_http_log_zmq_main_conf_t)
    (value3 : ngx_str_t)
    (hmain : cf.main_conf = some bkmc) (hwf : conf_wf bkmc llcf) (hlen : 6 ≤ cf.args.length)
    (h3 : cf.args[3]? = some value3) :
    (c_str value3 ≠ ngx_string "tcp" → c_str value3 ≠ ngx_string "ipc" →
      c_str value3 ≠ ngx_string "inproc" →
      ∃ bk1 llcf1, ngx_http_log_zmq_set_server env cf llcf =
        some (ngx_conf_rc.NGX_CONF_ERROR, bk1, llcf1)) ∧
    (∀ (kind : ngx_log_zmq_server_kind) (value1 value2 value4 value5 : ngx_str_t)
        (u : ngx_url_t) (peer_addr : ngx_addr_t),
      ((c_str value3 = ngx_string "tcp" ∧ kind = ngx_log_zmq_server_kind.TCP) ∨
       (c_str value3 = ngx_string "ipc" ∧ kind = ngx_log_zmq_server_kind.IPC) ∨
       (c_str value3 = ngx_string "inproc" ∧ kind = ngx_log_zmq_server_kind.INPROC)) →
      cf.cmd_type = NGX_HTTP_MAIN_CONF →
      cf.args[1]? = some value1 → cf.args[2]? = some value2 →
      cf.args[4]? = some value4 → cf.args[5]? = some value5 →
      ¬server_declared bkmc value1 →
      ¬(env.ngx_atoi value4 = NGX_ERROR ∨ env.ngx_atoi value4 ≤ 0) →
      set_server_url env kind value2 = some (some (u, peer_addr)) →
      ∃ b llcf1 defs1 i d s,
        ngx_http_log_zmq_set_server env cf llcf =
          some (ngx_conf_rc.NGX_CONF_OK, some b, llcf1) ∧
        b.logs = some defs1 ∧ find_definition value1 defs1 0 = some (some i) ∧
        defs1[i]? = some d ∧ d.sset = 1 ∧ d.server = some s ∧ s.kind = kind) ∧
    (∀ bk1 llcf1, ngx_http_log_zmq_set_server env cf llcf =
        some (ngx_conf_rc.NGX_CONF_OK, bk1, llcf1) →
      ∃ b defs1 i d s value1, bk1 = some b ∧ b.logs = some defs1 ∧
        cf.args[1]? = some value1 ∧ find_definition value1 defs1 0 = some (some i) ∧
        defs1[i]? = some d ∧ d.sset = 1 ∧ d.server = some s ∧
        ((c_str value3 = ngx_string "tcp" ∧ s.kind = ngx_log_zmq_server_kind.TCP) ∨
         (c_str value3 = ngx_string "ipc" ∧ s.kind = ngx_log_zmq_server_kind.IPC) ∨
         (c_str value3 = ngx_string "inproc" ∧ s.kind = ngx_log_zmq_server_kind.INPROC))) ∧
    ((∀ c ∈ value3, c ≠ 0) → c_str value3 = value3) ∧
    ∀ bk, conf_reachable bk → ∀ d ∈ bk.logs.getD [], d.sset = 1 →
      ∃ s url, d.server = some s ∧ s.connection = zmq_handler s.kind ++ url ∧
        (s.kind = ngx_log_zmq_server_kind.TCP ∨ s.kind = ngx_log_zmq_server_kind.IPC ∨
          s.kind = ngx_log_zmq_server_kind.INPROC) := by
  refine ⟨?_, ?_, ?_, c_str_of_no_nul value3, ?_⟩
  · intro ht hi hp
    apply set_server_error_of env cf llcf bkmc hmain hwf hlen
    intro v3 v4 hv3 _
    rw [h3] at hv3
    cases hv3
    left
    rw [set_server_kind_spec]
    simp only [ht, hi, hp, if_false]
  · intro kind value1 value2 value4 value5 u peer_addr hword hcmd h1 h2 h4 h5 hnew hio hurl
    have hkind : set_server_kind value3 = some kind := by
      rw [set_server_kind_spec]
      rcases hword with ⟨h, hk⟩ | ⟨h, hk⟩ | ⟨h, hk⟩ <;> rw [h, hk] <;> decide
    obtain ⟨bk1, llcf1, hok⟩ := set_server_succeeds env cf llcf bkmc value1 value2 value3
      value4 value5 kind u peer_addr hcmd hmain hwf h1 h2 h3 h4 h5 hnew hkind hio hurl
    obtain ⟨b, defs1, i, d, v1, v2, v3, v4, v5, kind1, u1, pa1, hb, hdefs, hv1, _, hv3, _, _,
      hfind, hd, hkind1, _, _, hsrv, _, _, hsset, _⟩ :=
      set_server_ok_target env cf llcf llcf1 bk1 hok
    rw [h1] at hv1
    rw [h3] at hv3
    cases hv1
    cases hv3
    rw [hkind] at hkind1
    cases hkind1
    subst hb
    exact ⟨b, llcf1, defs1, i, d, _, hok, hdefs, hfind, hd, hsset, hsrv, rfl⟩
  · intro bk1 llcf1 hok
    obtain ⟨b, defs1, i, d, value1, value2, v3, value4, value5, kind, u, peer_addr, hb, hdefs,
      h1, _, hv3, _, _, hfind, hd, hkind, _, _, hsrv, _, _, hsset, _⟩ :=
      set_server_ok_target env cf llcf llcf1 bk1 hok
    rw [h3] at hv3
    cases hv3
    refine ⟨b, defs1, i, d, _, value1, hb, hdefs, h1, hfind, hd, hsset, hsrv, ?_⟩
    rw [set_server_kind_spec] at hkind
    split_ifs at hkind with ht hi hp
    · cases hkind
      exact Or.inl ⟨ht, rfl⟩
    · cases hkind
      exact Or.inr (Or.inl ⟨hi, rfl⟩)
    · cases hkind
      exact Or.inr (Or.inr ⟨hp, rfl⟩)
  · intro bk hreach d hd
    refine registry_invariant
      (fun d => d.sset = 1 → ∃ s url, d.server = some s ∧
        s.connection = zmq_handler s.kind ++ url ∧
        (s.kind = ngx_log_zmq_server_kind.TCP ∨ s.kind = ngx_log_zmq_server_kind.IPC ∨
          s.kind = ngx_log_zmq_server_kind.INPROC)) ?_ ?_ ?_ ?_ bk hreach d hd
    · intro h
      cases h
    · intro env1 v1 v2 v3 v4 v5 kind u pa cl d _ _ _ _ _
      refine ⟨_, u.url, rfl, build_connection_eq kind u.url, ?_⟩
      cases kind <;> simp
    · intro lengths values d hP hs
      exact hP hs
    · intro lengths values d hP hs
      exact hP hs

/-- C14 (the claim fails): the protocol word of five bytes `tcp`, NUL, `x` is none of the
strings `tcp`, `ipc` and `inproc`, and the directive
`log_zmq_server T 127.0.0.1:5555 W 1 1000` with that word `W` succeeds and declares the
server of `T` with the kind `TCP`, as the directive with the word `tcp` does. -/
theorem ngx_http_log_zmq_set_server_kind_nul :
    example_nul_kind_cf.args[3]? = some example_nul_kind ∧
    example_nul_kind ≠ ngx_string "tcp" ∧ example_nul_kind ≠ ngx_string "ipc" ∧
    example_nul_kind ≠ ngx_string "inproc" ∧
    ngx_http_log_zmq_set_server example_conf_env example_nul_kind_cf example_location =
      some (ngx_conf_rc.NGX_CONF_OK, some example_server_main_conf, example_scope) ∧
    (example_server_main_conf.logs.getD []).map (fun d => d.server.map fun s => s.kind) =
      [some ngx_log_zmq_server_kind.TCP] := by
  refine ⟨by decide, by decide, by decide, by decide, by decide, by decide⟩

/-- When `ngx_http_log_zmq_create_definition` returns a definition whose format flag is set,
the format of the name was declared. -/
theorem format_declared_of_create (bkmc bk : ngx_http_log_zmq_main_conf_t) (name : ngx_str_t)
    (lecf : Nat) (d0 : ngx_http_log_zmq_element_conf_t)
    (hcreate : ngx_http_log_zmq_create_definition bkmc name = some (bk, lecf))
    (hlook : (bk.logs.bind fun logs => logs[lecf]?) = some d0) (hfset : d0.fset = 1) :
    format_declared bkmc name := by
  unfold ngx_http_log_zmq_create_definition at hcreate
  cases hl : bkmc.logs with
  | none =>
    simp only [hl, Option.some.injEq, Prod.mk.injEq] at hcreate
    obtain ⟨h1, h2⟩ := hcreate
    subst h1 h2
    simp only [Option.some_bind, List.getElem?_cons_zero, Option.some.injEq] at hlook
    subst hlook
    cases hfset
  | some logs =>
    simp only [hl] at hcreate
    split at hcreate
    · cases hcreate
    · rename_i i hfind
      simp only [Option.some.injEq, Prod.mk.injEq] at hcreate
      obtain ⟨h1, h2⟩ := hcreate
      subst h1 h2
      rw [hl] at hlook
      exact ⟨logs, i, d0, hl, hfind, hlook, hfset⟩
    · simp only [Option.some.injEq, Prod.mk.injEq] at hcreate
      obtain ⟨h1, h2⟩ := hcreate
      subst h1 h2
      simp only [Option.some_bind, List.getElem?_concat_length, Option.some.injEq] at hlook
      subst hlook
      cases hfset

/-- In a well-formed configuration a declare-format directive met at the `http` level for a
name whose format is not declared returns: `NGX_CONF_OK`, with the template compiled from
the parts one behind the other written into the definition that the lookup of the name
returns, when that source compiles, and `NGX_CONF_ERROR` when it does not. -/
theorem set_format_runs (env : ngx_conf_env) (cf : ngx_conf_t)
    (llcf : ngx_http_log_zmq_loc_conf_t) (bkmc : ngx_http_log_zmq_main_conf_t)
    (value1 : ngx_str_t)
    (hcmd : cf.cmd_type = NGX_HTTP_MAIN_CONF) (hmain : cf.main_conf = some bkmc)
    (hwf : conf_wf bkmc llcf) (h1 : cf.args[1]? = some value1)
    (hnew : ¬format_declared bkmc value1) :
    ∃ bk lecf d0 llcf1,
      ngx_http_log_zmq_create_definition bkmc value1 = some (bk, lecf) ∧
      (bk.logs.bind fun logs => logs[lecf]?) = some d0 ∧
      (env.ngx_http_script_compile (cf.args.drop 2).flatten = none →
        ∃ bk1 llcf2, ngx_http_log_zmq_set_format env cf llcf =
          some (ngx_conf_rc.NGX_CONF_ERROR, bk1, llcf2)) ∧
      ∀ lengths values,
        env.ngx_http_script_compile (cf.args.drop 2).flatten = some (lengths, values) →
        ngx_http_log_zmq_set_format env cf llcf =
          some (ngx_conf_rc.NGX_CONF_OK,
            some (update_definition bk lecf (set_format_fields lengths values)), llcf1) := by
  obtain ⟨bk, lecf, d0, llcf2, lelcf, hcreate, hlook, hloc⟩ :=
    directive_first_steps bkmc llcf value1 hwf
  have hfset : d0.fset ≠ 1 :=
    fun hs => hnew (format_declared_of_create bkmc bk value1 lecf d0 hcreate hlook hs)
  obtain ⟨hfail, hok⟩ := set_format_tail env cf llcf bkmc bk value1 lecf d0 llcf2 lelcf
    hcmd hmain h1 hcreate hlook hfset hloc
  exact ⟨bk, lecf, d0, _, hcreate, hlook, hfail, hok⟩

/-! ## The format source -/

/-- C18: the template source `ngx_http_log_zmq_set_format` hands to
`ngx_http_script_compile` is the parts of the directive (the words from `value[2]` on) one
behind the other in argument order, without separator, of a length that is the sum of the
part lengths. That is what the two loops of the function build. A directive met at the
`http` level of a well-formed configuration, for a name whose format is not declared,
returns `NGX_CONF_OK` when `ngx_http_script_compile` compiles exactly that source, and then
the definition that the lookup of the name returns holds the template compiled from it; it
returns `NGX_CONF_ERROR` when that source does not compile. Whenever the call succeeds the
template it has written is the one compiled from that source, and when that source does not
compile the call does not succeed. -/
theorem ngx_http_log_zmq_set_format_source (env : ngx_conf_env) (cf : ngx_conf_t)
    (llcf : ngx_http_log_zmq_loc_conf_t) :
    ((((cf.args.drop 2).foldl
        (fun (acc : List u_char × Nat) value =>
          (ngx_memcpy acc.1 acc.2 value value.length, acc.2 + value.length))
        (List.replicate (((cf.args.drop 2).map List.length).sum + 1) (0 : u_char), 0)).1).take
          ((cf.args.drop 2).map List.length).sum = (cf.args.drop 2).flatten) ∧
    (cf.args.drop 2).flatten.length = ((cf.args.drop 2).map List.length).sum ∧
    (∀ bk1 llcf1, ngx_http_log_zmq_set_format env cf llcf =
        some (ngx_conf_rc.NGX_CONF_OK, bk1, llcf1) →
      ∃ (lengths values : List u_char) (b : ngx_http_log_zmq_main_conf_t)
        (defs1 : List ngx_http_log_zmq_element_conf_t) (lecf : Nat)
        (d : ngx_http_log_zmq_element_conf_t),
        env.ngx_http_script_compile (cf.args.drop 2).flatten = some (lengths, values) ∧
        bk1 = some b ∧ b.logs = some defs1 ∧ defs1[lecf]? = some d ∧
        d.data_lengths = some lengths ∧ d.data_values = some values ∧ d.fset = 1) ∧
    (env.ngx_http_script_compile (cf.args.drop 2).flatten = none →
      ∀ bk1 llcf1, ngx_http_log_zmq_set_format env cf llcf ≠
        some (ngx_conf_rc.NGX_CONF_OK, bk1, llcf1)) ∧
    (∀ (bkmc : ngx_http_log_zmq_main_conf_t) (value1 : ngx_str_t),
      cf.cmd_type = NGX_HTTP_MAIN_CONF → cf.main_conf = some bkmc → conf_wf bkmc llcf →
      cf.args[1]? = some value1 → ¬format_declared bkmc value1 →
      (∀ lengths values,
        env.ngx_http_script_compile (cf.args.drop 2).flatten = some (lengths, values) →
        ∃ bk b llcf1 defs1 lecf d,
          ngx_http_log_zmq_create_definition bkmc value1 = some (bk, lecf) ∧
          ngx_http_log_zmq_set_format env cf llcf =
            some (ngx_conf_rc.NGX_CONF_OK, some b, llcf1) ∧
          b.logs = some defs1 ∧ defs1[lecf]? = some d ∧
          d.data_lengths = some lengths ∧ d.data_values = some values ∧ d.fset = 1) ∧
      (env.ngx_http_script_compile (cf.args.drop 2).flatten = none →
        ∃ bk1 llcf1, ngx_http_log_zmq_set_format env cf llcf =
          some (ngx_conf_rc.NGX_CONF_ERROR, bk1, llcf1))) := by
  refine ⟨log_format_source _, by simp [List.length_flatten], ?_, ?_, ?_⟩
  · intro bk1 llcf1 hok
    obtain ⟨bkmc, value1, bk, lecf, d0, llcf2, lelcf, lengths, values, _, _, _, hcreate, hlook,
      _, _, hc, hbk, _⟩ := set_format_ok_steps env cf llcf llcf1 bk1 hok
    cases hl : bk.logs with
    | none => simp [hl] at hlook
    | some defs =>
      have hd : defs[lecf]? = some d0 := by simpa [hl] using hlook
      refine ⟨lengths, values, _, defs.modify (set_format_fields lengths values) lecf, lecf,
        set_format_fields lengths values d0, hc, hbk, by simp [update_definition, hl], ?_, rfl,
        rfl, rfl⟩
      rw [List.getElem?_modify_eq, hd]
      rfl
  · intro hnone bk1 llcf1 hok
    obtain ⟨bkmc, value1, bk, lecf, d0, llcf2, lelcf, lengths, values, _, _, _, _, _, _, _, hc,
      _, _⟩ := set_format_ok_steps env cf llcf llcf1 bk1 hok
    rw [hnone] at hc
    cases hc
  · intro bkmc value1 hcmd hmain hwf h1 hnew
    obtain ⟨bk, lecf, d0, llcf1, hcreate, hlook, hfail, hrun⟩ :=
      set_format_runs env cf llcf bkmc value1 hcmd hmain hwf h1 hnew
    refine ⟨?_, hfail⟩
    intro lengths values hc
    cases hl : bk.logs with
    | none => simp [hl] at hlook
    | some defs =>
      have hd : defs[lecf]? = some d0 := by simpa [hl] using hlook
      refine ⟨bk, _, llcf1, defs.modify (set_format_fields lengths values) lecf, lecf,
        set_format_fields lengths values d0, hcreate, hrun lengths values hc,
        by simp [update_definition, hl], ?_, rfl, rfl, rfl⟩
      rw [List.getElem?_modify_eq, hd]
      rfl

/-! ## Declaring a format or an endpoint twice -/

/-- C13 (the code fails): the directive `log_zmq_format A x`, met first, succeeds and leaves
a definition without a name; a later `ngx_http_log_zmq_create_definition` for `A` then
dereferences that `NULL` name in its search loop instead of returning the definition, and so
does the directive `log_zmq_server A 127.0.0.1:5555 tcp 1 1000`. -/
theorem ngx_http_log_zmq_create_definition_format_first :
    (ngx_http_log_zmq_set_format example_conf_env example_format_first_cf
        example_location).map (fun res => res.1) = some ngx_conf_rc.NGX_CONF_OK ∧
    (ngx_http_log_zmq_set_format example_conf_env example_format_first_cf
        example_location).map
      (fun res => res.2.1.map fun bk => (bk.logs.getD []).map fun d => d.name) =
      some (some [none]) ∧
    ((ngx_http_log_zmq_set_format example_conf_env example_format_first_cf
        example_location).bind
      fun res => res.2.1.bind fun bk =>
        ngx_http_log_zmq_create_definition bk (ngx_string "A")) = none ∧
    ((ngx_http_log_zmq_set_format example_conf_env example_format_first_cf
        example_location).bind
      fun res => res.2.1.bind fun bk =>
        ngx_http_log_zmq_set_server example_conf_env
          (example_http_cf ["log_zmq_server", "A", "127.0.0.1:5555", "tcp", "1", "1000"] bk)
          res.2.2) = none := by
  decide

/-! ## A connected target -/

theorem handler_connect_connected (env : ngx_env) (clecf : ngx_http_log_zmq_element_conf_t)
    (calls : List ext_call) (ctx : ngx_http_log_zmq_ctx_t)
    (hctx : clecf.ctx = some ctx) (hc : ctx.zmq_context ≠ none) (hs : ctx.zmq_socket ≠ none) :
    ngx_http_log_zmq_handler_connect env clecf calls = some (0, clecf, calls) := by
  unfold ngx_http_log_zmq_handler_connect
  simp only [hctx, hc, hs, false_and, if_false, ne_eq, not_true_eq_false]

theorem handler_send_connected (env : ngx_env) (e : Nat)
    (clecf : ngx_http_log_zmq_element_conf_t) (zmq_data : ngx_str_t)
    (defs : List ngx_http_log_zmq_element_conf_t) (calls : List ext_call)
    (ctx : ngx_http_log_zmq_ctx_t)
    (hctx : clecf.ctx = some ctx) (hc : ctx.zmq_context ≠ none) (hs : ctx.zmq_socket ≠ none) :
    ngx_http_log_zmq_handler_send env e clecf zmq_data defs calls =
      some (defs.set e clecf, calls ++ [ext_call.zmq_msg_send ctx.zmq_socket zmq_data]) := by
  unfold ngx_http_log_zmq_handler_send
  simp only [handler_connect_connected env clecf calls ctx hctx hc hs, ne_eq, not_true_eq_false,
    if_false, hctx]

/-- The loop body on a binding of a target whose context and socket handles are there: the
state is left as it was, or one allocation is made, or one allocation is made and one frame
is sent on the socket of the target, the definition being written back with the log of the
request in its connection. -/
theorem handler_element_connected (env : ngx_env) (r : ngx_http_request_t)
    (b : ngx_http_log_zmq_loc_element_conf_t)
    (st st1 : List ngx_http_log_zmq_element_conf_t × List ext_call)
    (e : Nat) (d : ngx_http_log_zmq_element_conf_t) (ctx : ngx_http_log_zmq_ctx_t)
    (hb : b.element = some e) (hd : st.1[e]? = some d) (hctx : d.ctx = some ctx)
    (hc : ctx.zmq_context ≠ none) (hs : ctx.zmq_socket ≠ none)
    (h : ngx_http_log_zmq_handler_element env r b st = some st1) :
    st1 = st ∨ (∃ n, st1 = (st.1, st.2 ++ [ext_call.ngx_palloc n])) ∨
    ∃ n msg, st1 = (st.1.set e { d with ctx := some { ctx with log := r.log } },
      st.2 ++ [ext_call.ngx_palloc n, ext_call.zmq_msg_send ctx.zmq_socket msg]) := by
  have hsame : ∀ s : List ngx_http_log_zmq_element_conf_t × List ext_call, some st = some s →
      s = st ∨ (∃ n, s = (st.1, st.2 ++ [ext_call.ngx_palloc n])) ∨
      ∃ n msg, s = (st.1.set e { d with ctx := some { ctx with log := r.log } },
        st.2 ++ [ext_call.ngx_palloc n, ext_call.zmq_msg_send ctx.zmq_socket msg]) := by
    intro s hs
    cases hs
    exact Or.inl rfl
  have hser : ∀ (t dd : ngx_str_t) (s : List ngx_http_log_zmq_element_conf_t × List ext_call),
      some (st.1, (log_zmq_serialize env st.2 t dd).2.2) = some s →
      s = st ∨ (∃ n, s = (st.1, st.2 ++ [ext_call.ngx_palloc n])) ∨
      ∃ n msg, s = (st.1.set e { d with ctx := some { ctx with log := r.log } },
        st.2 ++ [ext_call.ngx_palloc n, ext_call.zmq_msg_send ctx.zmq_socket msg]) := by
    intro t dd s hs
    cases hs
    exact Or.inr (Or.inl ⟨_, by rw [log_zmq_serialize_calls]⟩)
  have hsend : ∀ (ctx1 : ngx_http_log_zmq_ctx_t) (t dd : ngx_str_t)
      (s : List ngx_http_log_zmq_element_conf_t × List ext_call), d.ctx = some ctx1 →
      ngx_http_log_zmq_handler_send env e { d with ctx := some { ctx1 with log := r.log } }
        (log_zmq_serialize env st.2 t dd).2.1 st.1 (log_zmq_serialize env st.2 t dd).2.2 =
        some s →
      s = st ∨ (∃ n, s = (st.1, st.2 ++ [ext_call.ngx_palloc n])) ∨
      ∃ n msg, s = (st.1.set e { d with ctx := some { ctx with log := r.log } },
        st.2 ++ [ext_call.ngx_palloc n, ext_call.zmq_msg_send ctx.zmq_socket msg]) := by
    intro ctx1 t dd s hctx1 hs1
    rw [hctx] at hctx1
    cases hctx1
    rw [handler_send_connected env e _ _ _ _ { ctx with log := r.log } rfl hc hs,
      log_zmq_serialize_calls] at hs1
    cases hs1
    exact Or.inr (Or.inr ⟨t.length + dd.length, (log_zmq_serialize env st.2 t dd).2.1,
      by simp⟩)
  unfold ngx_http_log_zmq_handler_element at h
  simp only [hb, hd] at h
  repeat' (first | split at h | simp only [] at h)
  all_goals first
    | exact hsame _ h
    | (cases h; done)
    | exact hser _ _ _ h
    | exact hsend _ _ _ _ (by assumption) h

/-- The loop body leaves the definition array as it was or writes one definition back, the
one its binding points at. -/
theorem handler_element_sets (env : ngx_env) (r : ngx_http_request_t)
    (b : ngx_http_log_zmq_loc_element_conf_t)
    (st st1 : List ngx_http_log_zmq_element_conf_t × List ext_call)
    (h : ngx_http_log_zmq_handler_element env r b st = some st1) :
    st1.1 = st.1 ∨ ∃ e x, b.element = some e ∧ st1.1 = st.1.set e x := by
  have hsame : ∀ s : List ngx_http_log_zmq_element_conf_t × List ext_call, some st = some s →
      s.1 = st.1 ∨ ∃ e x, b.element = some e ∧ s.1 = st.1.set e x := by
    intro s hs
    cases hs
    exact Or.inl rfl
  have hser : ∀ (c : List ext_call)
      (s : List ngx_http_log_zmq_element_conf_t × List ext_call), some (st.1, c) = some s →
      s.1 = st.1 ∨ ∃ e x, b.element = some e ∧ s.1 = st.1.set e x := by
    intro c s hs
    cases hs
    exact Or.inl rfl
  have hsend : ∀ (e : Nat) (clecf : ngx_http_log_zmq_element_conf_t) (t : ngx_str_t)
      (c : List ext_call) (s : List ngx_http_log_zmq_element_conf_t × List ext_call),
      b.element = some e →
      ngx_http_log_zmq_handler_send env e clecf t st.1 c = some s →
      s.1 = st.1 ∨ ∃ e x, b.element = some e ∧ s.1 = st.1.set e x := by
    intro e clecf t c s hbe hs1
    unfold ngx_http_log_zmq_handler_send at hs1
    repeat' (first | split at hs1 | simp only [] at hs1)
    all_goals first
      | (cases hs1; done)
      | (simp only [Option.some.injEq] at hs1
         rw [← hs1]
         exact Or.inr ⟨e, _, hbe, rfl⟩)
  unfold ngx_http_log_zmq_handler_element at h
  repeat' (first | split at h | simp only [] at h)
  all_goals first
    | exact hsame _ h
    | (cases h; done)
    | exact hser _ _ h
    | exact hsend _ _ _ _ _ (by assumption) h

theorem connected_handles (d : ngx_http_log_zmq_element_conf_t) (context socket : Nat)
    (h : connected d context socket) :
    ∃ ctx, d.ctx = some ctx ∧ ctx.zmq_context = some context ∧ ctx.zmq_socket = some socket ∧
      ctx.zmq_context ≠ none ∧ ctx.zmq_socket ≠ none ∧
      connected { d with ctx := some { ctx with log := none } } context socket ∧
      ∀ log, connected { d with ctx := some { ctx with log := log } } context socket := by
  obtain ⟨ctx, h1, h2, h3, h4, h5⟩ := h
  exact ⟨ctx, h1, h2, h3, by simp [h2], by simp [h3], ⟨_, rfl, h2, h3, h4, h5⟩,
    fun _ => ⟨_, rfl, h2, h3, h4, h5⟩⟩

/-- The loop body keeps every connected target connected, on the same handles. -/
theorem handler_element_keeps_connected (env : ngx_env) (r : ngx_http_request_t)
    (b : ngx_http_log_zmq_loc_element_conf_t)
    (st st1 : List ngx_http_log_zmq_element_conf_t × List ext_call)
    (h : ngx_http_log_zmq_handler_element env r b st = some st1)
    (e1 : Nat) (d1 : ngx_http_log_zmq_element_conf_t) (context socket : Nat)
    (hd1 : st.1[e1]? = some d1) (hconn : connected d1 context socket) :
    ∃ d2, st1.1[e1]? = some d2 ∧ connected d2 context socket := by
  have hlt : e1 < st.1.length := by
    by_contra hge
    rw [List.getElem?_eq_none (by omega)] at hd1
    cases hd1
  rcases handler_element_sets env r b st st1 h with hs | ⟨e, x, hbe, hs⟩
  · exact ⟨d1, by rw [hs]; exact hd1, hconn⟩
  · by_cases hee : e = e1
    · subst hee
      obtain ⟨ctx, hctx, _, _, hc, hsk, _, hlog⟩ := connected_handles d1 context socket hconn
      rcases handler_element_connected env r b st st1 e d1 ctx hbe hd1 hctx hc hsk h with
        h1 | ⟨n, h1⟩ | ⟨n, msg, h1⟩
      · exact ⟨d1, by rw [h1]; exact hd1, hconn⟩
      · exact ⟨d1, by rw [h1]; exact hd1, hconn⟩
      · refine ⟨_, ?_, hlog r.log⟩
        rw [h1]
        simp only []
        rw [List.getElem?_set_self hlt]
    · refine ⟨d1, ?_, hconn⟩
      rw [hs, List.getElem?_set_ne hee]
      exact hd1

theorem handler_loop_keeps_connected (env : ngx_env) (r : ngx_http_request_t)
    (bs : List ngx_http_log_zmq_loc_element_conf_t)
    (st st1 : List ngx_http_log_zmq_element_conf_t × List ext_call)
    (h : ngx_http_log_zmq_handler_loop env r bs st = some st1)
    (e1 : Nat) (d1 : ngx_http_log_zmq_element_conf_t) (context socket : Nat)
    (hd1 : st.1[e1]? = some d1) (hconn : connected d1 context socket) :
    ∃ d2, st1.1[e1]? = some d2 ∧ connected d2 context socket := by
  induction bs generalizing st d1 with
  | nil =>
    simp only [ngx_http_log_zmq_handler_loop, Option.some.injEq] at h
    subst h
    exact ⟨d1, hd1, hconn⟩
  | cons b rest ih =>
    simp only [ngx_http_log_zmq_handler_loop] at h
    split at h
    · cases h
    · rename_i st2 hst2
      obtain ⟨d2, hd2, hc2⟩ :=
        handler_element_keeps_connected env r b st st2 hst2 e1 d1 context socket hd1 hconn
      exact ih st2 h d2 hd2 hc2

/-- A request keeps every connected target connected, on the same handles. -/
theorem request_step_keeps_connected (defs defs1 : List ngx_http_log_zmq_element_conf_t)
    (hstep : request_step defs defs1)
    (e1 : Nat) (d1 : ngx_http_log_zmq_element_conf_t) (context socket : Nat)
    (hd1 : defs[e1]? = some d1) (hconn : connected d1 context socket) :
    ∃ d2, defs1[e1]? = some d2 ∧ connected d2 context socket := by
  obtain ⟨env, r, lccf, calls, calls1, h⟩ := hstep
  unfold ngx_http_log_zmq_handler at h
  split_ifs at h
  · simp only [Option.some.injEq, Prod.mk.injEq, true_and] at h
    rw [← h.1]
    exact ⟨d1, hd1, hconn⟩
  · split at h
    · cases h
    · split at h
      · cases h
      · rename_i st2 hst2
        simp only [Option.some.injEq, Prod.mk.injEq, true_and] at h
        rw [← h.1]
        exact handler_loop_keeps_connected env r _ (defs, calls) st2 hst2 e1 d1 context socket
          hd1 hconn

theorem requests_keep_connected (defs0 defs : List ngx_http_log_zmq_element_conf_t)
    (hsteps : Relation.ReflTransGen request_step defs0 defs)
    (e1 : Nat) (d0 : ngx_http_log_zmq_element_conf_t) (context socket : Nat)
    (hd0 : defs0[e1]? = some d0) (hconn : connected d0 context socket) :
    ∃ d, defs[e1]? = some d ∧ connected d context socket := by
  induction hsteps with
  | refl => exact ⟨d0, hd0, hconn⟩
  | tail _ hstep ih =>
    obtain ⟨d, hd, hc⟩ := ih
    exact request_step_keeps_connected _ _ hstep e1 d context socket hd hc

/-- The loop over bindings of one connected target makes no connection call and sends
every frame on the socket of the target. -/
theorem handler_loop_connected (env : ngx_env) (r : ngx_http_request_t)
    (bs : List ngx_http_log_zmq_loc_element_conf_t) (e : Nat) (context socket : Nat)
    (hbs : ∀ b ∈ bs, b.element = some e)
    (st st1 : List ngx_http_log_zmq_element_conf_t × List ext_call)
    (d : ngx_http_log_zmq_element_conf_t)
    (hd : st.1[e]? = some d) (hconn : connected d context socket)
    (h : ngx_http_log_zmq_handler_loop env r bs st = some st1) :
    connection_calls st1.2 = connection_calls st.2 ∧
    ∃ ext, sends st1.2 = sends st.2 ++ ext ∧ ∀ x ∈ ext, x.1 = some socket := by
  induction bs generalizing st d with
  | nil =>
    simp only [ngx_http_log_zmq_handler_loop, Option.some.injEq] at h
    subst h
    exact ⟨rfl, [], by simp, by simp⟩
  | cons b rest ih =>
    simp only [ngx_http_log_zmq_handler_loop] at h
    split at h
    · cases h
    · rename_i st2 hst2
      have hb := hbs b (List.mem_cons_self _ _)
      obtain ⟨ctx, hctx, _, hsock, hcn, hsn, _, _⟩ := connected_handles d context socket hconn
      obtain ⟨d2, hd2, hc2⟩ :=
        handler_element_keeps_connected env r b st st2 hst2 e d context socket hd hconn
      obtain ⟨h1, ext, h2, h3⟩ := ih (fun b hb => hbs b (List.mem_cons_of_mem _ hb)) st2 d2 hd2
        hc2 h
      have hstep : connection_calls st2.2 = connection_calls st.2 ∧
          ∃ ext2, sends st2.2 = sends st.2 ++ ext2 ∧ ∀ x ∈ ext2, x.1 = some socket := by
        rcases handler_element_connected env r b st st2 e d ctx hb hd hctx hcn hsn hst2
          with h4 | ⟨n, h4⟩ | ⟨n, msg, h4⟩
        · rw [h4]
          exact ⟨rfl, [], by simp, by simp⟩
        · rw [h4]
          exact ⟨by simp [connection_calls, List.filter_append, is_connection_call], [],
            by simp [sends_append, sends], by simp⟩
        · rw [h4]
          exact ⟨by simp [connection_calls, List.filter_append, is_connection_call],
            [(some socket, msg)], by simp [sends_append, sends, hsock], by simp⟩
      obtain ⟨h5, ext2, h6, h7⟩ := hstep
      refine ⟨h1.trans h5, ext2 ++ ext, by rw [h2, h6, List.append_assoc], ?_⟩
      intro x hx
      simp only [List.mem_append] at hx
      rcases hx with hx | hx
      · exact h7 x hx
      · exact h3 x hx

/-- C20: once the Transport Connection of a target is Connected, on a context handle and a
socket handle, it stays so, on the same handles, through every sequence of later requests;
in every state so reached the loop body of `ngx_http_log_zmq_handler`, on a binding of that
target, makes no context-creation, socket-creation, socket-option or connect call, sends at
most one frame, on that socket handle, leaves the target Connected on the same handles, and
returns when the templates are paired; and a run of the handler on a scope that binds only
that target makes no such call and sends every frame on that socket handle. -/
theorem ngx_http_log_zmq_handler_reuses_connection
    (defs0 defs : List ngx_http_log_zmq_element_conf_t) (e : Nat)
    (d0 : ngx_http_log_zmq_element_conf_t) (context socket : Nat)
    (hd0 : defs0[e]? = some d0) (hconn : connected d0 context socket)
    (hsteps : Relation.ReflTransGen request_step defs0 defs) :
    (∃ d, defs[e]? = some d ∧ connected d context socket) ∧
    (∀ (env : ngx_env) (r : ngx_http_request_t) (b : ngx_http_log_zmq_loc_element_conf_t)
      (calls : List ext_call) (st1 : List ngx_http_log_zmq_element_conf_t × List ext_call),
      b.element = some e →
      ngx_http_log_zmq_handler_element env r b (defs, calls) = some st1 →
      connection_calls st1.2 = connection_calls calls ∧
      (sends st1.2 = sends calls ∨ ∃ msg, sends st1.2 = sends calls ++ [(some socket, msg)]) ∧
      ∃ d1, st1.1[e]? = some d1 ∧ connected d1 context socket) ∧
    (∀ (env : ngx_env) (r : ngx_http_request_t) (b : ngx_http_log_zmq_loc_element_conf_t)
      (calls : List ext_call),
      b.element = some e → (∀ d ∈ defs, templates_paired d) →
      ∃ st1, ngx_http_log_zmq_handler_element env r b (defs, calls) = some st1) ∧
    ∀ (env : ngx_env) (r : ngx_http_request_t) (lccf : ngx_http_log_zmq_loc_conf_t)
      (calls : List ext_call)
      (res : ngx_int_t × List ngx_http_log_zmq_element_conf_t × List ext_call),
      (∀ b ∈ lccf.logs.getD [], b.element = some e) →
      ngx_http_log_zmq_handler env r lccf defs calls = some res →
      connection_calls res.2.2 = connection_calls calls ∧
      ∃ ext, sends res.2.2 = sends calls ++ ext ∧ ∀ x ∈ ext, x.1 = some socket := by
  obtain ⟨d, hd, hc⟩ := requests_keep_connected defs0 defs hsteps e d0 context socket hd0 hconn
  refine ⟨⟨d, hd, hc⟩, ?_, ?_, ?_⟩
  · intro env r b calls st1 hb h
    obtain ⟨ctx, hctx, _, hsock, hcn, hsn, _, _⟩ := connected_handles d context socket hc
    refine ⟨?_, ?_, handler_element_keeps_connected env r b (defs, calls) st1 h e d context
      socket hd hc⟩
    · rcases handler_element_connected env r b (defs, calls) st1 e d ctx hb hd hctx hcn hsn h
        with h1 | ⟨n, h1⟩ | ⟨n, msg, h1⟩ <;> rw [h1] <;>
        simp [connection_calls, List.filter_append, is_connection_call]
    · rcases handler_element_connected env r b (defs, calls) st1 e d ctx hb hd hctx hcn hsn h
        with h1 | ⟨n, h1⟩ | ⟨n, msg, h1⟩
      · rw [h1]
        exact Or.inl rfl
      · rw [h1]
        exact Or.inl (by simp [sends_append, sends])
      · rw [h1]
        exact Or.inr ⟨msg, by simp [sends_append, sends, hsock]⟩
  · intro env r b calls hb hp
    have hlt : e < defs.length := by
      by_contra hge
      rw [List.getElem?_eq_none (by omega)] at hd
      cases hd
    exact handler_element_total env r b (defs, calls)
      (by intro e1 he1; rw [hb] at he1; cases he1; exact hlt) hp
  · intro env r lccf calls res hbs h
    unfold ngx_http_log_zmq_handler at h
    split_ifs at h
    · simp only [Option.some.injEq] at h
      rw [← h]
      exact ⟨rfl, [], by simp, by simp⟩
    · split at h
      · cases h
      · rename_i bs hl
        split at h
        · cases h
        · rename_i st2 hst2
          simp only [Option.some.injEq] at h
          rw [← h]
          exact handler_loop_connected env r bs e context socket
            (by intro b hb; exact hbs b (by rw [hl]; exact hb)) (defs, calls) st2 d hd hc hst2

/-! ## The properties at the example configuration, continued -/

theorem example_bindings_valid (off : ngx_uint_t) :
    bindings_valid [example_definition] [{ off := off, element := some 0 }] := by
  intro b hb
  simp only [List.mem_singleton] at hb
  subst hb
  exact ⟨0, rfl, by decide⟩

theorem example_bindings_distinct (off : ngx_uint_t) :
    bindings_distinct [example_definition] [{ off := off, element := some 0 }] := by
  intro k l n hk hl
  match k, l with
  | 0, 0 => rfl
  | 0, l + 1 => simp at hl
  | k + 1, _ => simp at hk

theorem example_conf_wf :
    conf_wf (ngx_http_log_zmq_create_main_conf (example_cf [])) example_location := by
  refine ⟨[], [], rfl, rfl, ?_, ?_⟩
  · intro d hd
    cases hd
  · intro b hb
    cases hb

theorem example_not_declared :
    ¬server_declared (ngx_http_log_zmq_create_main_conf (example_cf [])) (ngx_string "T") := by
  intro ⟨defs, i, d, hdefs, hfind, _⟩
  cases hdefs
  simp [find_definition] at hfind

theorem ngx_http_log_zmq_merge_keeps_child_witness :
    registry_named [example_definition] ∧
    bindings_valid [example_definition] [{ off := 1, element := some 0 }] ∧
    ∃ conf1 added,
      ngx_http_log_zmq_merge_loc_conf (example_cf []) example_scope example_muted_parent =
        some (ngx_conf_rc.NGX_CONF_OK, conf1) ∧
      conf1.logs = some ([({ off := 1, element := some 0 } :
        ngx_http_log_zmq_loc_element_conf_t)] ++ added) ∧
      ∀ (k : Nat) (b : ngx_http_log_zmq_loc_element_conf_t),
        [({ off := 1, element := some 0 } : ngx_http_log_zmq_loc_element_conf_t)][k]? = some b →
        ([({ off := 1, element := some 0 } : ngx_http_log_zmq_loc_element_conf_t)] ++
          added)[k]? = some b :=
  ⟨example_registry_named, example_bindings_valid 1,
    (ngx_http_log_zmq_merge_keeps_child (example_cf []) example_scope example_muted_parent
      example_main_conf [example_definition] [{ off := 1, element := some 0 }] rfl rfl rfl
      example_registry_named (example_bindings_valid 1)).1⟩

theorem ngx_http_log_zmq_one_binding_per_name_witness :
    registry_named [example_definition] ∧
    bindings_valid [example_definition] [{ off := 1, element := some 0 }] ∧
    bindings_distinct [example_definition] [{ off := 1, element := some 0 }] ∧
    ∃ conf1 logs1,
      ngx_http_log_zmq_merge_loc_conf (example_cf []) example_scope example_muted_parent =
        some (ngx_conf_rc.NGX_CONF_OK, conf1) ∧
      conf1.logs = some logs1 ∧ bindings_distinct [example_definition] logs1 :=
  ⟨example_registry_named, example_bindings_valid 1, example_bindings_distinct 1,
    (ngx_http_log_zmq_one_binding_per_name [example_definition]
      [{ off := 1, element := some 0 }] example_registry_named (example_bindings_valid 1)
      (example_bindings_distinct 1)).2 (example_cf []) example_scope example_muted_parent
      example_main_conf rfl rfl rfl⟩

theorem ngx_http_log_zmq_set_server_kind_checked_witness :
    conf_wf (ngx_http_log_zmq_create_main_conf (example_cf [])) example_location ∧
    6 ≤ example_server_cf.args.length ∧
    c_str (ngx_string "tcp") = ngx_string "tcp" ∧
    (∃ b llcf1 defs1 i d s,
      ngx_http_log_zmq_set_server example_conf_env example_server_cf example_location =
        some (ngx_conf_rc.NGX_CONF_OK, some b, llcf1) ∧
      b.logs = some defs1 ∧ find_definition (ngx_string "T") defs1 0 = some (some i) ∧
      defs1[i]? = some d ∧ d.sset = 1 ∧ d.server = some s ∧
      s.kind = ngx_log_zmq_server_kind.TCP) ∧
    c_str (ngx_string "udp") ≠ ngx_string "tcp" ∧
    ∃ bk1 llcf1, ngx_http_log_zmq_set_server example_conf_env example_unknown_kind_cf
      example_location = some (ngx_conf_rc.NGX_CONF_ERROR, bk1, llcf1) :=
  ⟨example_conf_wf, by decide, by decide,
    (ngx_http_log_zmq_set_server_kind_checked example_conf_env example_server_cf
      example_location (ngx_http_log_zmq_create_main_conf (example_cf [])) (ngx_string "tcp")
      rfl example_conf_wf (by decide) rfl).2.1 ngx_log_zmq_server_kind.TCP
      (ngx_string "T") (ngx_string "127.0.0.1:5555") (ngx_string "1") (ngx_string "1000")
      { url := ngx_string "127.0.0.1:5555", default_port := 5555, no_resolve := 0, listen := 1,
        addrs := [{ sockaddr := [], name := ngx_string "127.0.0.1:5555" }] }
      { sockaddr := [], name := ngx_string "127.0.0.1:5555" }
      (Or.inl ⟨by decide, rfl⟩) rfl rfl rfl rfl rfl example_not_declared (by decide)
      (by decide),
    by decide,
    (ngx_http_log_zmq_set_server_kind_checked example_conf_env example_unknown_kind_cf
      example_location (ngx_http_log_zmq_create_main_conf (example_cf [])) (ngx_string "udp")
      rfl example_conf_wf (by decide) rfl).1 (by decide) (by decide) (by decide)⟩

theorem ngx_http_log_zmq_set_server_iothreads_witness :
    conf_wf (ngx_http_log_zmq_create_main_conf (example_cf [])) example_location ∧
    6 ≤ example_no_threads_cf.args.length ∧
    example_conf_env.ngx_atoi (ngx_string "0") ≤ 0 ∧
    ∃ bk1 llcf1, ngx_http_log_zmq_set_server example_conf_env example_no_threads_cf
      example_location = some (ngx_conf_rc.NGX_CONF_ERROR, bk1, llcf1) :=
  ⟨example_conf_wf, by decide, by decide,
    (ngx_http_log_zmq_set_server_iothreads example_conf_env example_no_threads_cf
      example_location (ngx_http_log_zmq_create_main_conf (example_cf [])) (ngx_string "0")
      rfl example_conf_wf (by decide) rfl).1 (Or.inr (by decide))⟩

theorem zmq_create_socket_queue_length_witness :
    example_conf_env.ngx_atoi (ngx_string "-5") = NGX_ERROR ∧
    ∃ b llcf1 defs1 i d,
      ngx_http_log_zmq_set_server example_conf_env example_negative_queue_cf example_location =
        some (ngx_conf_rc.NGX_CONF_OK, some b, llcf1) ∧
      b.logs = some defs1 ∧ find_definition (ngx_string "T") defs1 0 = some (some i) ∧
      defs1[i]? = some d ∧ d.sset = 1 ∧
      d.qlen = example_conf_env.ngx_atoi (ngx_string "-5") :=
  ⟨by decide,
    (zmq_create_socket_queue_length example_conf_env example_negative_queue_cf example_location
      (ngx_http_log_zmq_create_main_conf (example_cf []))
      (ngx_string "T") (ngx_string "127.0.0.1:5555") (ngx_string "tcp") (ngx_string "1")
      (ngx_string "-5") ngx_log_zmq_server_kind.TCP
      { url := ngx_string "127.0.0.1:5555", default_port := 5555, no_resolve := 0, listen := 1,
        addrs := [{ sockaddr := [], name := ngx_string "127.0.0.1:5555" }] }
      { sockaddr := [], name := ngx_string "127.0.0.1:5555" }
      rfl rfl example_conf_wf rfl rfl rfl rfl rfl example_not_declared (by decide) (by decide)
      (by decide)).1⟩

theorem ngx_http_log_zmq_set_server_connection_witness :
    ngx_http_log_zmq_set_server example_conf_env example_server_cf example_location =
      some (ngx_conf_rc.NGX_CONF_OK, some example_server_main_conf, example_scope) ∧
    ∃ (s : ngx_log_zmq_server_t) (u : ngx_url_t),
      s.connection = zmq_handler s.kind ++ u.url ∧
      s.connection.length = zmq_hdlen s.kind + u.url.length := by
  have h : ngx_http_log_zmq_set_server example_conf_env example_server_cf example_location =
      some (ngx_conf_rc.NGX_CONF_OK, some example_server_main_conf, example_scope) := by decide
  obtain ⟨b, defs1, i, d, s, value1, value2, u, _, _, _, _, _, _, _, h1, h2, _⟩ :=
    ngx_http_log_zmq_set_server_connection example_conf_env example_server_cf example_location
      example_scope (some example_server_main_conf) h
  exact ⟨h, s, u, h1, h2⟩

theorem example_server_conf_wf : conf_wf example_server_main_conf example_scope := by
  refine ⟨_, _, rfl, rfl, ?_, ?_⟩
  · intro d hd
    simp only [List.mem_singleton] at hd
    subst hd
    simp
  · intro b hb
    simp only [List.mem_singleton] at hb
    subst hb
    exact ⟨0, rfl, by decide⟩

theorem example_format_not_declared :
    ¬format_declared example_server_main_conf (ngx_string "T") := by
  intro ⟨defs, i, d, hdefs, hfind, hd, hfset⟩
  cases hdefs
  have hi : find_definition (ngx_string "T")
      (example_server_main_conf.logs.getD []) 0 = some (some 0) := by decide
  simp only [example_server_main_conf, Option.getD_some] at hi
  rw [hi] at hfind
  cases hfind
  simp only [List.getElem?_cons_zero, Option.some.injEq] at hd
  subst hd
  cases hfset

theorem ngx_http_log_zmq_set_format_source_witness :
    (example_two_part_cf.args.drop 2).flatten = ngx_string "abc" ∧
    (example_two_part_cf.args.drop 2).flatten.length =
      ((example_two_part_cf.args.drop 2).map List.length).sum ∧
    conf_wf example_server_main_conf example_scope ∧
    ¬format_declared example_server_main_conf (ngx_string "T") ∧
    example_conf_env.ngx_http_script_compile (example_two_part_cf.args.drop 2).flatten =
      some (ngx_string "abc", ngx_string "abc") ∧
    (∃ bk b llcf1 defs1 lecf d,
      ngx_http_log_zmq_create_definition example_server_main_conf (ngx_string "T") =
        some (bk, lecf) ∧
      ngx_http_log_zmq_set_format example_conf_env example_two_part_cf example_scope =
        some (ngx_conf_rc.NGX_CONF_OK, some b, llcf1) ∧
      b.logs = some defs1 ∧ defs1[lecf]? = some d ∧
      d.data_lengths = some (ngx_string "abc") ∧ d.data_values = some (ngx_string "abc") ∧
      d.fset = 1) ∧
    ngx_http_log_zmq_set_format example_conf_env example_two_part_cf example_scope =
      some (ngx_conf_rc.NGX_CONF_OK,
        some (update_definition example_server_main_conf 0
          (set_format_fields (ngx_string "abc") (ngx_string "abc"))), example_scope) :=
  ⟨by decide,
    (ngx_http_log_zmq_set_format_source example_conf_env example_two_part_cf example_scope).2.1,
    example_server_conf_wf, example_format_not_declared, by decide,
    ((ngx_http_log_zmq_set_format_source example_conf_env example_two_part_cf
      example_scope).2.2.2.2 example_server_main_conf (ngx_string "T") rfl rfl
      example_server_conf_wf rfl example_format_not_declared).1
      (ngx_string "abc") (ngx_string "abc") (by decide),
    by decide⟩

theorem ngx_http_log_zmq_handler_reuses_connection_witness :
    connected example_connected 2 3 ∧
    ngx_http_log_zmq_handler example_env example_request example_scope [example_connected] [] =
      some (NGX_OK, [example_connected],
        [ext_call.ngx_palloc 18,
          ext_call.zmq_msg_send (some 3) (ngx_string "/svc/a.example/200")]) ∧
    connection_calls [ext_call.ngx_palloc 18,
      ext_call.zmq_msg_send (some 3) (ngx_string "/svc/a.example/200")] =
      connection_calls [] :=
  ⟨⟨_, rfl, rfl, rfl, rfl, rfl⟩, by decide,
    ((ngx_http_log_zmq_handler_reuses_connection [example_connected] [example_connected] 0
      example_connected 2 3 rfl ⟨_, rfl, rfl, rfl, rfl, rfl⟩
      Relation.ReflTransGen.refl).2.2.2 example_env example_request example_scope []
      (NGX_OK, [example_connected],
        [ext_call.ngx_palloc 18,
          ext_call.zmq_msg_send (some 3) (ngx_string "/svc/a.example/200")])
      (by
        intro b hb
        simp only [example_scope, Option.getD_some, List.mem_singleton] at hb
        subst hb
        rfl)
      (by decide)).1⟩

/-! ## The order of the socket set-up -/

/-- C24: on a call of `zmq_create_socket` for a target whose context is ready (handle
`context`) and whose socket is not yet created, the transport calls are, in this order,
`zmq_socket(context, ZMQ_PUB)`, the `ZMQ_SNDHWM` option, the `ZMQ_LINGER` option with value
0 and `zmq_connect` to the connection string of the target, the last three on the socket
just created; the first call that fails ends the run with -1 and no later call is made, and
when none fails the run returns 0 after the four calls. -/
theorem zmq_create_socket_order (env : ngx_env) (calls : List ext_call)
    (cf : ngx_http_log_zmq_element_conf_t) (ctx : ngx_http_log_zmq_ctx_t) (context : Nat)
    (hctx : cf.ctx = some ctx) (hcontext : ctx.zmq_context = some context)
    (hscreated : ctx.screated = 0) :
    ((env.reply calls.length).ptr = none →
      zmq_create_socket env calls cf =
        some (-1, { cf with ctx := some { ctx with zmq_socket := none } },
          calls ++ [ext_call.zmq_socket (some context) ZMQ_PUB])) ∧
    ((env.reply calls.length).ptr ≠ none → (env.reply (calls.length + 1)).rc ≠ 0 →
      zmq_create_socket env calls cf =
        some (-1,
          { cf with ctx := some { ctx with zmq_socket := (env.reply calls.length).ptr,
                                           screated := 1 } },
          calls ++ [ext_call.zmq_socket (some context) ZMQ_PUB,
            ext_call.zmq_setsockopt (env.reply calls.length).ptr zmq_sockopt.ZMQ_SNDHWM
              (zmq_hwm env cf.qlen)])) ∧
    ((env.reply calls.length).ptr ≠ none → (env.reply (calls.length + 1)).rc = 0 →
      (env.reply (calls.length + 2)).rc ≠ 0 →
      zmq_create_socket env calls cf =
        some (-1,
          { cf with ctx := some { ctx with zmq_socket := (env.reply calls.length).ptr,
                                           screated := 1 } },
          calls ++ [ext_call.zmq_socket (some context) ZMQ_PUB,
            ext_call.zmq_setsockopt (env.reply calls.length).ptr zmq_sockopt.ZMQ_SNDHWM
              (zmq_hwm env cf.qlen),
            ext_call.zmq_setsockopt (env.reply calls.length).ptr zmq_sockopt.ZMQ_LINGER 0])) ∧
    ∀ server, cf.server = some server →
      (env.reply calls.length).ptr ≠ none → (env.reply (calls.length + 1)).rc = 0 →
      (env.reply (calls.length + 2)).rc = 0 →
      zmq_create_socket env calls cf =
        some (if (env.reply (calls.length + 3)).rc ≠ 0 then -1 else 0,
          { cf with ctx := some { ctx with zmq_socket := (env.reply calls.length).ptr,
                                           screated := 1 } },
          calls ++ [ext_call.zmq_socket (some context) ZMQ_PUB,
            ext_call.zmq_setsockopt (env.reply calls.length).ptr zmq_sockopt.ZMQ_SNDHWM
              (zmq_hwm env cf.qlen),
            ext_call.zmq_setsockopt (env.reply calls.length).ptr zmq_sockopt.ZMQ_LINGER 0,
            ext_call.zmq_connect (env.reply calls.length).ptr server.connection]) := by
  refine ⟨?_, ?_, ?_, ?_⟩
  · intro h0
    simp only [zmq_create_socket, hctx, hcontext, hscreated, h0, if_true]
    simp
  · intro h0 h1
    simp only [zmq_create_socket, zmq_create_socket_connect, hctx, hcontext, hscreated, h0,
      List.length_append, List.length_singleton, ne_eq, h1, not_false_eq_true, if_true, if_false]
    simp
  · intro h0 h1 h2
    simp only [zmq_create_socket, zmq_create_socket_connect, hctx, hcontext, hscreated, h0,
      List.length_append, List.length_singleton, ne_eq, h1, h2, not_false_eq_true, if_true,
      if_false, not_true_eq_false, ZMQ_NGINX_LINGER]
    simp
  · intro server hserver h0 h1 h2
    by_cases h3 : (env.reply (calls.length + 3)).rc = 0
    · simp [zmq_create_socket, zmq_create_socket_connect, hctx, hcontext, hscreated, h0, h1, h2,
        h3, ZMQ_NGINX_LINGER, hserver]
    · simp [zmq_create_socket, zmq_create_socket_connect, hctx, hcontext, hscreated, h0, h1, h2,
        h3, ZMQ_NGINX_LINGER, hserver]

theorem zmq_create_socket_order_witness :
    example_context_ready.ctx = some example_ready_ctx ∧
    example_ready_ctx.zmq_context = some 2 ∧ example_ready_ctx.screated = 0 ∧
    zmq_create_socket example_env [] example_context_ready =
      some (0,
        { example_context_ready with
          ctx := some { example_ready_ctx with zmq_socket := some 1, screated := 1 } },
        [ext_call.zmq_socket (some 2) ZMQ_PUB,
          ext_call.zmq_setsockopt (some 1) zmq_sockopt.ZMQ_SNDHWM 1000,
          ext_call.zmq_setsockopt (some 1) zmq_sockopt.ZMQ_LINGER 0,
          ext_call.zmq_connect (some 1) (ngx_string "tcp://127.0.0.1:5555")]) :=
  ⟨rfl, rfl, rfl,
    (zmq_create_socket_order example_env [] example_context_ready example_ready_ctx 2 rfl rfl
      rfl).2.2.2
      { peer_addr := { sockaddr := [], name := [] }, kind := ngx_log_zmq_server_kind.TCP,
        connection := ngx_string "tcp://127.0.0.1:5555" }
      rfl (by decide) (by decide) (by decide)⟩

/-! ## What a request may change -/

theorem map_set_of_eq {α β : Type} (f : α → β) (l : List α) (e : Nat) (d d' : α)
    (hd : l[e]? = some d) (h : f d' = f d) : (l.set e d').map f = l.map f := by
  induction l generalizing e with
  | nil => simp
  | cons x xs ih =>
    cases e with
    | zero =>
      simp only [List.getElem?_cons_zero, Option.some.injEq] at hd
      subst hd
      simp [h]
    | succ n =>
      simp only [List.getElem?_cons_succ] at hd
      simp [ih n hd]

theorem handler_send_ctx {env : ngx_env} {e : Nat}
    {clecf : ngx_http_log_zmq_element_conf_t} {zmq_data : ngx_str_t}
    {defs : List ngx_http_log_zmq_element_conf_t} {calls : List ext_call}
    {st : List ngx_http_log_zmq_element_conf_t × List ext_call}
    (h : ngx_http_log_zmq_handler_send env e clecf zmq_data defs calls = some st)
    (d : ngx_http_log_zmq_element_conf_t)
    (hd : defs[e]? = some d) (hdc : d.ctx ≠ none)
    (hc : clecf.ctx ≠ none) (hs : clecf.server ≠ none) :
    st.1.map (fun d => d.ctx.isSome) = defs.map (fun d => d.ctx.isSome) := by
  obtain ⟨⟨rc, cf3, calls3⟩, he, _, hc3, _⟩ := handler_connect_spec env clecf calls hc hs
  unfold ngx_http_log_zmq_handler_send at h
  rw [he] at h
  simp only at h hc3
  have hsome : cf3.ctx.isSome = d.ctx.isSome := by
    cases h1 : cf3.ctx <;> cases h2 : d.ctx <;> simp_all
  split_ifs at h
  · cases h
    exact map_set_of_eq _ defs e d cf3 hd hsome
  · cases h4 : cf3.ctx with
    | none => exact absurd h4 hc3
    | some ctx4 =>
      rw [h4] at h
      cases h
      exact map_set_of_eq _ defs e d cf3 hd hsome

/-- The loop body leaves every definition with a Transport Connection if it had one, and
without if it had none. -/
theorem handler_element_ctx (env : ngx_env) (r : ngx_http_request_t)
    (b : ngx_http_log_zmq_loc_element_conf_t)
    (st st1 : List ngx_http_log_zmq_element_conf_t × List ext_call)
    (h : ngx_http_log_zmq_handler_element env r b st = some st1) :
    st1.1.map (fun d => d.ctx.isSome) = st.1.map (fun d => d.ctx.isSome) := by
  unfold ngx_http_log_zmq_handler_element at h
  repeat' split at h
  all_goals first
    | (cases h; rfl)
    | cases h
    | skip
  · simp only [ite_self] at h
    cases h
    rfl
  · simp only [] at h
    split_ifs at h
    · cases h
      rfl
    · exact handler_send_ctx h _ (by assumption) (by simp [*]) (by simp) (by simp [*])

theorem handler_loop_ctx (env : ngx_env) (r : ngx_http_request_t)
    (bs : List ngx_http_log_zmq_loc_element_conf_t)
    (st st1 : List ngx_http_log_zmq_element_conf_t × List ext_call)
    (h : ngx_http_log_zmq_handler_loop env r bs st = some st1) :
    st1.1.map (fun d => d.ctx.isSome) = st.1.map (fun d => d.ctx.isSome) := by
  induction bs generalizing st with
  | nil =>
    simp only [ngx_http_log_zmq_handler_loop, Option.some.injEq] at h
    subst h
    rfl
  | cons b bs ih =>
    simp only [ngx_http_log_zmq_handler_loop] at h
    cases h1 : ngx_http_log_zmq_handler_element env r b st with
    | none => rw [h1] at h; cases h
    | some st2 =>
      rw [h1] at h
      rw [ih st2 h, handler_element_ctx env r b st st2 h1]

/-- The loop leaves every definition that none of its bindings points at as it was. -/
theorem handler_loop_other (env : ngx_env) (r : ngx_http_request_t)
    (bs : List ngx_http_log_zmq_loc_element_conf_t)
    (st st1 : List ngx_http_log_zmq_element_conf_t × List ext_call)
    (h : ngx_http_log_zmq_handler_loop env r bs st = some st1)
    (k : Nat) (hk : ∀ b ∈ bs, b.element ≠ some k) : st1.1[k]? = st.1[k]? := by
  induction bs generalizing st with
  | nil =>
    simp only [ngx_http_log_zmq_handler_loop, Option.some.injEq] at h
    subst h
    rfl
  | cons b bs ih =>
    simp only [ngx_http_log_zmq_handler_loop] at h
    cases h1 : ngx_http_log_zmq_handler_element env r b st with
    | none => rw [h1] at h; cases h
    | some st2 =>
      rw [h1] at h
      rw [ih st2 h (fun b1 hb1 => hk b1 (List.mem_cons_of_mem _ hb1))]
      rcases handler_element_sets env r b st st2 h1 with h2 | ⟨e, x, he, h2⟩
      · rw [h2]
      · rw [h2]
        have hne : e ≠ k := by
          intro hek
          exact hk b (List.mem_cons_self _ _) (by rw [he, hek])
        exact List.getElem?_set_ne hne

/-- C22: a run of `ngx_http_log_zmq_handler` changes nothing but Transport Connections. On
a well-formed scope it returns, and whatever it returns, the definition array has the
definitions it had, each with its server, worker count, queue length, templates, cycle,
name, log and flags as they were and with a Transport Connection if it had one; a
definition that no binding of the scope points at is left as it was altogether. The scope,
with its binding list and its disable-everything flag, is an argument of the run and no
part of what it leaves: the source assigns nothing through `lccf`, `lelcf` or `clelcf`. -/
theorem ngx_http_log_zmq_handler_keeps_config (env : ngx_env) (r : ngx_http_request_t)
    (lccf : ngx_http_log_zmq_loc_conf_t)
    (defs : List ngx_http_log_zmq_element_conf_t) (calls : List ext_call)
    (hwf : scope_wf lccf defs) :
    (∃ defs1 calls1,
      ngx_http_log_zmq_handler env r lccf defs calls = some (NGX_OK, defs1, calls1)) ∧
    ∀ res, ngx_http_log_zmq_handler env r lccf defs calls = some res →
      List.Forall₂ same_config defs res.2.1 ∧
      res.2.1.map (fun d => d.ctx.isSome) = defs.map (fun d => d.ctx.isSome) ∧
      ∀ k, (∀ b ∈ lccf.logs.getD [], b.element ≠ some k) → res.2.1[k]? = defs[k]? := by
  obtain ⟨⟨bs, hl, hb⟩, hp⟩ := hwf
  constructor
  · by_cases hoff : lccf.off = 1
    · exact ⟨defs, calls, by simp [ngx_http_log_zmq_handler, hoff]⟩
    · obtain ⟨st, hst⟩ := handler_loop_total env r bs (defs, calls) hb hp
      exact ⟨st.1, st.2, by rw [handler_eq_loop env r lccf bs defs calls hoff hl, hst]; rfl⟩
  · intro res hres
    by_cases hoff : lccf.off = 1
    · simp only [ngx_http_log_zmq_handler, hoff, if_true, Option.some.injEq] at hres
      subst hres
      exact ⟨forall2_same_config_refl _, rfl, fun _ _ => rfl⟩
    · rw [handler_eq_loop env r lccf bs defs calls hoff hl] at hres
      cases hloop : ngx_http_log_zmq_handler_loop env r bs (defs, calls) with
      | none => rw [hloop] at hres; cases hres
      | some st =>
        rw [hloop] at hres
        simp only [Option.map_some', Option.some.injEq] at hres
        subst hres
        refine ⟨(handler_loop_frame env r bs (defs, calls) st hloop).1,
          handler_loop_ctx env r bs (defs, calls) st hloop, ?_⟩
        intro k hk
        rw [hl] at hk
        exact handler_loop_other env r bs (defs, calls) st hloop k hk

theorem ngx_http_log_zmq_handler_keeps_config_witness :
    scope_wf example_scope example_definitions ∧
    ngx_http_log_zmq_handler example_env example_request example_scope example_definitions [] =
      some (NGX_OK, [example_connected, example_unrendered],
        example_connect_calls ++
          [ext_call.zmq_msg_send (some 3) (ngx_string "/svc/a.example/200")]) ∧
    List.Forall₂ same_config example_definitions [example_connected, example_unrendered] ∧
    [example_connected, example_unrendered][1]? = example_definitions[1]? :=
  ⟨example_scope_wf _ _ rfl (by decide), by decide,
    ((ngx_http_log_zmq_handler_keeps_config example_env example_request example_scope
      example_definitions [] (example_scope_wf _ _ rfl (by decide))).2
      (NGX_OK, [example_connected, example_unrendered],
        example_connect_calls ++
          [ext_call.zmq_msg_send (some 3) (ngx_string "/svc/a.example/200")])
      (by decide)).1,
    ((ngx_http_log_zmq_handler_keeps_config example_env example_request example_scope
      example_definitions [] (example_scope_wf _ _ rfl (by decide))).2
      (NGX_OK, [example_connected, example_unrendered],
        example_connect_calls ++
          [ext_call.zmq_msg_send (some 3) (ngx_string "/svc/a.example/200")])
      (by decide)).2.2 1 (by decide)⟩

/-! ## The created flags of a Transport Connection -/

theorem zmq_create_socket_connect_cf (env : ngx_env) (calls : List ext_call)
    (cf : ngx_http_log_zmq_element_conf_t) (ctx : ngx_http_log_zmq_ctx_t)
    (res : Int × ngx_http_log_zmq_element_conf_t × List ext_call)
    (h : zmq_create_socket_connect env calls cf ctx = some res) : res.2.1 = cf := by
  unfold zmq_create_socket_connect at h
  repeat' (first | split at h | simp only [] at h)
  all_goals first
    | (cases h; done)
    | (cases h; rfl)

theorem zmq_init_ctx_cover (env : ngx_env) (calls : List ext_call)
    (ctx : ngx_http_log_zmq_ctx_t) (hf : flags_cover ctx) :
    flags_cover (zmq_init_ctx env calls ctx).2.1 := by
  obtain ⟨_, h2⟩ := hf
  unfold zmq_init_ctx
  simp only []
  split_ifs with hp
  · exact ⟨fun h => absurd hp h, h2⟩
  · exact ⟨fun _ => rfl, h2⟩

theorem zmq_init_ctx_exact (env : ngx_env) (calls : List ext_call)
    (ctx : ngx_http_log_zmq_ctx_t) (hf : flags_exact ctx) (hc : ctx.ccreated ≠ 1) :
    flags_exact (zmq_init_ctx env calls ctx).2.1 := by
  obtain ⟨_, h2, h3, h4⟩ := hf
  have h0 : ctx.ccreated = 0 := by
    rcases h3 with h | h
    · exact h
    · exact absurd h hc
  unfold zmq_init_ctx
  simp only []
  split_ifs with hp
  · exact ⟨⟨fun h => absurd h hc, fun h => absurd hp h⟩, h2, Or.inl h0, h4⟩
  · exact ⟨⟨fun _ => hp, fun _ => rfl⟩, h2, Or.inr rfl, h4⟩

theorem zmq_create_ctx_cover (env : ngx_env) (calls : List ext_call)
    (cf : ngx_http_log_zmq_element_conf_t) (ctx : ngx_http_log_zmq_ctx_t)
    (hctx : cf.ctx = some ctx) (hf : flags_cover ctx) :
    ∃ ctx1, (zmq_create_ctx env calls cf).2.1.ctx = some ctx1 ∧ flags_cover ctx1 := by
  unfold zmq_create_ctx
  simp only [hctx]
  split_ifs with hc
  · exact ⟨ctx, hctx, hf⟩
  · exact ⟨_, rfl, zmq_init_ctx_cover env calls { ctx with iothreads := cf.iothreads } hf⟩

theorem zmq_create_ctx_exact (env : ngx_env) (calls : List ext_call)
    (cf : ngx_http_log_zmq_element_conf_t) (ctx : ngx_http_log_zmq_ctx_t)
    (hctx : cf.ctx = some ctx) (hf : flags_exact ctx) :
    ∃ ctx1, (zmq_create_ctx env calls cf).2.1.ctx = some ctx1 ∧ flags_exact ctx1 := by
  unfold zmq_create_ctx
  simp only [hctx]
  split_ifs with hc
  · exact ⟨ctx, hctx, hf⟩
  · exact ⟨_, rfl, zmq_init_ctx_exact env calls { ctx with iothreads := cf.iothreads } hf hc⟩

theorem zmq_create_socket_cover (env : ngx_env) (calls : List ext_call)
    (cf : ngx_http_log_zmq_element_conf_t) (ctx : ngx_http_log_zmq_ctx_t)
    (res : Int × ngx_http_log_zmq_element_conf_t × List ext_call)
    (hctx : cf.ctx = some ctx) (hf : flags_cover ctx)
    (h : zmq_create_socket env calls cf = some res) :
    ∃ ctx1, res.2.1.ctx = some ctx1 ∧ flags_cover ctx1 := by
  obtain ⟨h1, h2⟩ := hf
  unfold zmq_create_socket at h
  simp only [hctx] at h
  split_ifs at h with hc hs hp
  · cases h
    exact ⟨ctx, hctx, h1, h2⟩
  · cases h
    exact ⟨_, rfl, h1, fun hn => absurd hp hn⟩
  · rw [zmq_create_socket_connect_cf _ _ _ _ _ h]
    exact ⟨_, rfl, h1, fun _ => rfl⟩
  · rw [zmq_create_socket_connect_cf _ _ _ _ _ h]
    exact ⟨ctx, hctx, h1, h2⟩

theorem zmq_create_socket_exact (env : ngx_env) (calls : List ext_call)
    (cf : ngx_http_log_zmq_element_conf_t) (ctx : ngx_http_log_zmq_ctx_t)
    (res : Int × ngx_http_log_zmq_element_conf_t × List ext_call)
    (hctx : cf.ctx = some ctx) (hf : flags_exact ctx)
    (h : zmq_create_socket env calls cf = some res) :
    ∃ ctx1, res.2.1.ctx = some ctx1 ∧ flags_exact ctx1 := by
  obtain ⟨h1, h2, h3, h4⟩ := hf
  unfold zmq_create_socket at h
  simp only [hctx] at h
  split_ifs at h with hc hs hp
  · cases h
    exact ⟨ctx, hctx, h1, h2, h3, h4⟩
  · cases h
    refine ⟨_, rfl, h1, ⟨fun h => ?_, fun h => absurd hp h⟩, h3, Or.inl hs⟩
    simp only [hs] at h
    cases h
  · rw [zmq_create_socket_connect_cf _ _ _ _ _ h]
    exact ⟨_, rfl, h1, ⟨fun _ => hp, fun _ => rfl⟩, h3, Or.inr rfl⟩
  · rw [zmq_create_socket_connect_cf _ _ _ _ _ h]
    exact ⟨ctx, hctx, h1, h2, h3, h4⟩

theorem zmq_term_ctx_handles (calls : List ext_call) (ctx : ngx_http_log_zmq_ctx_t) :
    (zmq_term_ctx calls ctx).1.zmq_context = none ∧
    (zmq_term_ctx calls ctx).1.zmq_socket = none ∧
    (zmq_term_ctx calls ctx).1.ccreated = ctx.ccreated ∧
    (zmq_term_ctx calls ctx).1.screated = ctx.screated := by
  unfold zmq_term_ctx
  by_cases hs : ctx.zmq_socket = none <;> by_cases hc : ctx.zmq_context = none <;>
    simp [hs, hc]

theorem zmq_term_ctx_cover (calls : List ext_call) (ctx : ngx_http_log_zmq_ctx_t) :
    flags_cover (zmq_term_ctx calls ctx).1 := by
  obtain ⟨h1, h2, _, _⟩ := zmq_term_ctx_handles calls ctx
  exact ⟨fun h => absurd h1 h, fun h => absurd h2 h⟩

theorem connection_step_cover (ops : List connection_op)
    (cf cf1 : ngx_http_log_zmq_element_conf_t) (h : connection_step ops cf cf1)
    (hf : ∃ ctx, cf.ctx = some ctx ∧ flags_cover ctx) :
    ∃ ctx1, cf1.ctx = some ctx1 ∧ flags_cover ctx1 := by
  obtain ⟨env, calls, op, _, hrun⟩ := h
  obtain ⟨ctx, hctx, hfc⟩ := hf
  cases op with
  | zmq_init_ctx =>
    simp only [connection_op_run, hctx, Option.map_some', Option.some.injEq] at hrun
    subst hrun
    exact ⟨_, rfl, zmq_init_ctx_cover env calls ctx hfc⟩
  | zmq_create_ctx =>
    simp only [connection_op_run, Option.some.injEq] at hrun
    subst hrun
    exact zmq_create_ctx_cover env calls cf ctx hctx hfc
  | zmq_create_socket =>
    simp only [connection_op_run, Option.map_eq_some'] at hrun
    obtain ⟨res, hres, hcf1⟩ := hrun
    subst hcf1
    exact zmq_create_socket_cover env calls cf ctx res hctx hfc hres
  | zmq_term_ctx =>
    simp only [connection_op_run, hctx, Option.map_some', Option.some.injEq] at hrun
    subst hrun
    exact ⟨_, rfl, zmq_term_ctx_cover calls ctx⟩

theorem connection_step_exact (cf cf1 : ngx_http_log_zmq_element_conf_t)
    (h : connection_step [connection_op.zmq_create_ctx, connection_op.zmq_create_socket] cf cf1)
    (hf : ∃ ctx, cf.ctx = some ctx ∧ flags_exact ctx) :
    ∃ ctx1, cf1.ctx = some ctx1 ∧ flags_exact ctx1 := by
  obtain ⟨env, calls, op, hop, hrun⟩ := h
  obtain ⟨ctx, hctx, hfc⟩ := hf
  cases op with
  | zmq_init_ctx => simp at hop
  | zmq_create_ctx =>
    simp only [connection_op_run, Option.some.injEq] at hrun
    subst hrun
    exact zmq_create_ctx_exact env calls cf ctx hctx hfc
  | zmq_create_socket =>
    simp only [connection_op_run, Option.map_eq_some'] at hrun
    obtain ⟨res, hres, hcf1⟩ := hrun
    subst hcf1
    exact zmq_create_socket_exact env calls cf ctx res hctx hfc hres
  | zmq_term_ctx => simp at hop

/-- C27 (what the code does): from a fresh Transport Connection, through any sequence of
`zmq_create_ctx` and `zmq_create_socket` calls with any outcomes of the transport calls,
each created flag is 1 exactly when its handle is there and 0 otherwise, so each guard of
the handler (handle `NULL` and flag 0) holds exactly when the handle is missing; through
`zmq_init_ctx` and `zmq_term_ctx` calls as well, a handle that is there still has its flag
at 1; `zmq_term_ctx` leaves both handles `NULL` and both flags as they were. -/
theorem zmq_created_flags (cf0 cf : ngx_http_log_zmq_element_conf_t)
    (hfresh : fresh_connection cf0) :
    (Relation.ReflTransGen
        (connection_step [connection_op.zmq_create_ctx, connection_op.zmq_create_socket])
        cf0 cf →
      ∃ ctx, cf.ctx = some ctx ∧ flags_exact ctx ∧
        ((ctx.zmq_context = none ∧ ctx.ccreated = 0) ↔ ctx.zmq_context = none) ∧
        ((ctx.zmq_socket = none ∧ ctx.screated = 0) ↔ ctx.zmq_socket = none)) ∧
    (Relation.ReflTransGen
        (connection_step [connection_op.zmq_init_ctx, connection_op.zmq_create_ctx,
          connection_op.zmq_create_socket, connection_op.zmq_term_ctx])
        cf0 cf →
      ∃ ctx, cf.ctx = some ctx ∧ flags_cover ctx) ∧
    ∀ (calls : List ext_call) (ctx : ngx_http_log_zmq_ctx_t),
      (zmq_term_ctx calls ctx).1.zmq_context = none ∧
      (zmq_term_ctx calls ctx).1.zmq_socket = none ∧
      (zmq_term_ctx calls ctx).1.ccreated = ctx.ccreated ∧
      (zmq_term_ctx calls ctx).1.screated = ctx.screated := by
  obtain ⟨ctx0, hctx0, hc0, hs0, hcc0, hsc0⟩ := hfresh
  refine ⟨?_, ?_, zmq_term_ctx_handles⟩
  · intro hsteps
    have hinv : ∃ ctx, cf.ctx = some ctx ∧ flags_exact ctx := by
      induction hsteps with
      | refl =>
        refine ⟨ctx0, hctx0, ?_, ?_, Or.inl hcc0, Or.inl hsc0⟩
        · rw [hcc0, hc0]
          simp
        · rw [hsc0, hs0]
          simp
      | tail _ hstep ih => exact connection_step_exact _ _ hstep ih
    obtain ⟨ctx, hctx, h1, h2, h3, h4⟩ := hinv
    refine ⟨ctx, hctx, ⟨h1, h2, h3, h4⟩, ⟨fun h => h.1, fun h => ⟨h, ?_⟩⟩,
      ⟨fun h => h.1, fun h => ⟨h, ?_⟩⟩⟩
    · rcases h3 with h0 | h0
      · exact h0
      · exact absurd h (h1.mp h0)
    · rcases h4 with h0 | h0
      · exact h0
      · exact absurd h (h2.mp h0)
  · intro hsteps
    induction hsteps with
    | refl => exact ⟨ctx0, hctx0, fun h => absurd hc0 h, fun h => absurd hs0 h⟩
    | tail _ hstep ih => exact connection_step_cover _ _ _ hstep ih

/-- C27 (the claim fails): from the fresh connection of `T`, `zmq_create_ctx`,
`zmq_create_socket` and `zmq_term_ctx` lead to a connection whose handles are `NULL` while
both created flags are 1; and `zmq_create_ctx` followed by a `zmq_init_ctx` whose `zmq_init`
fails leads to one whose context handle is `NULL` while the context flag is 1. -/
theorem zmq_term_ctx_leaves_flags :
    fresh_connection example_definition ∧
    Relation.ReflTransGen
      (connection_step [connection_op.zmq_init_ctx, connection_op.zmq_create_ctx,
        connection_op.zmq_create_socket, connection_op.zmq_term_ctx])
      example_definition example_torn_down ∧
    (∀ ctx, example_torn_down.ctx = some ctx → ¬ flags_exact ctx) ∧
    Relation.ReflTransGen
      (connection_step [connection_op.zmq_init_ctx, connection_op.zmq_create_ctx,
        connection_op.zmq_create_socket, connection_op.zmq_term_ctx])
      example_definition example_lost_context ∧
    (∀ ctx, example_lost_context.ctx = some ctx → ¬ flags_exact ctx) := by
  have h1 : connection_step [connection_op.zmq_init_ctx, connection_op.zmq_create_ctx,
      connection_op.zmq_create_socket, connection_op.zmq_term_ctx]
      example_definition example_context_ready :=
    ⟨example_env, [ext_call.ngx_palloc 18], connection_op.zmq_create_ctx, by simp, by decide⟩
  have h2 : connection_step [connection_op.zmq_init_ctx, connection_op.zmq_create_ctx,
      connection_op.zmq_create_socket, connection_op.zmq_term_ctx]
      example_context_ready
      { example_context_ready with
        ctx := some { example_ready_ctx with zmq_socket := some 3, screated := 1 } } :=
    ⟨example_env, [ext_call.ngx_palloc 18, ext_call.zmq_init 1],
      connection_op.zmq_create_socket, by simp, by decide⟩
  have h3 : connection_step [connection_op.zmq_init_ctx, connection_op.zmq_create_ctx,
      connection_op.zmq_create_socket, connection_op.zmq_term_ctx]
      { example_context_ready with
        ctx := some { example_ready_ctx with zmq_socket := some 3, screated := 1 } }
      example_torn_down :=
    ⟨example_env, [], connection_op.zmq_term_ctx, by simp, by decide⟩
  have h4 : connection_step [connection_op.zmq_init_ctx, connection_op.zmq_create_ctx,
      connection_op.zmq_create_socket, connection_op.zmq_term_ctx]
      example_context_ready example_lost_context :=
    ⟨example_failing_env, [], connection_op.zmq_init_ctx, by simp, by decide⟩
  refine ⟨⟨_, rfl, rfl, rfl, rfl, rfl⟩,
    Relation.ReflTransGen.tail (Relation.ReflTransGen.tail (Relation.ReflTransGen.single h1) h2)
      h3, ?_, Relation.ReflTransGen.tail (Relation.ReflTransGen.single h1) h4, ?_⟩
  · intro ctx hctx hf
    simp only [example_torn_down, Option.some.injEq] at hctx
    subst hctx
    exact absurd rfl (hf.1.mp rfl)
  · intro ctx hctx hf
    simp only [example_lost_context, Option.some.injEq] at hctx
    subst hctx
    exact absurd rfl (hf.1.mp rfl)

theorem zmq_created_flags_witness :
    fresh_connection example_definition ∧
    Relation.ReflTransGen
      (connection_step [connection_op.zmq_create_ctx, connection_op.zmq_create_socket])
      example_definition example_context_ready ∧
    ∃ ctx, example_context_ready.ctx = some ctx ∧ flags_exact ctx ∧
      ((ctx.zmq_context = none ∧ ctx.ccreated = 0) ↔ ctx.zmq_context = none) ∧
      ((ctx.zmq_socket = none ∧ ctx.screated = 0) ↔ ctx.zmq_socket = none) :=
  ⟨⟨_, rfl, rfl, rfl, rfl, rfl⟩,
    Relation.ReflTransGen.single
      ⟨example_env, [ext_call.ngx_palloc 18], connection_op.zmq_create_ctx, by simp,
        by decide⟩,
    (zmq_created_flags example_definition example_context_ready
      ⟨_, rfl, rfl, rfl, rfl, rfl⟩).1
      (Relation.ReflTransGen.single
        ⟨example_env, [ext_call.ngx_palloc 18], connection_op.zmq_create_ctx, by simp,
          by decide⟩)⟩

/-! ## A socket whose set-up failed part-way -/

/-- C23 (the code at the failing input): the first request to `T` creates the context and
the socket and fails at the `ZMQ_SNDHWM` option (the call at position 3), so no linger
option is set, no `zmq_connect` is made and no frame is sent; it leaves `T` with both
handles and both created flags, the state a successful set-up leaves. The next request,
with every call succeeding, makes no connection call and sends its frame on that socket:
the call log of the two requests holds a sent frame and no `zmq_connect`. -/
theorem ngx_http_log_zmq_handler_sends_unconnected :
    ngx_http_log_zmq_handler (example_fails_at 3) example_request example_scope
        [example_definition] [] =
      some (NGX_OK, [example_connected], example_hwm_failed_calls) ∧
    ngx_http_log_zmq_handler example_env example_request example_scope
        [example_connected] example_hwm_failed_calls =
      some (NGX_OK, [example_connected],
        example_hwm_failed_calls ++
          [ext_call.ngx_palloc 18,
            ext_call.zmq_msg_send (some 3) (ngx_string "/svc/a.example/200")]) ∧
    (∀ c ∈ example_hwm_failed_calls ++
          [ext_call.ngx_palloc 18,
            ext_call.zmq_msg_send (some 3) (ngx_string "/svc/a.example/200")],
      ∀ s addr, c ≠ ext_call.zmq_connect s addr) := by
  refine ⟨by decide, by decide, ?_⟩
  intro c hc s addr
  simp only [example_hwm_failed_calls, List.cons_append, List.nil_append, List.mem_cons,
    List.mem_singleton, List.not_mem_nil, or_false] at hc
  rcases hc with rfl | rfl | rfl | rfl | rfl | rfl <;> simp

/-- C21 (the code at the failing input): when `zmq_init` fails on the first request to `T`
(the call at position 1), or `zmq_socket` (position 2), the next request, with every call
succeeding, makes the failed call again, completes the set-up, connects and sends. When
`zmq_connect` fails on the first request (position 5), no frame is sent, and the next
request, with every call succeeding, does not attempt `zmq_connect` again, nor any other
connection call: it allocates the message and sends it on the socket that is not
connected. -/
theorem ngx_http_log_zmq_handler_no_second_connect :
    (ngx_http_log_zmq_handler (example_fails_at 1) example_request example_scope
        [example_definition] []).bind
      (fun res => (ngx_http_log_zmq_handler example_env example_request example_scope
        res.2.1 res.2.2).map fun res1 => res1.2.2.drop res.2.2.length) =
      some [ext_call.ngx_palloc 18, ext_call.zmq_init 1, ext_call.zmq_socket (some 4) ZMQ_PUB,
        ext_call.zmq_setsockopt (some 5) zmq_sockopt.ZMQ_SNDHWM 1000,
        ext_call.zmq_setsockopt (some 5) zmq_sockopt.ZMQ_LINGER 0,
        ext_call.zmq_connect (some 5) (ngx_string "tcp://127.0.0.1:5555"),
        ext_call.zmq_msg_send (some 5) (ngx_string "/svc/a.example/200")] ∧
    (ngx_http_log_zmq_handler (example_fails_at 2) example_request example_scope
        [example_definition] []).bind
      (fun res => (ngx_http_log_zmq_handler example_env example_request example_scope
        res.2.1 res.2.2).map fun res1 => res1.2.2.drop res.2.2.length) =
      some [ext_call.ngx_palloc 18, ext_call.zmq_socket (some 2) ZMQ_PUB,
        ext_call.zmq_setsockopt (some 5) zmq_sockopt.ZMQ_SNDHWM 1000,
        ext_call.zmq_setsockopt (some 5) zmq_sockopt.ZMQ_LINGER 0,
        ext_call.zmq_connect (some 5) (ngx_string "tcp://127.0.0.1:5555"),
        ext_call.zmq_msg_send (some 5) (ngx_string "/svc/a.example/200")] ∧
    ngx_http_log_zmq_handler (example_fails_at 5) example_request example_scope
        [example_definition] [] =
      some (NGX_OK, [example_connected], example_connect_calls) ∧
    sends example_connect_calls = [] ∧
    ngx_http_log_zmq_handler example_env example_request example_scope
        [example_connected] example_connect_calls =
      some (NGX_OK, [example_connected],
        example_connect_calls ++
          [ext_call.ngx_palloc 18,
            ext_call.zmq_msg_send (some 3) (ngx_string "/svc/a.example/200")]) ∧
    connection_calls [ext_call.ngx_palloc 18,
      ext_call.zmq_msg_send (some 3) (ngx_string "/svc/a.example/200")] = [] := by
  decide

/-! ## Muting a name that is not declared -/

/-- Whatever `ngx_http_log_zmq_merge_loc_conf` returns, the disable-everything flag of the
child is the one it had. -/
theorem merge_loc_conf_off (cf : ngx_conf_t) (prev conf conf1 : ngx_http_log_zmq_loc_conf_t)
    (rc : ngx_conf_rc)
    (h : ngx_http_log_zmq_merge_loc_conf cf prev conf = some (rc, conf1)) :
    conf1.off = conf.off := by
  have key : ∀ c2 : ngx_http_log_zmq_loc_conf_t, c2.off = conf.off →
      ∀ bkmc : ngx_http_log_zmq_main_conf_t,
      (if prev.logs_definition = logs_definition_ptr.main_logs then
        match bkmc.logs with
        | none => none
        | some element =>
          match merge_loop element element 0 (c2.logs.getD []) with
          | none => none
          | some logs => some (ngx_conf_rc.NGX_CONF_OK, { c2 with logs := some logs })
      else some (ngx_conf_rc.NGX_CONF_OK, c2)) = some (rc, conf1) →
      conf1.off = conf.off := by
    intro c2 hc2 bkmc hk
    split at hk
    · split at hk
      · cases hk
      · split at hk
        · cases hk
        · simp only [Option.some.injEq, Prod.mk.injEq] at hk
          obtain ⟨_, h1⟩ := hk
          subst h1
          exact hc2
    · simp only [Option.some.injEq, Prod.mk.injEq] at hk
      obtain ⟨_, h1⟩ := hk
      subst h1
      exact hc2
  unfold ngx_http_log_zmq_merge_loc_conf at h
  cases hmain : cf.main_conf with
  | none =>
    simp only [hmain, Option.some.injEq, Prod.mk.injEq] at h
    obtain ⟨_, h1⟩ := h
    subst h1
    rfl
  | some bkmc =>
    simp only [hmain] at h
    refine key _ ?_ bkmc h
    split_ifs <;> rfl

/-- C29: `ngx_http_log_zmq_merge_loc_conf` never changes the disable-everything flag of the
child scope. In a well-formed configuration it returns `NGX_CONF_OK` with the flag as the
child had it, no run of it with any parent returns a child with another flag, and a child as
`ngx_http_log_zmq_create_loc_conf` returns it, with no directive of its own, has the flag at
0 after the merge whatever the parent holds, its flag included. -/
theorem ngx_http_log_zmq_merge_keeps_off (cf : ngx_conf_t)
    (prev conf : ngx_http_log_zmq_loc_conf_t) (bkmc : ngx_http_log_zmq_main_conf_t)
    (defs : List ngx_http_log_zmq_element_conf_t)
    (logs : List ngx_http_log_zmq_loc_element_conf_t)
    (hmain : cf.main_conf = some bkmc) (hdefs : bkmc.logs = some defs)
    (hlogs : conf.logs = some logs)
    (hnamed : registry_named defs) (hvalid : bindings_valid defs logs) :
    (∃ conf1,
      ngx_http_log_zmq_merge_loc_conf cf prev conf = some (ngx_conf_rc.NGX_CONF_OK, conf1) ∧
      conf1.off = conf.off) ∧
    (∀ (cf1 : ngx_conf_t) (prev1 : ngx_http_log_zmq_loc_conf_t) (rc : ngx_conf_rc)
      (conf1 : ngx_http_log_zmq_loc_conf_t),
      ngx_http_log_zmq_merge_loc_conf cf1 prev1 conf = some (rc, conf1) →
      conf1.off = conf.off) ∧
    ∀ (cf0 : ngx_conf_t) (prev1 : ngx_http_log_zmq_loc_conf_t), ∃ conf1,
      ngx_http_log_zmq_merge_loc_conf cf prev1 (ngx_http_log_zmq_create_loc_conf cf0) =
        some (ngx_conf_rc.NGX_CONF_OK, conf1) ∧
      conf1.off = 0 := by
  refine ⟨?_, ?_, ?_⟩
  · obtain ⟨conf1, _, h1, _⟩ :=
      merge_loc_conf_run cf prev conf bkmc defs logs hmain hdefs hlogs hnamed hvalid
    exact ⟨conf1, h1, merge_loc_conf_off cf prev conf conf1 _ h1⟩
  · intro cf1 prev1 rc conf1 h
    exact merge_loc_conf_off cf1 prev1 conf conf1 rc h
  · intro cf0 prev1
    obtain ⟨conf1, _, h1, _⟩ :=
      merge_loc_conf_run cf prev1 (ngx_http_log_zmq_create_loc_conf cf0) bkmc defs [] hmain
        hdefs rfl hnamed (by intro b hb; cases hb)
    exact ⟨conf1, h1, merge_loc_conf_off cf prev1 _ conf1 _ h1⟩

theorem ngx_http_log_zmq_merge_keeps_off_witness :
    registry_named [example_definition] ∧
    bindings_valid [example_definition] [{ off := 1, element := some 0 }] ∧
    ∃ conf1,
      ngx_http_log_zmq_merge_loc_conf (example_cf [])
          { example_scope with off := 1 } (ngx_http_log_zmq_create_loc_conf (example_cf [])) =
        some (ngx_conf_rc.NGX_CONF_OK, conf1) ∧
      conf1.off = 0 :=
  ⟨example_registry_named, example_bindings_valid 1,
    (ngx_http_log_zmq_merge_keeps_off (example_cf []) example_scope example_muted_parent
      example_main_conf [example_definition] [{ off := 1, element := some 0 }] rfl rfl rfl
      example_registry_named (example_bindings_valid 1)).2.2 (example_cf [])
      { example_scope with off := 1 }⟩

/-! ## The binding list the merge leaves -/

theorem inherited_cons (defs : List ngx_http_log_zmq_element_conf_t)
    (logs : List ngx_http_log_zmq_loc_element_conf_t)
    (d : ngx_http_log_zmq_element_conf_t) (todo : List ngx_http_log_zmq_element_conf_t)
    (i : Nat) (n : ngx_str_t) (hn : d.name = some n) :
    inherited defs logs (d :: todo) i =
      (if carried defs n logs = true then []
        else [({ off := 0, element := some i } : ngx_http_log_zmq_loc_element_conf_t)]) ++
      inherited defs logs todo (i + 1) := by
  simp only [inherited, List.enumFrom_cons, List.filterMap_cons, hn]
  split_ifs <;> simp

theorem mem_inherited (defs : List ngx_http_log_zmq_element_conf_t)
    (logs : List ngx_http_log_zmq_loc_element_conf_t)
    (todo : List ngx_http_log_zmq_element_conf_t) (i : Nat)
    (b : ngx_http_log_zmq_loc_element_conf_t) (hb : b ∈ inherited defs logs todo i) :
    b.off = 0 ∧ ∃ k, b.element = some k ∧ i ≤ k := by
  simp only [inherited, List.mem_filterMap] at hb
  obtain ⟨⟨k, d⟩, hmem, hf⟩ := hb
  have hik : i ≤ k := (List.mk_mem_enumFrom_iff_le_and_getElem?_sub.mp hmem).1
  simp only [] at hf
  split at hf
  · split_ifs at hf
    simp only [Option.some.injEq] at hf
    subst hf
    exact ⟨rfl, k, rfl, hik⟩
  · cases hf

theorem inherited_count_below (defs : List ngx_http_log_zmq_element_conf_t)
    (logs : List ngx_http_log_zmq_loc_element_conf_t)
    (todo : List ngx_http_log_zmq_element_conf_t) (i k : Nat) (hk : k < i) :
    ((inherited defs logs todo i).map fun b => b.element).count (some k) = 0 := by
  rw [List.count_eq_zero]
  intro hmem
  simp only [List.mem_map] at hmem
  obtain ⟨b, hb, hbe⟩ := hmem
  obtain ⟨_, k1, hk1, hik⟩ := mem_inherited defs logs todo i b hb
  rw [hk1, Option.some.injEq] at hbe
  omega

theorem inherited_count (defs : List ngx_http_log_zmq_element_conf_t)
    (logs : List ngx_http_log_zmq_loc_element_conf_t) (hnamed : registry_named defs)
    (todo : List ngx_http_log_zmq_element_conf_t) (i : Nat)
    (htodo : ∀ t, todo[t]? = defs[i + t]?) (k : Nat) (n : ngx_str_t)
    (hik : i ≤ k) (hlt : k < i + todo.length)
    (hn : (defs[k]?.bind fun d => d.name) = some n) :
    ((inherited defs logs todo i).map fun b => b.element).count (some k) =
      if carried defs n logs = true then 0 else 1 := by
  induction todo generalizing i with
  | nil => simp only [List.length_nil] at hlt; omega
  | cons d todo ih =>
    have hel : defs[i]? = some d := by
      have := htodo 0
      simpa using this.symm
    have htodo1 : ∀ t, todo[t]? = defs[i + 1 + t]? := by
      intro t
      have := htodo (t + 1)
      rw [List.getElem?_cons_succ] at this
      rw [this]
      congr 1
      omega
    cases hdn : d.name with
    | none => exact absurd hdn (hnamed _ (List.getElem?_mem hel))
    | some dn =>
      rw [inherited_cons defs logs d todo i dn hdn, List.map_append, List.count_append]
      by_cases hki : k = i
      · subst hki
        rw [hel] at hn
        simp only [Option.some_bind, hdn, Option.some.injEq] at hn
        subst hn
        rw [inherited_count_below defs logs todo (k + 1) k (by omega)]
        split_ifs <;> simp
      · rw [ih (i + 1) htodo1 (by omega) (by simp only [List.length_cons] at hlt; omega)]
        have h0 : ((if carried defs dn logs = true then []
            else [({ off := 0, element := some i } : ngx_http_log_zmq_loc_element_conf_t)]).map
            fun b => b.element).count (some k) = 0 := by
          split_ifs
          · simp
          · simp only [List.map_cons, List.map_nil]
            rw [List.count_eq_zero]
            simp only [List.mem_singleton, Option.some.injEq]
            omega
        rw [h0, Nat.zero_add]

theorem carried_added (defs : List ngx_http_log_zmq_element_conf_t)
    (huniq : registry_unique defs) (i : Nat) (en : ngx_str_t)
    (hi : (defs[i]?.bind fun d => d.name) = some en)
    (pre : List ngx_http_log_zmq_loc_element_conf_t)
    (hpre : ∀ b ∈ pre, ∃ k, b.element = some k ∧ k < i) : carried defs en pre = false := by
  rw [Bool.eq_false_iff]
  intro hc
  simp only [carried, List.any_eq_true] at hc
  obtain ⟨b, hb, hm⟩ := hc
  obtain ⟨k, hk, hlt⟩ := hpre b hb
  cases hbn : binding_name defs b with
  | none => simp [hbn] at hm
  | some cn =>
    simp only [hbn] at hm
    have hkn : (defs[k]?.bind fun d => d.name) = some cn := by
      simpa [binding_name, hk] using hbn
    have : i = k := huniq i k en cn hi hkn hm
    omega

theorem merge_loop_inherited (defs : List ngx_http_log_zmq_element_conf_t)
    (hnamed : registry_named defs) (huniq : registry_unique defs)
    (todo : List ngx_http_log_zmq_element_conf_t) (i : Nat)
    (logs pre : List ngx_http_log_zmq_loc_element_conf_t)
    (htodo : ∀ t, todo[t]? = defs[i + t]?)
    (hvalid : bindings_valid defs (logs ++ pre))
    (hpre : ∀ b ∈ pre, ∃ k, b.element = some k ∧ k < i) :
    merge_loop defs todo i (logs ++ pre) = some (logs ++ pre ++ inherited defs logs todo i) := by
  induction todo generalizing i pre with
  | nil => simp [merge_loop, inherited]
  | cons d todo ih =>
    have hel : defs[i]? = some d := by
      have := htodo 0
      simpa using this.symm
    have hilt : i < defs.length := by
      by_contra hge
      rw [List.getElem?_eq_none (by omega)] at hel
      cases hel
    have htodo1 : ∀ t, todo[t]? = defs[i + 1 + t]? := by
      intro t
      have := htodo (t + 1)
      rw [List.getElem?_cons_succ] at this
      rw [this]
      congr 1
      omega
    cases hdn : d.name with
    | none => exact absurd hdn (hnamed _ (List.getElem?_mem hel))
    | some en =>
      have hname_i : (defs[i]?.bind fun d => d.name) = some en := by simp [hel, hdn]
      have hcar : carried defs en (logs ++ pre) = carried defs en logs := by
        rw [carried_append, carried_added defs huniq i en hname_i pre hpre, Bool.or_false]
      simp only [merge_loop, hdn, merge_found_spec defs en (logs ++ pre) 0 hnamed hvalid, hcar]
      rw [inherited_cons defs logs d todo i en hdn]
      by_cases hc : carried defs en logs = true
      · simp only [hc, if_true, one_ne_zero, if_false, List.nil_append]
        exact ih (i + 1) pre htodo1 hvalid (fun b hb => by
          obtain ⟨k, hk, hlt⟩ := hpre b hb
          exact ⟨k, hk, by omega⟩)
      · simp only [hc, if_false, if_true]
        have hstep := ih (i + 1)
          (pre ++ [({ off := 0, element := some i } : ngx_http_log_zmq_loc_element_conf_t)])
          htodo1
          (by
            intro b hb
            simp only [List.mem_append, List.mem_singleton] at hb
            rcases hb with hb | hb | rfl
            · exact hvalid b (List.mem_append_left _ hb)
            · exact hvalid b (List.mem_append_right _ hb)
            · exact ⟨i, rfl, hilt⟩)
          (by
            intro b hb
            simp only [List.mem_append, List.mem_singleton] at hb
            rcases hb with hb | rfl
            · obtain ⟨k, hk, hlt⟩ := hpre b hb
              exact ⟨k, hk, by omega⟩
            · exact ⟨i, rfl, by omega⟩)
        simp only [List.append_assoc] at hstep ⊢
        exact hstep

theorem count_eq_one_of_nodup {α : Type} [BEq α] [LawfulBEq α] (l : List α) (a : α)
    (hn : l.Nodup) (ha : a ∈ l) : l.count a = 1 := by
  induction l with
  | nil => cases ha
  | cons x xs ih =>
    rw [List.nodup_cons] at hn
    rw [List.count_cons]
    rcases List.mem_cons.mp ha with rfl | hmem
    · rw [List.count_eq_zero.mpr hn.1]
      simp
    · have hne : x ≠ a := by
        rintro rfl
        exact hn.1 hmem
      rw [ih hn.2 hmem]
      simp [hne]

/-- C30: in a well-formed configuration (every definition named, no two names matching,
every child binding pointing at a definition), when the parent scope carries the definition
array the merge returns `NGX_CONF_OK` and leaves as binding list the bindings of the child,
in their order, followed by one un-muted binding for each definition whose name no child
binding carries, in the order of the array; when no two child bindings point at one
definition, every definition then has exactly one binding in the merged scope. When the
parent scope does not carry the array, the bindings of the child are left as they are. -/
theorem ngx_http_log_zmq_merge_bindings (cf : ngx_conf_t)
    (prev conf : ngx_http_log_zmq_loc_conf_t) (bkmc : ngx_http_log_zmq_main_conf_t)
    (defs : List ngx_http_log_zmq_element_conf_t)
    (logs : List ngx_http_log_zmq_loc_element_conf_t)
    (hmain : cf.main_conf = some bkmc) (hdefs : bkmc.logs = some defs)
    (hlogs : conf.logs = some logs)
    (hnamed : registry_named defs) (huniq : registry_unique defs)
    (hvalid : bindings_valid defs logs) :
    (prev.logs_definition = logs_definition_ptr.main_logs →
      ∃ conf1,
        ngx_http_log_zmq_merge_loc_conf cf prev conf = some (ngx_conf_rc.NGX_CONF_OK, conf1) ∧
        conf1.logs = some (logs ++ inherited defs logs defs 0) ∧
        (∀ b ∈ inherited defs logs defs 0, b.off = 0) ∧
        (bindings_unique logs → ∀ k, k < defs.length →
          ((logs ++ inherited defs logs defs 0).map fun b => b.element).count (some k) = 1)) ∧
    (prev.logs_definition ≠ logs_definition_ptr.main_logs →
      ∃ conf1,
        ngx_http_log_zmq_merge_loc_conf cf prev conf = some (ngx_conf_rc.NGX_CONF_OK, conf1) ∧
        conf1.logs = some logs) := by
  constructor
  · intro hprev
    have hloop := merge_loop_inherited defs hnamed huniq defs 0 logs [] (fun t => by simp)
      (by simpa using hvalid) (by intro b hb; cases hb)
    simp only [List.append_nil] at hloop
    have hmerge : ∃ conf1,
        ngx_http_log_zmq_merge_loc_conf cf prev conf = some (ngx_conf_rc.NGX_CONF_OK, conf1) ∧
        conf1.logs = some (logs ++ inherited defs logs defs 0) := by
      unfold ngx_http_log_zmq_merge_loc_conf
      simp only [hmain, hprev, if_true, hdefs]
      split_ifs <;> simp only [hlogs, Option.getD_some, hloop] <;> exact ⟨_, rfl, rfl⟩
    obtain ⟨conf1, hrun, hconf1⟩ := hmerge
    refine ⟨conf1, hrun, hconf1, fun b hb => (mem_inherited defs logs defs 0 b hb).1, ?_⟩
    · intro hbu k hk
      obtain ⟨d, hd⟩ : ∃ d, defs[k]? = some d := ⟨_, List.getElem?_eq_getElem hk⟩
      cases hdn : d.name with
      | none => exact absurd hdn (hnamed _ (List.getElem?_mem hd))
      | some n =>
        have hkn : (defs[k]?.bind fun d => d.name) = some n := by simp [hd, hdn]
        rw [List.map_append, List.count_append,
          inherited_count defs logs hnamed defs 0 (fun t => by simp) k n (Nat.zero_le _)
            (by omega) hkn]
        by_cases hc : carried defs n logs = true
        · rw [if_pos hc, Nat.add_zero]
          apply count_eq_one_of_nodup _ _ hbu
          simp only [carried, List.any_eq_true] at hc
          obtain ⟨c, hc1, hc2⟩ := hc
          cases hbn : binding_name defs c with
          | none => simp [hbn] at hc2
          | some cn =>
            simp only [hbn] at hc2
            cases he : c.element with
            | none => simp [binding_name, he] at hbn
            | some e =>
              have hen : (defs[e]?.bind fun d => d.name) = some cn := by
                simpa [binding_name, he] using hbn
              have hke : k = e := huniq k e n cn hkn hen hc2
              subst hke
              exact List.mem_map.mpr ⟨c, hc1, he⟩
        · rw [if_neg hc]
          have h0 : (logs.map fun b => b.element).count (some k) = 0 := by
            rw [List.count_eq_zero]
            intro hmem
            obtain ⟨c, hc1, hc2⟩ := List.mem_map.mp hmem
            apply hc
            simp only [carried, List.any_eq_true]
            refine ⟨c, hc1, ?_⟩
            have hbn : binding_name defs c = some n := by
              simp [binding_name, hc2, hd, hdn]
            simp only [hbn]
            exact name_matches_refl n
          rw [h0]
  · intro hprev
    unfold ngx_http_log_zmq_merge_loc_conf
    simp only [hmain, hprev, if_false]
    split_ifs <;> exact ⟨_, rfl, hlogs⟩

theorem example_definitions_named : registry_named example_definitions := by
  intro d hd
  simp only [example_definitions, List.mem_cons, List.mem_singleton, List.not_mem_nil,
    or_false] at hd
  rcases hd with rfl | rfl <;> simp [example_definition, example_unrendered]

theorem example_definitions_unique : registry_unique example_definitions := by
  intro i j a b hi hj hm
  match i, j with
  | 0, 0 => rfl
  | 1, 1 => rfl
  | 0, 1 =>
    simp only [example_definitions, List.getElem?_cons_zero, List.getElem?_cons_succ,
      Option.some_bind, example_definition, example_unrendered, Option.some.injEq] at hi hj
    subst hi
    subst hj
    revert hm
    decide
  | 1, 0 =>
    simp only [example_definitions, List.getElem?_cons_zero, List.getElem?_cons_succ,
      Option.some_bind, example_definition, example_unrendered, Option.some.injEq] at hi hj
    subst hi
    subst hj
    revert hm
    decide
  | 0, j + 2 => simp [example_definitions] at hj
  | 1, j + 2 => simp [example_definitions] at hj
  | i + 2, _ => simp [example_definitions] at hi

theorem ngx_http_log_zmq_merge_bindings_witness :
    registry_named example_definitions ∧ registry_unique example_definitions ∧
    bindings_valid example_definitions [{ off := 1, element := some 1 }] ∧
    example_scope.logs_definition = logs_definition_ptr.main_logs ∧
    inherited example_definitions [{ off := 1, element := some 1 }] example_definitions 0 =
      [{ off := 0, element := some 0 }] ∧
    ∃ conf1,
      ngx_http_log_zmq_merge_loc_conf example_two_cf example_scope
          { example_location with logs := some [{ off := 1, element := some 1 }] } =
        some (ngx_conf_rc.NGX_CONF_OK, conf1) ∧
      conf1.logs = some ([({ off := 1, element := some 1 } :
          ngx_http_log_zmq_loc_element_conf_t)] ++
        inherited example_definitions [{ off := 1, element := some 1 }]
          example_definitions 0) := by
  have hvalid : bindings_valid example_definitions [{ off := 1, element := some 1 }] := by
    intro b hb
    simp only [List.mem_singleton] at hb
    subst hb
    exact ⟨1, rfl, by decide⟩
  obtain ⟨conf1, h1, h2, _⟩ := (ngx_http_log_zmq_merge_bindings example_two_cf example_scope
    { example_location with logs := some [{ off := 1, element := some 1 }] }
    { example_main_conf with logs := some example_definitions } example_definitions
    [{ off := 1, element := some 1 }] rfl rfl rfl example_definitions_named
    example_definitions_unique hvalid).1 rfl
  exact ⟨example_definitions_named, example_definitions_unique, hvalid, rfl, by decide,
    conf1, h1, h2⟩

/-! ## The merge of the brokerlog module -/

/-- C25 (the code at the failing input): the `http` level declares the target `A`, not
muted, and a `location` has muted it with `brokerlog_off A`. The merge of the `location`
with the `http` level returns `NGX_CONF_OK` and leaves the definition of `A` in the
`location` with mute flag 0: the flag the child set is overwritten with the one of the
parent. -/
theorem ngx_http_brokerlog_merge_loc_conf_unmutes :
    (example_brokerlog_muted "A").off = 1 ∧ (example_brokerlog_target "A" 10).off = 0 ∧
    (ngx_http_brokerlog_merge_loc_conf example_brokerlog_pool 2
        (example_brokerlog_memory [example_brokerlog_target "A" 10]
          [example_brokerlog_muted "A"])
        example_brokerlog_http example_brokerlog_location).map (fun res => res.1) =
      some ngx_conf_rc.NGX_CONF_OK ∧
    (ngx_http_brokerlog_merge_loc_conf example_brokerlog_pool 2
        (example_brokerlog_memory [example_brokerlog_target "A" 10]
          [example_brokerlog_muted "A"])
        example_brokerlog_http example_brokerlog_location).bind
      (fun res => brokerlog_logs res.2.1 1) =
      some [{ example_brokerlog_muted "A" with
              server := ngx_conf_ptr.addr 10, ctx := ngx_conf_ptr.addr 15,
              sset := 1, fset := 1, eset := 1, off := 0 }] := by
  refine ⟨by decide, by decide, by decide, by decide⟩

/-- C26 (the code at the failing inputs): a `location` holds a definition of `B` with the
server, the connection and the message template unset (pointers at `NGX_CONF_UNSET_PTR`,
format flag at `NGX_CONF_UNSET`), and the `http` level holds `B` in full.
When the `http` level holds `B` at the same position, the merge fills in the server, the
connection and the message template of the parent. When the `http` level holds `A`,
without format, before `B`, and the `location` holds `B` before `A`, so that `B` is at
position 1 in the parent and at position 0 in the child, the merge fills in the server and
the connection and leaves the message template of `B` in the `location` unset. When the
`location` holds `B` alone, in its array of one slot, `A` is not found and
`ngx_array_push` moves the array of the `location` to a new block; the merge of `B` is
then written into the block the array has left, and the definition of `B` in the array of
the `location` is as it was, its server and connection unset as well. A definition as
`brokerlog_off B` leaves it, with the template pointers at `NGX_CONF_UNSET_PTR` and the
format flag 0, keeps its template unset also at the same position. -/
theorem ngx_http_brokerlog_merge_loc_conf_position :
    (ngx_http_brokerlog_merge_loc_conf example_brokerlog_pool 2
        (example_brokerlog_memory [example_brokerlog_target "B" 20]
          [example_brokerlog_override "B"])
        example_brokerlog_http example_brokerlog_location).bind
      (fun res => brokerlog_logs res.2.1 1) =
      some [{ example_brokerlog_override "B" with
              server := ngx_conf_ptr.addr 20, ctx := ngx_conf_ptr.addr 25,
              data_lengths := ngx_conf_ptr.addr 21, data_values := ngx_conf_ptr.addr 22,
              sset := 1, fset := 1, eset := 1 }] ∧
    (ngx_http_brokerlog_merge_loc_conf example_brokerlog_pool 3
        (example_brokerlog_memory [example_brokerlog_unformatted, example_brokerlog_target "B" 20]
          [example_brokerlog_override "B", example_brokerlog_muted "A"])
        example_brokerlog_http example_brokerlog_location).bind
      (fun res => (brokerlog_logs res.2.1 1).bind fun logs => logs[0]?) =
      some { example_brokerlog_override "B" with
             server := ngx_conf_ptr.addr 20, ctx := ngx_conf_ptr.addr 25,
             data_lengths := ngx_conf_ptr.unset, data_values := ngx_conf_ptr.unset,
             sset := 1, fset := 1, eset := 1 } ∧
    (ngx_http_brokerlog_merge_loc_conf example_brokerlog_pool 3
        (example_brokerlog_memory [example_brokerlog_unformatted, example_brokerlog_target "B" 20]
          [example_brokerlog_override "B"])
        example_brokerlog_http example_brokerlog_location).bind
      (fun res => brokerlog_logs res.2.1 1) =
      some [example_brokerlog_override "B", example_brokerlog_uninit 1] ∧
    (ngx_http_brokerlog_merge_loc_conf example_brokerlog_pool 3
        (example_brokerlog_memory [example_brokerlog_unformatted, example_brokerlog_target "B" 20]
          [example_brokerlog_override "B"])
        example_brokerlog_http example_brokerlog_location).bind
      (fun res => res.2.1.blocks[1]?) =
      some [{ example_brokerlog_override "B" with
              server := ngx_conf_ptr.addr 20, ctx := ngx_conf_ptr.addr 25,
              data_lengths := ngx_conf_ptr.unset, data_values := ngx_conf_ptr.unset,
              sset := 1, fset := 1, eset := 1 }] ∧
    (ngx_http_brokerlog_merge_loc_conf example_brokerlog_pool 2
        (example_brokerlog_memory [example_brokerlog_target "B" 20]
          [example_brokerlog_muted "B"])
        example_brokerlog_http example_brokerlog_location).bind
      (fun res => brokerlog_logs res.2.1 1) =
      some [{ example_brokerlog_muted "B" with
              server := ngx_conf_ptr.addr 20, ctx := ngx_conf_ptr.addr 25,
              data_lengths := ngx_conf_ptr.unset, data_values := ngx_conf_ptr.unset,
              sset := 1, fset := 1, eset := 1, off := 0 }] := by
  refine ⟨by decide, by decide, by decide, by decide, by decide⟩

end NgxLogZmq
